import Mathlib

/-!
# Vendor financing chaincode: a shallow embedding

The contract of `vendorfinance.go` keeps three kinds of records (quotes, purchase orders and
invoices) in the world state of a ledger, one JSON document per key.

* Go strings and byte slices are lists of bytes (`Bytes`); a Go string need not be valid UTF-8.
* `encoding/json` is embedded for the structs the contract uses (flat structs whose fields are
  all strings): `encodeStruct` is `json.Marshal`, `decodeStruct` is `json.Unmarshal`.
* The stub behind `ctx.GetStub()` is a key-value state with two calls that may fail (`Stub`);
  which calls fail is fixed during one transaction and free to change from one transaction to
  the next (`Faults`, `Stub.next`, `runAll`).
* Each method of `SmartContract` is a function from the state before the call to the value
  returned and the state after it.
-/

namespace VendorFinance

/-! ### Bytes and UTF-8 (package unicode/utf8) -/

abbrev Byte := Fin 256

abbrev Bytes := List Byte

/-- The bytes of a Go string literal whose characters are all ASCII. -/
def ascii (s : String) : Bytes := s.toList.map (fun c => Fin.ofNat c.toNat)

/-- The rune `utf8.RuneError` (U+FFFD). -/
def RuneError : Nat := 0xFFFD

/-- Lower bound of the second byte of an encoding that starts with p0 (table `acceptRanges`). -/
def acceptLo (p0 : Nat) : Nat := if p0 = 0xE0 then 0xA0 else if p0 = 0xF0 then 0x90 else 0x80

/-- Upper bound of the second byte of an encoding that starts with p0 (table `acceptRanges`). -/
def acceptHi (p0 : Nat) : Nat := if p0 = 0xED then 0x9F else if p0 = 0xF4 then 0x8F else 0xBF

/-- The function `utf8.DecodeRune`: the first rune of p and its width in bytes; `(RuneError, 1)`
when p does not start with a valid encoding and `(RuneError, 0)` when p is empty. -/
def DecodeRune : Bytes → Nat × Nat
  | [] => (RuneError, 0)
  | p0 :: rest =>
    if p0.val < 0x80 then (p0.val, 1)
    else if p0.val < 0xC2 ∨ 0xF4 < p0.val then (RuneError, 1)
    else if p0.val < 0xE0 then
      match rest with
      | b1 :: _ =>
        if 0x80 ≤ b1.val ∧ b1.val ≤ 0xBF then (p0.val % 0x20 * 0x40 + b1.val % 0x40, 2)
        else (RuneError, 1)
      | _ => (RuneError, 1)
    else if p0.val < 0xF0 then
      match rest with
      | b1 :: b2 :: _ =>
        if acceptLo p0.val ≤ b1.val ∧ b1.val ≤ acceptHi p0.val ∧ 0x80 ≤ b2.val ∧ b2.val ≤ 0xBF then
          (p0.val % 0x10 * 0x1000 + b1.val % 0x40 * 0x40 + b2.val % 0x40, 3)
        else (RuneError, 1)
      | _ => (RuneError, 1)
    else
      match rest with
      | b1 :: b2 :: b3 :: _ =>
        if acceptLo p0.val ≤ b1.val ∧ b1.val ≤ acceptHi p0.val ∧ 0x80 ≤ b2.val ∧ b2.val ≤ 0xBF
            ∧ 0x80 ≤ b3.val ∧ b3.val ≤ 0xBF then
          (p0.val % 0x08 * 0x40000 + b1.val % 0x40 * 0x1000 + b2.val % 0x40 * 0x40 + b3.val % 0x40, 4)
        else (RuneError, 1)
      | _ => (RuneError, 1)

/-- The function `utf8.EncodeRune`: the UTF-8 encoding of the rune r. -/
def EncodeRune (r : Nat) : Bytes :=
  if r ≤ 0x7F then [Fin.ofNat r]
  else if r ≤ 0x7FF then [Fin.ofNat (0xC0 + r / 0x40), Fin.ofNat (0x80 + r % 0x40)]
  else if 0x10FFFF < r ∨ (0xD800 ≤ r ∧ r ≤ 0xDFFF) then [0xEF, 0xBF, 0xBD]
  else if r ≤ 0xFFFF then
    [Fin.ofNat (0xE0 + r / 0x1000), Fin.ofNat (0x80 + r / 0x40 % 0x40), Fin.ofNat (0x80 + r % 0x40)]
  else
    [Fin.ofNat (0xF0 + r / 0x40000), Fin.ofNat (0x80 + r / 0x1000 % 0x40),
     Fin.ofNat (0x80 + r / 0x40 % 0x40), Fin.ofNat (0x80 + r % 0x40)]

/-! ### encoding/json: encoding a struct of string fields -/

/-- The table `hex` of lower-case hexadecimal digits. -/
def hex (n : Nat) : Byte := if n < 10 then Fin.ofNat (0x30 + n) else Fin.ofNat (0x57 + n)

/-- The table `htmlSafeSet`: ASCII bytes written as they are inside a JSON string. -/
def htmlSafe (b : Nat) : Bool :=
  0x20 ≤ b && b < 0x80 && b != 0x22 && b != 0x26 && b != 0x3C && b != 0x3E && b != 0x5C

/-- The escape written for an ASCII byte outside `htmlSafeSet` (backspace and form feed as Go
1.22 and later write them; earlier versions write them with the six byte form, which reads back
the same). -/
def escapeByte (b : Byte) : Bytes :=
  if b.val = 0x5C ∨ b.val = 0x22 then [0x5C, b]
  else if b.val = 0x08 then [0x5C, 0x62]
  else if b.val = 0x0C then [0x5C, 0x66]
  else if b.val = 0x0A then [0x5C, 0x6E]
  else if b.val = 0x0D then [0x5C, 0x72]
  else if b.val = 0x09 then [0x5C, 0x74]
  else [0x5C, 0x75, 0x30, 0x30, hex (b.val / 16), hex (b.val % 16)]

/-- The loop of `appendString` (with HTML escaping, as `json.Marshal` sets it) over the bytes
not yet written; each round consumes at least one byte, so the length of src is enough fuel. -/
def appendStringLoop : Nat → Bytes → Bytes
  | 0, _ => []
  | _ + 1, [] => []
  | fuel + 1, b :: rest =>
    if b.val < 0x80 then
      (if htmlSafe b.val then [b] else escapeByte b) ++ appendStringLoop fuel rest
    else
      let d := DecodeRune (b :: rest)
      if d.1 = RuneError ∧ d.2 = 1 then
        ascii "\\ufffd" ++ appendStringLoop fuel rest
      else if d.1 = 0x2028 ∨ d.1 = 0x2029 then
        ascii "\\u202" ++ [hex (d.1 % 16)] ++ appendStringLoop fuel (rest.drop (d.2 - 1))
      else
        (b :: rest).take d.2 ++ appendStringLoop fuel (rest.drop (d.2 - 1))

/-- The function `appendString`: src as a quoted JSON string. -/
def appendString (src : Bytes) : Bytes :=
  0x22 :: appendStringLoop src.length src ++ [0x22]

/-- The loop of the struct encoder over the remaining fields (name, value); next is the byte
written before the next field. -/
def encodeFields : Byte → List (Bytes × Bytes) → Bytes
  | next, [] => if next = 0x7B then [0x7B, 0x7D] else [0x7D]
  | next, (name, v) :: fs =>
    next :: (0x22 :: name ++ [0x22, 0x3A]) ++ appendString v ++ encodeFields 0x2C fs

/-- The call `json.Marshal(v)` for a struct v whose fields are strings, given as the list of
JSON names and values in declaration order. -/
def encodeStruct (fs : List (Bytes × Bytes)) : Bytes := encodeFields 0x7B fs

/-! ### encoding/json: the scanner (syntax check) -/

/-- The entries of the scanner stack `parseState`: what the scanner is in the middle of. -/
inductive ParseState where
  | parseObjectKey
  | parseObjectValue
  | parseArrayValue
  deriving DecidableEq, Repr

/-- The state functions of the scanner, the values its field `step` takes (the function
`stateError` is left out: a step that fails returns no scanner). -/
inductive Step where
  | stateBeginValueOrEmpty | stateBeginValue | stateBeginStringOrEmpty | stateBeginString
  | stateEndValue | stateEndTop
  | stateInString | stateInStringEsc | stateInStringEscU | stateInStringEscU1
  | stateInStringEscU12 | stateInStringEscU123
  | stateNeg | state1 | state0 | stateDot | stateDot0 | stateE | stateESign | stateE0
  | stateT | stateTr | stateTru | stateF | stateFa | stateFal | stateFals
  | stateN | stateNu | stateNul
  deriving DecidableEq, Repr

/-- The scanner of `scanner.go`: the next state function, the stack (its top first) and whether
the top-level value has ended. -/
structure Scanner where
  step : Step
  parseState : List ParseState
  endTop : Bool
  deriving DecidableEq, Repr

/-- The constant `maxNestingDepth`. -/
def maxNestingDepth : Nat := 10000

/-- The function `isSpace`: space, tab, carriage return, line feed. -/
def isSpace (c : Nat) : Bool := c == 0x20 || c == 0x09 || c == 0x0D || c == 0x0A

/-- An ASCII decimal digit. -/
def isDigit (c : Nat) : Bool := 0x30 ≤ c && c ≤ 0x39

/-- A hexadecimal digit, as the states after a backslash and u test it. -/
def isHexDigit (c : Nat) : Bool :=
  (0x30 ≤ c && c ≤ 0x39) || (0x61 ≤ c && c ≤ 0x66) || (0x41 ≤ c && c ≤ 0x46)

/-- The method `pushParseState`: `none` when the nesting exceeds `maxNestingDepth`. -/
def Scanner.pushParseState (s : Scanner) (newParseState : ParseState) (successStep : Step) :
    Option Scanner :=
  if s.parseState.length + 1 ≤ maxNestingDepth then
    some { s with parseState := newParseState :: s.parseState, step := successStep }
  else none

/-- The method `popParseState`. -/
def Scanner.popParseState (s : Scanner) : Scanner :=
  match s.parseState.tail with
  | [] => { s with parseState := [], step := .stateEndTop, endTop := true }
  | stack => { s with parseState := stack, step := .stateEndValue }

/-- The state after the top-level value: only space may follow. -/
def stateEndTop (s : Scanner) (c : Nat) : Option Scanner :=
  if isSpace c then some s else none

/-- The state after a value: a colon after an object key, a comma or a closing bracket after an
object value or an array element. -/
def stateEndValue (s : Scanner) (c : Nat) : Option Scanner :=
  match s.parseState with
  | [] => stateEndTop { s with step := .stateEndTop, endTop := true } c
  | ps :: stack =>
    if isSpace c then some { s with step := .stateEndValue }
    else
      match ps with
      | .parseObjectKey =>
        if c = 0x3A then
          some { s with parseState := .parseObjectValue :: stack, step := .stateBeginValue }
        else none
      | .parseObjectValue =>
        if c = 0x2C then
          some { s with parseState := .parseObjectKey :: stack, step := .stateBeginString }
        else if c = 0x7D then some s.popParseState
        else none
      | .parseArrayValue =>
        if c = 0x2C then some { s with step := .stateBeginValue }
        else if c = 0x5D then some s.popParseState
        else none

/-- The state at the beginning of a value. -/
def stateBeginValue (s : Scanner) (c : Nat) : Option Scanner :=
  if isSpace c then some s
  else if c = 0x7B then s.pushParseState .parseObjectKey .stateBeginStringOrEmpty
  else if c = 0x5B then s.pushParseState .parseArrayValue .stateBeginValueOrEmpty
  else if c = 0x22 then some { s with step := .stateInString }
  else if c = 0x2D then some { s with step := .stateNeg }
  else if c = 0x30 then some { s with step := .state0 }
  else if c = 0x74 then some { s with step := .stateT }
  else if c = 0x66 then some { s with step := .stateF }
  else if c = 0x6E then some { s with step := .stateN }
  else if 0x31 ≤ c ∧ c ≤ 0x39 then some { s with step := .state1 }
  else none

/-- The state after an opening square bracket. -/
def stateBeginValueOrEmpty (s : Scanner) (c : Nat) : Option Scanner :=
  if isSpace c then some s
  else if c = 0x5D then stateEndValue s c
  else stateBeginValue { s with step := .stateBeginValue } c

/-- The state after a comma inside an object: an object key must begin. -/
def stateBeginString (s : Scanner) (c : Nat) : Option Scanner :=
  if isSpace c then some s
  else if c = 0x22 then some { s with step := .stateInString }
  else none

/-- The state after an opening brace. -/
def stateBeginStringOrEmpty (s : Scanner) (c : Nat) : Option Scanner :=
  if isSpace c then some s
  else if c = 0x7D then
    stateEndValue { s with parseState := .parseObjectValue :: s.parseState.tail } c
  else stateBeginString { s with step := .stateBeginString } c

/-- The state inside a string literal. -/
def stateInString (s : Scanner) (c : Nat) : Option Scanner :=
  if c = 0x22 then some { s with step := .stateEndValue }
  else if c = 0x5C then some { s with step := .stateInStringEsc }
  else if c < 0x20 then none
  else some s

/-- The state after a backslash inside a string literal. -/
def stateInStringEsc (s : Scanner) (c : Nat) : Option Scanner :=
  if c = 0x62 ∨ c = 0x66 ∨ c = 0x6E ∨ c = 0x72 ∨ c = 0x74 ∨ c = 0x5C ∨ c = 0x2F ∨ c = 0x22 then
    some { s with step := .stateInString }
  else if c = 0x75 then some { s with step := .stateInStringEscU }
  else none

/-- The four states after a backslash and u: a hexadecimal digit leads to the state next. -/
def stateHex (next : Step) (s : Scanner) (c : Nat) : Option Scanner :=
  if isHexDigit c then some { s with step := next } else none

/-- The state after a leading zero of a number. -/
def state0 (s : Scanner) (c : Nat) : Option Scanner :=
  if c = 0x2E then some { s with step := .stateDot }
  else if c = 0x65 ∨ c = 0x45 then some { s with step := .stateE }
  else stateEndValue s c

/-- The state inside the integer part of a number. -/
def state1 (s : Scanner) (c : Nat) : Option Scanner :=
  if isDigit c then some { s with step := .state1 } else state0 s c

/-- The state after a minus sign. -/
def stateNeg (s : Scanner) (c : Nat) : Option Scanner :=
  if c = 0x30 then some { s with step := .state0 }
  else if 0x31 ≤ c ∧ c ≤ 0x39 then some { s with step := .state1 }
  else none

/-- The state after the decimal point. -/
def stateDot (s : Scanner) (c : Nat) : Option Scanner :=
  if isDigit c then some { s with step := .stateDot0 } else none

/-- The state inside the fraction of a number. -/
def stateDot0 (s : Scanner) (c : Nat) : Option Scanner :=
  if isDigit c then some s
  else if c = 0x65 ∨ c = 0x45 then some { s with step := .stateE }
  else stateEndValue s c

/-- The state after the sign of an exponent. -/
def stateESign (s : Scanner) (c : Nat) : Option Scanner :=
  if isDigit c then some { s with step := .stateE0 } else none

/-- The state after the e of an exponent. -/
def stateE (s : Scanner) (c : Nat) : Option Scanner :=
  if c = 0x2B ∨ c = 0x2D then some { s with step := .stateESign } else stateESign s c

/-- The state inside the digits of an exponent. -/
def stateE0 (s : Scanner) (c : Nat) : Option Scanner :=
  if isDigit c then some s else stateEndValue s c

/-- The states inside the words true, false and null: the byte want leads to the state next. -/
def stateChar (want : Nat) (next : Step) (s : Scanner) (c : Nat) : Option Scanner :=
  if c = want then some { s with step := next } else none

/-- One call `s.step(s, c)`; `none` stands for the opcode `scanError`. -/
def Scanner.next (s : Scanner) (c : Nat) : Option Scanner :=
  match s.step with
  | .stateBeginValueOrEmpty => stateBeginValueOrEmpty s c
  | .stateBeginValue => stateBeginValue s c
  | .stateBeginStringOrEmpty => stateBeginStringOrEmpty s c
  | .stateBeginString => stateBeginString s c
  | .stateEndValue => stateEndValue s c
  | .stateEndTop => stateEndTop s c
  | .stateInString => stateInString s c
  | .stateInStringEsc => stateInStringEsc s c
  | .stateInStringEscU => stateHex .stateInStringEscU1 s c
  | .stateInStringEscU1 => stateHex .stateInStringEscU12 s c
  | .stateInStringEscU12 => stateHex .stateInStringEscU123 s c
  | .stateInStringEscU123 => stateHex .stateInString s c
  | .stateNeg => stateNeg s c
  | .state1 => state1 s c
  | .state0 => state0 s c
  | .stateDot => stateDot s c
  | .stateDot0 => stateDot0 s c
  | .stateE => stateE s c
  | .stateESign => stateESign s c
  | .stateE0 => stateE0 s c
  | .stateT => stateChar 0x72 .stateTr s c
  | .stateTr => stateChar 0x75 .stateTru s c
  | .stateTru => stateChar 0x65 .stateEndValue s c
  | .stateF => stateChar 0x61 .stateFa s c
  | .stateFa => stateChar 0x6C .stateFal s c
  | .stateFal => stateChar 0x73 .stateFals s c
  | .stateFals => stateChar 0x65 .stateEndValue s c
  | .stateN => stateChar 0x75 .stateNu s c
  | .stateNu => stateChar 0x6C .stateNul s c
  | .stateNul => stateChar 0x6C .stateEndValue s c

/-- The loop of `checkValid` over the bytes of data; `none` when a step fails. -/
def Scanner.run : Scanner → Bytes → Option Scanner
  | s, [] => some s
  | s, c :: cs =>
    match s.next c.val with
    | some s1 => Scanner.run s1 cs
    | none => none

/-- The method `eof`: whether the input may end here. -/
def Scanner.eof (s : Scanner) : Bool :=
  if s.endTop then true
  else
    match s.next 0x20 with
    | some s1 => s1.endTop
    | none => false

/-- The scanner after `reset`. -/
def Scanner.reset : Scanner := { step := .stateBeginValue, parseState := [], endTop := false }

/-- The function `checkValid`: whether data is one syntactically valid JSON value. -/
def checkValid (data : Bytes) : Bool :=
  match Scanner.reset.run data with
  | some s => s.eof
  | none => false

/-! ### encoding/json: decoding into a struct of string fields -/

deriving instance DecidableEq for Except

/-- The errors of `json.Unmarshal`: a `SyntaxError`, an `UnmarshalTypeError` with its `Value`,
and the decoder finding its input changed after the syntax check (unreachable). -/
inductive JsonError where
  | syntaxError
  | unmarshalTypeError (value : Bytes)
  | outOfSync
  deriving DecidableEq, Repr

/-- The value of a hexadecimal digit. -/
def unhex (c : Nat) : Option Nat :=
  if 0x30 ≤ c ∧ c ≤ 0x39 then some (c - 0x30)
  else if 0x61 ≤ c ∧ c ≤ 0x66 then some (c - 0x61 + 10)
  else if 0x41 ≤ c ∧ c ≤ 0x46 then some (c - 0x41 + 10)
  else none

/-- The function `getu4`: the value of a leading `\uXXXX`, or `none` (Go returns -1). -/
def getu4 : Bytes → Option Nat
  | b0 :: b1 :: h1 :: h2 :: h3 :: h4 :: _ =>
    if b0.val = 0x5C ∧ b1.val = 0x75 then
      match unhex h1.val, unhex h2.val, unhex h3.val, unhex h4.val with
      | some d1, some d2, some d3, some d4 => some (((d1 * 16 + d2) * 16 + d3) * 16 + d4)
      | _, _, _, _ => none
    else none
  | _ => none

/-- The function `utf16.IsSurrogate`. -/
def isSurrogate (r : Nat) : Bool := 0xD800 ≤ r && r < 0xE000

/-- The function `utf16.DecodeRune` on a first half r1 and the result of `getu4` for the second. -/
def utf16DecodeRune (r1 : Nat) (r2 : Option Nat) : Nat :=
  match r2 with
  | some r2 =>
    if 0xD800 ≤ r1 ∧ r1 < 0xDC00 ∧ 0xDC00 ≤ r2 ∧ r2 < 0xE000 then
      (r1 - 0xD800) * 0x400 + (r2 - 0xDC00) + 0x10000
    else RuneError
  | none => RuneError

/-- One round of the loop of `unquoteBytes` on the input c :: rest: the bytes written and the
input left, or `none` when the literal is malformed. -/
def unquoteStep (c : Byte) (rest : Bytes) : Option (Bytes × Bytes) :=
  if c.val = 0x5C then
    match rest with
    | [] => none
    | e :: rest1 =>
      if e.val = 0x22 ∨ e.val = 0x5C ∨ e.val = 0x2F ∨ e.val = 0x27 then some ([e], rest1)
      else if e.val = 0x62 then some ([0x08], rest1)
      else if e.val = 0x66 then some ([0x0C], rest1)
      else if e.val = 0x6E then some ([0x0A], rest1)
      else if e.val = 0x72 then some ([0x0D], rest1)
      else if e.val = 0x74 then some ([0x09], rest1)
      else if e.val = 0x75 then
        match getu4 (c :: rest) with
        | none => none
        | some rr =>
          let rest6 := rest.drop 5
          if isSurrogate rr then
            let dec := utf16DecodeRune rr (getu4 rest6)
            if dec ≠ RuneError then some (EncodeRune dec, rest6.drop 6)
            else some (EncodeRune RuneError, rest6)
          else some (EncodeRune rr, rest6)
      else none
  else if c.val = 0x22 ∨ c.val < 0x20 then none
  else if c.val < 0x80 then some ([c], rest)
  else
    let d := DecodeRune (c :: rest)
    some (EncodeRune d.1, rest.drop (d.2 - 1))

/-- The loop of `unquoteBytes` over the body of a literal; each round consumes at least one
byte, so the length of the body is enough fuel. (The first loop of `unquoteBytes`, which hands
back unchanged a body that needs no unquoting, is a shortcut with the same result.) -/
def unquoteLoop : Nat → Bytes → Option Bytes
  | _, [] => some []
  | 0, _ :: _ => none
  | fuel + 1, c :: rest =>
    match unquoteStep c rest with
    | none => none
    | some (w, left) => (unquoteLoop fuel left).map (w ++ ·)

/-- The function `unquoteBytes`: the text of a quoted JSON string literal. -/
def unquoteBytes (s : Bytes) : Option Bytes :=
  match s with
  | q :: rest =>
    if q.val = 0x22 ∧ rest.getLast? = some 0x22 then
      unquoteLoop rest.dropLast.length rest.dropLast
    else none
  | [] => none

/-- The pieces the decoder reads off validated input: brackets, colon, comma, a string literal
with its quotes, and any other literal (number, true, false, null) by its first byte. -/
inductive Tok where
  | beginObject | endObject | beginArray | endArray | colon | comma
  | string (item : Bytes)
  | literal (c : Byte)
  deriving DecidableEq, Repr

/-- Where the reading of pieces stands: between pieces, inside a string literal (with the bytes
read so far and whether the last one was an unescaped backslash), or inside another literal. -/
inductive Lex where
  | idle
  | inString (item : Bytes) (escaped : Bool)
  | inLiteral
  deriving DecidableEq, Repr

/-- The pieces read so far and where the reading stands. -/
structure LexState where
  toks : List Tok
  lex : Lex
  deriving DecidableEq, Repr

/-- The bytes a number or one of the words true, false, null goes on with. -/
def isLiteralByte (c : Nat) : Bool :=
  isDigit c || c == 0x2E || c == 0x2B || c == 0x2D || c == 0x45 || (0x61 ≤ c && c ≤ 0x7A)

/-- One byte read between pieces. -/
def lexIdle (toks : List Tok) (c : Byte) : LexState :=
  if isSpace c.val then ⟨toks, .idle⟩
  else if c.val = 0x7B then ⟨toks ++ [.beginObject], .idle⟩
  else if c.val = 0x7D then ⟨toks ++ [.endObject], .idle⟩
  else if c.val = 0x5B then ⟨toks ++ [.beginArray], .idle⟩
  else if c.val = 0x5D then ⟨toks ++ [.endArray], .idle⟩
  else if c.val = 0x3A then ⟨toks ++ [.colon], .idle⟩
  else if c.val = 0x2C then ⟨toks ++ [.comma], .idle⟩
  else if c.val = 0x22 then ⟨toks, .inString [c] false⟩
  else ⟨toks ++ [.literal c], .inLiteral⟩

/-- One byte read (the function `rescanLiteral` finds the end of a literal the same way). -/
def lexStep (st : LexState) (c : Byte) : LexState :=
  match st.lex with
  | .idle => lexIdle st.toks c
  | .inLiteral => if isLiteralByte c.val then st else lexIdle st.toks c
  | .inString item escaped =>
    if escaped then ⟨st.toks, .inString (item ++ [c]) false⟩
    else if c.val = 0x5C then ⟨st.toks, .inString (item ++ [c]) true⟩
    else if c.val = 0x22 then ⟨st.toks ++ [.string (item ++ [c])], .idle⟩
    else ⟨st.toks, .inString (item ++ [c]) false⟩

/-- The pieces of data, which has passed `checkValid`. -/
def tokens (data : Bytes) : List Tok := (data.foldl lexStep ⟨[], .idle⟩).toks

/-- An ASCII byte folded to upper case. -/
def foldByte (c : Nat) : Nat := if 0x61 ≤ c ∧ c ≤ 0x7A then c - 0x20 else c

/-- Whether key and the ASCII field name fold to the same string (`foldName`): ASCII letters
match regardless of case, and the only other runes that fold to an ASCII letter are U+017F
(folds to S) and U+212A (folds to K). -/
def equalFold : Bytes → Bytes → Bool
  | [], [] => true
  | k0 :: k1 :: k2 :: ks, n :: ns =>
    if k0.val < 0x80 then foldByte k0.val == foldByte n.val && equalFold (k1 :: k2 :: ks) ns
    else if k0.val = 0xC5 ∧ k1.val = 0xBF then foldByte n.val == 0x53 && equalFold (k2 :: ks) ns
    else if k0.val = 0xE2 ∧ k1.val = 0x84 ∧ k2.val = 0xAA then
      foldByte n.val == 0x4B && equalFold ks ns
    else false
  | k0 :: k1 :: ks, n :: ns =>
    if k0.val < 0x80 then foldByte k0.val == foldByte n.val && equalFold (k1 :: ks) ns
    else if k0.val = 0xC5 ∧ k1.val = 0xBF then foldByte n.val == 0x53 && equalFold ks ns
    else false
  | k0 :: ks, n :: ns =>
    if k0.val < 0x80 then foldByte k0.val == foldByte n.val && equalFold ks ns
    else false
  | _, _ => false

/-- The field an object key selects: the one with exactly that name, else the first whose name
equals the key under folding. -/
def findField (tags : List Bytes) (key : Bytes) : Option Nat :=
  match tags.indexOf? key with
  | some i => some i
  | none => tags.findIdx? (equalFold key)

/-- The decoder inside the top-level object: the nesting depth (1 directly inside it), the key
read and waiting for its value, the field values so far and the first error saved. -/
structure DecodeState where
  depth : Nat
  key : Option Bytes
  values : List Bytes
  savedError : Option JsonError
  deriving DecidableEq, Repr

/-- The method `saveError`: only the first error is kept. -/
def DecodeState.saveError (d : DecodeState) (e : JsonError) : DecodeState :=
  match d.savedError with
  | none => { d with savedError := some e }
  | some _ => d

/-- The field `Value` of the `UnmarshalTypeError` for a literal that is not a string or null. -/
def literalKind (c : Byte) : Bytes :=
  if c.val = 0x74 ∨ c.val = 0x66 then ascii "bool" else ascii "number"

/-- The method `object` for a struct target, one piece at a time: a string value is stored in
the field its key selects, null is ignored, any other value for a known field saves an
`UnmarshalTypeError`, values of unknown keys and nested values are skipped. -/
def objectStep (tags : List Bytes) (d : DecodeState) (t : Tok) : DecodeState :=
  match d.depth with
  | 0 => d
  | 1 =>
    match d.key, t with
    | _, .endObject => { d with depth := 0 }
    | none, .string item =>
      match unquoteBytes item with
      | some key => { d with key := some key }
      | none => d.saveError .outOfSync
    | some key, .string item =>
      match findField tags key with
      | some i =>
        match unquoteBytes item with
        | some s => { d with key := none, values := d.values.set i s }
        | none => { d with key := none }.saveError .outOfSync
      | none => { d with key := none }
    | some key, .literal c =>
      match findField tags key with
      | some _ =>
        if c.val = 0x6E then { d with key := none }
        else { d with key := none }.saveError (.unmarshalTypeError (literalKind c))
      | none => { d with key := none }
    | some key, .beginObject =>
      match findField tags key with
      | some _ => { d with key := none, depth := 2 }.saveError (.unmarshalTypeError (ascii "object"))
      | none => { d with key := none, depth := 2 }
    | some key, .beginArray =>
      match findField tags key with
      | some _ => { d with key := none, depth := 2 }.saveError (.unmarshalTypeError (ascii "array"))
      | none => { d with key := none, depth := 2 }
    | _, _ => d
  | n + 2 =>
    match t with
    | .beginObject | .beginArray => { d with depth := n + 3 }
    | .endObject | .endArray => { d with depth := n + 1 }
    | _ => d

/-- The call `json.Unmarshal(data, &v)` for v a zero struct whose fields are strings with the given
JSON names: the field values afterwards, or the error returned. -/
def decodeStruct (tags : List Bytes) (data : Bytes) : Except JsonError (List Bytes) :=
  if checkValid data then
    match tokens data with
    | .beginObject :: toks =>
      let d := toks.foldl (objectStep tags) ⟨1, none, tags.map (fun _ => []), none⟩
      match d.savedError with
      | none => .ok d.values
      | some e => .error e
    | .literal c :: _ =>
      if c.val = 0x6E then .ok (tags.map (fun _ => []))
      else .error (.unmarshalTypeError (literalKind c))
    | .string _ :: _ => .error (.unmarshalTypeError (ascii "string"))
    | .beginArray :: _ => .error (.unmarshalTypeError (ascii "array"))
    | _ => .error .outOfSync
  else .error .syntaxError

/-! ### The contract: records, world state, operations -/

/-- The struct `Quote`. -/
structure Quote where
  QuoteId : Bytes
  VendorId : Bytes
  Desc : Bytes
  ItemsList : Bytes
  BuyerId : Bytes
  QuoteDate : Bytes
  TotalAmount : Bytes
  EstimatedDeliveryDate : Bytes
  Status : Bytes
  deriving DecidableEq, Repr

/-- The struct `PurchaseOrder`. -/
structure PurchaseOrder where
  PoId : Bytes
  QuoteId : Bytes
  VendorLimitLeft : Bytes
  VendorLimitUsed : Bytes
  BankerId : Bytes
  PoDate : Bytes
  Currency : Bytes
  PoStatus : Bytes
  deriving DecidableEq, Repr

/-- The struct `Invoice`. -/
structure Invoice where
  InvoiceId : Bytes
  QuoteId : Bytes
  VendorId : Bytes
  BuyerId : Bytes
  PoId : Bytes
  InvoiceStatus : Bytes
  RequestForFinance : Bytes
  InvoiceRaisedDate : Bytes
  InvoiceAcceptedDate : Bytes
  deriving DecidableEq, Repr

/-- The json tags of the fields of Quote, in declaration order. -/
def Quote.tags : List Bytes :=
  [ascii "quoteId", ascii "vendorId", ascii "desc", ascii "itemsList", ascii "buyerId",
   ascii "quoteDate", ascii "totalAmount", ascii "extimatedDeliveryDate", ascii "status"]

/-- The field values of a quote, in declaration order. -/
def Quote.values (q : Quote) : List Bytes :=
  [q.QuoteId, q.VendorId, q.Desc, q.ItemsList, q.BuyerId, q.QuoteDate, q.TotalAmount,
   q.EstimatedDeliveryDate, q.Status]

/-- The quote with the given field values, in declaration order. -/
def Quote.ofValues (vs : List Bytes) : Quote :=
  { QuoteId := vs.getD 0 [], VendorId := vs.getD 1 [], Desc := vs.getD 2 [],
    ItemsList := vs.getD 3 [], BuyerId := vs.getD 4 [], QuoteDate := vs.getD 5 [],
    TotalAmount := vs.getD 6 [], EstimatedDeliveryDate := vs.getD 7 [], Status := vs.getD 8 [] }

/-- The json tags of the fields of PurchaseOrder, in declaration order. -/
def PurchaseOrder.tags : List Bytes :=
  [ascii "poId", ascii "quoteId", ascii "vendorLimitLeft", ascii "VendorLimitUsed",
   ascii "bankerId", ascii "poDate", ascii "currency", ascii "poStatus"]

/-- The field values of a purchase order, in declaration order. -/
def PurchaseOrder.values (p : PurchaseOrder) : List Bytes :=
  [p.PoId, p.QuoteId, p.VendorLimitLeft, p.VendorLimitUsed, p.BankerId, p.PoDate, p.Currency,
   p.PoStatus]

/-- The purchase order with the given field values, in declaration order. -/
def PurchaseOrder.ofValues (vs : List Bytes) : PurchaseOrder :=
  { PoId := vs.getD 0 [], QuoteId := vs.getD 1 [], VendorLimitLeft := vs.getD 2 [],
    VendorLimitUsed := vs.getD 3 [], BankerId := vs.getD 4 [], PoDate := vs.getD 5 [],
    Currency := vs.getD 6 [], PoStatus := vs.getD 7 [] }

/-- The json tags of the fields of Invoice, in declaration order. -/
def Invoice.tags : List Bytes :=
  [ascii "invoiceId", ascii "quoteId", ascii "vendorId", ascii "buyerId", ascii "poId",
   ascii "invoiceStatus", ascii "requestForFinance", ascii "invoiceRaisedDate",
   ascii "invoiceAcceptedDate"]

/-- The field values of an invoice, in declaration order. -/
def Invoice.values (v : Invoice) : List Bytes :=
  [v.InvoiceId, v.QuoteId, v.VendorId, v.BuyerId, v.PoId, v.InvoiceStatus, v.RequestForFinance,
   v.InvoiceRaisedDate, v.InvoiceAcceptedDate]

/-- The invoice with the given field values, in declaration order. -/
def Invoice.ofValues (vs : List Bytes) : Invoice :=
  { InvoiceId := vs.getD 0 [], QuoteId := vs.getD 1 [], VendorId := vs.getD 2 [],
    BuyerId := vs.getD 3 [], PoId := vs.getD 4 [], InvoiceStatus := vs.getD 5 [],
    RequestForFinance := vs.getD 6 [], InvoiceRaisedDate := vs.getD 7 [],
    InvoiceAcceptedDate := vs.getD 8 [] }

/-- A Go error value: one built by `fmt.Errorf` (with its text), one handed back by the stub
unchanged (with its text), or one returned by `json.Unmarshal`. -/
inductive GoError where
  | errorf (msg : Bytes)
  | stub (msg : Bytes)
  | json (e : JsonError)
  deriving DecidableEq, Repr

/-- The call `json.Marshal(quote)`. -/
def Quote.Marshal (quote : Quote) : Except GoError Bytes :=
  .ok (encodeStruct (Quote.tags.zip quote.values))

/-- The call `json.Unmarshal(quoteJSON, &quote)` on a zero `quote`. -/
def Quote.Unmarshal (quoteJSON : Bytes) : Except GoError Quote :=
  match decodeStruct Quote.tags quoteJSON with
  | .ok vs => .ok (Quote.ofValues vs)
  | .error e => .error (.json e)

/-- The call `json.Marshal(purchaseOrder)`. -/
def PurchaseOrder.Marshal (purchaseOrder : PurchaseOrder) : Except GoError Bytes :=
  .ok (encodeStruct (PurchaseOrder.tags.zip purchaseOrder.values))

/-- The call `json.Unmarshal(poJSON, &purchaseOrder)` on a zero `purchaseOrder`. -/
def PurchaseOrder.Unmarshal (poJSON : Bytes) : Except GoError PurchaseOrder :=
  match decodeStruct PurchaseOrder.tags poJSON with
  | .ok vs => .ok (PurchaseOrder.ofValues vs)
  | .error e => .error (.json e)

/-- The call `json.Marshal(invoice)`. -/
def Invoice.Marshal (invoice : Invoice) : Except GoError Bytes :=
  .ok (encodeStruct (Invoice.tags.zip invoice.values))

/-- The call `json.Unmarshal(invoiceJSON, &invoice)` on a zero `invoice`. -/
def Invoice.Unmarshal (invoiceJSON : Bytes) : Except GoError Invoice :=
  match decodeStruct Invoice.tags invoiceJSON with
  | .ok vs => .ok (Invoice.ofValues vs)
  | .error e => .error (.json e)

/-- The stub `ctx.GetStub()` of one transaction: the world state, that is the value stored under
each key (`none` is Go's nil), and what the peer answers during this transaction to the two
calls the contract makes, whether the call fails and with which error text. Every exposed
method calls `GetState` at most once and `PutState` at most once, so that within a transaction
the answer is a function of the arguments of the call; a later transaction has answers of its
own (`Stub.next`). -/
structure Stub where
  state : Bytes → Option Bytes
  getErr : Bytes → Option Bytes
  putErr : Bytes → Bytes → Option Bytes

/-- The call `GetState(key)`: the stored bytes (nil when absent) or the text of the error. -/
def Stub.GetState (ctx : Stub) (key : Bytes) : Except Bytes (Option Bytes) :=
  match ctx.getErr key with
  | some err => .error err
  | none => .ok (ctx.state key)

/-- The world state with value written under key. -/
def Stub.put (ctx : Stub) (key value : Bytes) : Stub :=
  { ctx with state := fun k => if k = key then some value else ctx.state k }

/-- The call `PutState(key, value)`: the text of the error if any, and the world state after; a
call that fails writes nothing. -/
def Stub.PutState (ctx : Stub) (key value : Bytes) : Option Bytes × Stub :=
  match ctx.putErr key value with
  | some err => (some err, ctx)
  | none => (none, ctx.put key value)

/-- The method `IsExists`: true when the world state holds bytes under id. -/
def IsExists (ctx : Stub) (id : Bytes) : Except GoError Bool :=
  match ctx.GetState id with
  | .error err => .error (.errorf (ascii "failed to read from world state: " ++ err))
  | .ok quoteJSON => .ok quoteJSON.isSome

/-- The loop of `InitLedger` over the quotes still to write. -/
def InitLedger.loop (ctx : Stub) : List Quote → Option GoError × Stub
  | [] => (none, ctx)
  | quote :: quotes =>
    match quote.Marshal with
    | .error err => (some err, ctx)
    | .ok quoteJSON =>
      match ctx.PutState quote.QuoteId quoteJSON with
      | (some err, ctx1) => (some (.errorf (ascii "failed to put to world state. " ++ err)), ctx1)
      | (none, ctx1) => InitLedger.loop ctx1 quotes

/-- The method `InitLedger`: writes the placeholder quote under its id, without an existence
check. -/
def InitLedger (ctx : Stub) : Option GoError × Stub :=
  let quotes : List Quote :=
    [{ QuoteId := ascii "quote1", VendorId := ascii "NA", Desc := ascii "NA",
       ItemsList := ascii "NA", BuyerId := ascii "NA", QuoteDate := ascii "NA",
       TotalAmount := ascii "NA", EstimatedDeliveryDate := ascii "NA", Status := ascii "NA" }]
  InitLedger.loop ctx quotes

/-- The statement `return ctx.GetStub().PutState(key, value)`: the error of the stub is returned
as it is. -/
def returnPut (r : Option Bytes × Stub) : Option GoError × Stub := (r.1.map GoError.stub, r.2)

/-- The method `PlaceQuote`. -/
def PlaceQuote (ctx : Stub) (quoteId vendorId desc itemsList buyerId quoteDate totalAmount
    extimatedDeliveryDate status : Bytes) : Option GoError × Stub :=
  match IsExists ctx quoteId with
  | .error err => (some err, ctx)
  | .ok found =>
    if found then
      (some (.errorf (ascii "the quote " ++ quoteId ++ ascii " already exists")), ctx)
    else
      let quote : Quote :=
        { QuoteId := quoteId, VendorId := vendorId, Desc := desc, ItemsList := itemsList,
          BuyerId := buyerId, QuoteDate := quoteDate, TotalAmount := totalAmount,
          EstimatedDeliveryDate := extimatedDeliveryDate, Status := status }
      match quote.Marshal with
      | .error err => (some err, ctx)
      | .ok quoteJSON => returnPut (ctx.PutState quoteId quoteJSON)

/-- The method `RaiseInvoice` (its third parameter is poId, stored in the field PoId). -/
def RaiseInvoice (ctx : Stub) (invoiceId quoteId poId vendorId buyerId invoiceStatus
    requestForFinance invoiceRaisedDate invoiceAcceptedDate : Bytes) : Option GoError × Stub :=
  match IsExists ctx invoiceId with
  | .error err => (some err, ctx)
  | .ok found =>
    if found then
      (some (.errorf (ascii "the quote " ++ invoiceId ++ ascii " already exists")), ctx)
    else
      let invoice : Invoice :=
        { InvoiceId := invoiceId, QuoteId := quoteId, VendorId := vendorId, BuyerId := buyerId,
          PoId := poId, InvoiceStatus := invoiceStatus, RequestForFinance := requestForFinance,
          InvoiceRaisedDate := invoiceRaisedDate, InvoiceAcceptedDate := invoiceAcceptedDate }
      match invoice.Marshal with
      | .error err => (some err, ctx)
      | .ok invoiceJSON => returnPut (ctx.PutState invoiceId invoiceJSON)

/-- The method `RaisePo`. -/
def RaisePo (ctx : Stub) (poId quoteId vendorLimitLeft VendorLimitUsed bankerId poDate currency
    poStatus : Bytes) : Option GoError × Stub :=
  match IsExists ctx poId with
  | .error err => (some err, ctx)
  | .ok found =>
    if found then
      (some (.errorf (ascii "the quote " ++ poId ++ ascii " already exists")), ctx)
    else
      let purchaseOrder : PurchaseOrder :=
        { PoId := poId, QuoteId := quoteId, VendorLimitLeft := vendorLimitLeft,
          VendorLimitUsed := VendorLimitUsed, BankerId := bankerId, PoDate := poDate,
          Currency := currency, PoStatus := poStatus }
      match purchaseOrder.Marshal with
      | .error err => (some err, ctx)
      | .ok poJSON => returnPut (ctx.PutState poId poJSON)

/-- The method `GetQuoteById`. -/
def GetQuoteById (ctx : Stub) (quoteId : Bytes) : Except GoError Quote :=
  match ctx.GetState quoteId with
  | .error err => .error (.errorf (ascii "failed to read from world state: " ++ err))
  | .ok none => .error (.errorf (ascii "the asset " ++ quoteId ++ ascii " does not exist"))
  | .ok (some quoteJSON) =>
    match Quote.Unmarshal quoteJSON with
    | .error err => .error err
    | .ok quote => .ok quote

/-- The method `GetPoById`. -/
def GetPoById (ctx : Stub) (poId : Bytes) : Except GoError PurchaseOrder :=
  match ctx.GetState poId with
  | .error err => .error (.errorf (ascii "failed to read from world state: " ++ err))
  | .ok none => .error (.errorf (ascii "the asset " ++ poId ++ ascii " does not exist"))
  | .ok (some poJSON) =>
    match PurchaseOrder.Unmarshal poJSON with
    | .error err => .error err
    | .ok purchaseOrder => .ok purchaseOrder

/-- The method `GetInvoiceById`. -/
def GetInvoiceById (ctx : Stub) (invoiceId : Bytes) : Except GoError Invoice :=
  match ctx.GetState invoiceId with
  | .error err => .error (.errorf (ascii "failed to read from world state: " ++ err))
  | .ok none => .error (.errorf (ascii "the asset " ++ invoiceId ++ ascii " does not exist"))
  | .ok (some invoiceJSON) =>
    match Invoice.Unmarshal invoiceJSON with
    | .error err => .error err
    | .ok invoice => .ok invoice

/-- The method `UpdateQuote`. -/
def UpdateQuote (ctx : Stub) (quoteId vendorId desc itemsList buyerId quoteDate totalAmount
    extimatedDeliveryDate status : Bytes) : Option GoError × Stub :=
  match IsExists ctx quoteId with
  | .error err => (some err, ctx)
  | .ok found =>
    if !found then
      (some (.errorf (ascii "the asset " ++ quoteId ++ ascii " does not exist")), ctx)
    else
      let quote : Quote :=
        { QuoteId := quoteId, VendorId := vendorId, Desc := desc, ItemsList := itemsList,
          BuyerId := buyerId, QuoteDate := quoteDate, TotalAmount := totalAmount,
          EstimatedDeliveryDate := extimatedDeliveryDate, Status := status }
      match quote.Marshal with
      | .error err => (some err, ctx)
      | .ok quoteJSON => returnPut (ctx.PutState quoteId quoteJSON)

/-- The method `UpdatePo`. -/
def UpdatePo (ctx : Stub) (poId quoteId vendorLimitLeft VendorLimitUsed bankerId poDate currency
    poStatus : Bytes) : Option GoError × Stub :=
  match IsExists ctx poId with
  | .error err => (some err, ctx)
  | .ok found =>
    if !found then
      (some (.errorf (ascii "the asset " ++ poId ++ ascii " does not exist")), ctx)
    else
      let purchaseOrder : PurchaseOrder :=
        { PoId := poId, QuoteId := quoteId, VendorLimitLeft := vendorLimitLeft,
          VendorLimitUsed := VendorLimitUsed, BankerId := bankerId, PoDate := poDate,
          Currency := currency, PoStatus := poStatus }
      match purchaseOrder.Marshal with
      | .error err => (some err, ctx)
      | .ok poJSON => returnPut (ctx.PutState poId poJSON)

/-- The method `UpdateInvoice`. -/
def UpdateInvoice (ctx : Stub) (invoiceId quoteId vendorId buyerId poId invoiceStatus
    requestForFinance invoiceRaisedDate invoiceAcceptedDate : Bytes) : Option GoError × Stub :=
  match IsExists ctx invoiceId with
  | .error err => (some err, ctx)
  | .ok found =>
    if !found then
      (some (.errorf (ascii "the asset " ++ invoiceId ++ ascii " does not exist")), ctx)
    else
      let invoice : Invoice :=
        { InvoiceId := invoiceId, QuoteId := quoteId, VendorId := vendorId, BuyerId := buyerId,
          PoId := poId, InvoiceStatus := invoiceStatus, RequestForFinance := requestForFinance,
          InvoiceRaisedDate := invoiceRaisedDate, InvoiceAcceptedDate := invoiceAcceptedDate }
      match invoice.Marshal with
      | .error err => (some err, ctx)
      | .ok invoiceJSON => returnPut (ctx.PutState invoiceId invoiceJSON)


/-! ### Valid UTF-8 and the coercion `json.Marshal` applies to strings -/

/-- The loop of `utf8.ValidString`; each round consumes at least one byte. -/
def validLoop : Nat → Bytes → Bool
  | _, [] => true
  | 0, _ :: _ => false
  | fuel + 1, b :: rest =>
    if b.val < 0x80 then validLoop fuel rest
    else
      let d := DecodeRune (b :: rest)
      if d.1 = RuneError ∧ d.2 = 1 then false else validLoop fuel (rest.drop (d.2 - 1))

/-- The function `utf8.ValidString`: whether s consists entirely of valid UTF-8 encoded runes. -/
def ValidString (s : Bytes) : Bool := validLoop s.length s

/-- The loop of the coercion to valid UTF-8; each round consumes at least one byte. -/
def coerceLoop : Nat → Bytes → Bytes
  | 0, _ => []
  | _ + 1, [] => []
  | fuel + 1, b :: rest =>
    if b.val < 0x80 then b :: coerceLoop fuel rest
    else
      let d := DecodeRune (b :: rest)
      if d.1 = RuneError ∧ d.2 = 1 then [0xEF, 0xBF, 0xBD] ++ coerceLoop fuel rest
      else (b :: rest).take d.2 ++ coerceLoop fuel (rest.drop (d.2 - 1))

/-- The string s coerced to valid UTF-8: every byte that does not start a valid encoding is
replaced by the encoding of U+FFFD, everything else is kept. -/
def toValidUTF8 (s : Bytes) : Bytes := coerceLoop s.length s

/-- The bytes bs are the UTF-8 encoding of the rune c, of two bytes or more. -/
def IsRune (bs : Bytes) (c : Nat) : Prop :=
  2 ≤ bs.length ∧ (∀ x ∈ bs, 0x80 ≤ x.val) ∧ EncodeRune c = bs ∧
    ∀ tail, DecodeRune (bs ++ tail) = (c, bs.length)

/-- An ASCII byte that stands for itself inside a JSON string literal. -/
def plainByte (b : Nat) : Bool := 0x20 ≤ b && b < 0x80 && b != 0x22 && b != 0x5C

/-- The byte a two-character escape stands for. -/
def shortEscape (c : Nat) : Option Byte :=
  if c = 0x22 then some 0x22
  else if c = 0x5C then some 0x5C
  else if c = 0x62 then some 0x08
  else if c = 0x66 then some 0x0C
  else if c = 0x6E then some 0x0A
  else if c = 0x72 then some 0x0D
  else if c = 0x74 then some 0x09
  else none

/-- The relation between the body e of a JSON string literal, as `appendString` writes it, and
the text d it stands for. -/
inductive Escaped : Bytes → Bytes → Prop where
  | nil : Escaped [] []
  | plain (b : Byte) (e d : Bytes) (h : plainByte b.val = true) :
      Escaped e d → Escaped (b :: e) (b :: d)
  | short (c x : Byte) (e d : Bytes) (h : shortEscape c.val = some x) :
      Escaped e d → Escaped (0x5C :: c :: e) (x :: d)
  | u4 (h1 h2 h3 h4 : Byte) (d1 d2 d3 d4 : Nat) (e d : Bytes)
      (e1 : unhex h1.val = some d1) (e2 : unhex h2.val = some d2)
      (e3 : unhex h3.val = some d3) (e4 : unhex h4.val = some d4)
      (hs : isSurrogate (((d1 * 16 + d2) * 16 + d3) * 16 + d4) = false) :
      Escaped e d →
      Escaped (0x5C :: 0x75 :: h1 :: h2 :: h3 :: h4 :: e)
        (EncodeRune (((d1 * 16 + d2) * 16 + d3) * 16 + d4) ++ d)
  | rune (bs : Bytes) (c : Nat) (e d : Bytes) (h : IsRune bs c) :
      Escaped e d → Escaped (bs ++ e) (bs ++ d)

/-- The effect on the field values of one member (name, value) of an encoded struct. -/
def assignField (tags : List Bytes) (vals : List Bytes) (f : Bytes × Bytes) : List Bytes :=
  match findField tags f.1 with
  | some i => vals.set i (toValidUTF8 f.2)
  | none => vals

/-- The names of the fields are made of ASCII bytes that stand for themselves in a literal. -/
def PlainNames (fs : List (Bytes × Bytes)) : Prop :=
  ∀ f ∈ fs, ∀ b ∈ f.1, plainByte b.val = true

/-- The tokens of one member of an encoded struct. -/
def memberToks (f : Bytes × Bytes) : List Tok :=
  [.string (0x22 :: (f.1 ++ [0x22])), .colon, .string (appendString f.2)]

/-- The tokens of the members after the first, each led by its comma. -/
def restToks : List (Bytes × Bytes) → List Tok
  | [] => []
  | f :: fs => .comma :: memberToks f ++ restToks fs

/-- The record `json.Unmarshal` gives back for what `json.Marshal` wrote for q: every field
coerced to valid UTF-8. -/
def Quote.coerce (q : Quote) : Quote :=
  { QuoteId := toValidUTF8 q.QuoteId, VendorId := toValidUTF8 q.VendorId,
    Desc := toValidUTF8 q.Desc, ItemsList := toValidUTF8 q.ItemsList,
    BuyerId := toValidUTF8 q.BuyerId, QuoteDate := toValidUTF8 q.QuoteDate,
    TotalAmount := toValidUTF8 q.TotalAmount,
    EstimatedDeliveryDate := toValidUTF8 q.EstimatedDeliveryDate,
    Status := toValidUTF8 q.Status }

/-- The record `json.Unmarshal` gives back for what `json.Marshal` wrote for p. -/
def PurchaseOrder.coerce (p : PurchaseOrder) : PurchaseOrder :=
  { PoId := toValidUTF8 p.PoId, QuoteId := toValidUTF8 p.QuoteId,
    VendorLimitLeft := toValidUTF8 p.VendorLimitLeft,
    VendorLimitUsed := toValidUTF8 p.VendorLimitUsed, BankerId := toValidUTF8 p.BankerId,
    PoDate := toValidUTF8 p.PoDate, Currency := toValidUTF8 p.Currency,
    PoStatus := toValidUTF8 p.PoStatus }

/-- The record `json.Unmarshal` gives back for what `json.Marshal` wrote for v. -/
def Invoice.coerce (v : Invoice) : Invoice :=
  { InvoiceId := toValidUTF8 v.InvoiceId, QuoteId := toValidUTF8 v.QuoteId,
    VendorId := toValidUTF8 v.VendorId, BuyerId := toValidUTF8 v.BuyerId,
    PoId := toValidUTF8 v.PoId, InvoiceStatus := toValidUTF8 v.InvoiceStatus,
    RequestForFinance := toValidUTF8 v.RequestForFinance,
    InvoiceRaisedDate := toValidUTF8 v.InvoiceRaisedDate,
    InvoiceAcceptedDate := toValidUTF8 v.InvoiceAcceptedDate }

/-- Every field of the quote is valid UTF-8. -/
def Quote.Valid (q : Quote) : Prop :=
  ValidString q.QuoteId = true ∧ ValidString q.VendorId = true ∧ ValidString q.Desc = true ∧
  ValidString q.ItemsList = true ∧ ValidString q.BuyerId = true ∧
  ValidString q.QuoteDate = true ∧ ValidString q.TotalAmount = true ∧
  ValidString q.EstimatedDeliveryDate = true ∧ ValidString q.Status = true

/-- Every field of the purchase order is valid UTF-8. -/
def PurchaseOrder.Valid (p : PurchaseOrder) : Prop :=
  ValidString p.PoId = true ∧ ValidString p.QuoteId = true ∧
  ValidString p.VendorLimitLeft = true ∧ ValidString p.VendorLimitUsed = true ∧
  ValidString p.BankerId = true ∧ ValidString p.PoDate = true ∧
  ValidString p.Currency = true ∧ ValidString p.PoStatus = true

/-- Every field of the invoice is valid UTF-8. -/
def Invoice.Valid (v : Invoice) : Prop :=
  ValidString v.InvoiceId = true ∧ ValidString v.QuoteId = true ∧
  ValidString v.VendorId = true ∧ ValidString v.BuyerId = true ∧ ValidString v.PoId = true ∧
  ValidString v.InvoiceStatus = true ∧ ValidString v.RequestForFinance = true ∧
  ValidString v.InvoiceRaisedDate = true ∧ ValidString v.InvoiceAcceptedDate = true

instance (q : Quote) : Decidable q.Valid := by unfold Quote.Valid; infer_instance

instance (p : PurchaseOrder) : Decidable p.Valid := by unfold PurchaseOrder.Valid; infer_instance

instance (v : Invoice) : Decidable v.Valid := by unfold Invoice.Valid; infer_instance

/-! ### The exposed operations as one step function -/

/-- A world state with no key and no failing call. -/
def emptyStub : Stub := { state := fun _ => none, getErr := fun _ => none, putErr := fun _ _ => none }

/-- A call of one exposed method with its arguments. -/
inductive Op where
  | InitLedger
  | PlaceQuote (quoteId vendorId desc itemsList buyerId quoteDate totalAmount
      extimatedDeliveryDate status : Bytes)
  | RaiseInvoice (invoiceId quoteId poId vendorId buyerId invoiceStatus requestForFinance
      invoiceRaisedDate invoiceAcceptedDate : Bytes)
  | RaisePo (poId quoteId vendorLimitLeft VendorLimitUsed bankerId poDate currency
      poStatus : Bytes)
  | GetQuoteById (quoteId : Bytes)
  | GetPoById (poId : Bytes)
  | GetInvoiceById (invoiceId : Bytes)
  | UpdateQuote (quoteId vendorId desc itemsList buyerId quoteDate totalAmount
      extimatedDeliveryDate status : Bytes)
  | UpdatePo (poId quoteId vendorLimitLeft VendorLimitUsed bankerId poDate currency
      poStatus : Bytes)
  | UpdateInvoice (invoiceId quoteId vendorId buyerId poId invoiceStatus requestForFinance
      invoiceRaisedDate invoiceAcceptedDate : Bytes)
  | IsExists (id : Bytes)

/-- The value an exposed method returns beside its error. -/
inductive Reply where
  | done
  | found (b : Bool)
  | quote (q : Quote)
  | purchaseOrder (p : PurchaseOrder)
  | invoice (v : Invoice)
  deriving DecidableEq, Repr

/-- The result of a method that returns only an error. -/
def Reply.ofError (r : Option GoError × Stub) : Except GoError Reply × Stub :=
  match r.1 with
  | some err => (.error err, r.2)
  | none => (.ok .done, r.2)

/-- One call of an exposed method: what it returns and the world state after it. -/
def Op.run : Op → Stub → Except GoError Reply × Stub
  | .InitLedger, ctx => Reply.ofError (VendorFinance.InitLedger ctx)
  | .PlaceQuote a b c d e f g h i, ctx =>
    Reply.ofError (VendorFinance.PlaceQuote ctx a b c d e f g h i)
  | .RaiseInvoice a b c d e f g h i, ctx =>
    Reply.ofError (VendorFinance.RaiseInvoice ctx a b c d e f g h i)
  | .RaisePo a b c d e f g h, ctx => Reply.ofError (VendorFinance.RaisePo ctx a b c d e f g h)
  | .GetQuoteById id, ctx => ((VendorFinance.GetQuoteById ctx id).map Reply.quote, ctx)
  | .GetPoById id, ctx => ((VendorFinance.GetPoById ctx id).map Reply.purchaseOrder, ctx)
  | .GetInvoiceById id, ctx => ((VendorFinance.GetInvoiceById ctx id).map Reply.invoice, ctx)
  | .UpdateQuote a b c d e f g h i, ctx =>
    Reply.ofError (VendorFinance.UpdateQuote ctx a b c d e f g h i)
  | .UpdatePo a b c d e f g h, ctx => Reply.ofError (VendorFinance.UpdatePo ctx a b c d e f g h)
  | .UpdateInvoice a b c d e f g h i, ctx =>
    Reply.ofError (VendorFinance.UpdateInvoice ctx a b c d e f g h i)
  | .IsExists id, ctx => ((VendorFinance.IsExists ctx id).map Reply.found, ctx)

/-! ### Sample values -/

/-- A quote with plain text fields. -/
def sampleQuote : Quote :=
  { QuoteId := ascii "q1", VendorId := ascii "V1", Desc := ascii "steel <rods>",
    ItemsList := ascii "rod,bar", BuyerId := ascii "B1", QuoteDate := ascii "2021-01-01",
    TotalAmount := ascii "100", EstimatedDeliveryDate := ascii "2021-02-01",
    Status := ascii "DRAFT" }

/-- A purchase order with plain text fields. -/
def samplePo : PurchaseOrder :=
  { PoId := ascii "po1", QuoteId := ascii "q1", VendorLimitLeft := ascii "900",
    VendorLimitUsed := ascii "100", BankerId := ascii "K1", PoDate := ascii "2021-01-02",
    Currency := ascii "INR", PoStatus := ascii "OPEN" }

/-- An invoice with plain text fields. -/
def sampleInvoice : Invoice :=
  { InvoiceId := ascii "inv1", QuoteId := ascii "q1", VendorId := ascii "V1",
    BuyerId := ascii "B1", PoId := ascii "po1", InvoiceStatus := ascii "RAISED",
    RequestForFinance := ascii "yes", InvoiceRaisedDate := ascii "2021-01-03",
    InvoiceAcceptedDate := ascii "" }

/-- A world state that holds nothing, accepts every write and fails every read. -/
def unreadableStub : Stub :=
  { state := fun _ => none, getErr := fun _ => some (ascii "peer down"),
    putErr := fun _ _ => none }

/-- A world state that holds nothing and refuses every write. -/
def unwritableStub : Stub :=
  { state := fun _ => none, getErr := fun _ => none,
    putErr := fun _ _ => some (ascii "ledger closed") }

/-- The world state after the sample invoice was raised, from then on refusing every write. -/
def closedStub : Stub :=
  { state := fun k =>
      if k = ascii "inv1" then some (encodeStruct (Invoice.tags.zip sampleInvoice.values))
      else none,
    getErr := fun _ => none,
    putErr := fun _ _ => some (ascii "ledger closed") }

/-- The error of a failed read of the world state, as the contract wraps it. -/
def readError (err : Bytes) : GoError :=
  .errorf (ascii "failed to read from world state: " ++ err)

/-- The error the create methods return for a key that is taken. -/
def alreadyExists (id : Bytes) : GoError :=
  .errorf (ascii "the quote " ++ id ++ ascii " already exists")

/-- The error the update and read methods return for a key that is absent. -/
def notFound (id : Bytes) : GoError :=
  .errorf (ascii "the asset " ++ id ++ ascii " does not exist")

/-- The placeholder quote `InitLedger` writes. -/
def seedQuote : Quote :=
  { QuoteId := ascii "quote1", VendorId := ascii "NA", Desc := ascii "NA",
    ItemsList := ascii "NA", BuyerId := ascii "NA", QuoteDate := ascii "NA",
    TotalAmount := ascii "NA", EstimatedDeliveryDate := ascii "NA", Status := ascii "NA" }

/-! ### Calls whose arguments are the fields of a record -/

/-- The call `PlaceQuote` with every field of q passed as the argument of the same name. -/
def Quote.place (q : Quote) (ctx : Stub) : Option GoError × Stub :=
  PlaceQuote ctx q.QuoteId q.VendorId q.Desc q.ItemsList q.BuyerId q.QuoteDate q.TotalAmount
    q.EstimatedDeliveryDate q.Status

/-- The call `UpdateQuote` with every field of q passed as the argument of the same name. -/
def Quote.update (q : Quote) (ctx : Stub) : Option GoError × Stub :=
  UpdateQuote ctx q.QuoteId q.VendorId q.Desc q.ItemsList q.BuyerId q.QuoteDate q.TotalAmount
    q.EstimatedDeliveryDate q.Status

/-- The call `RaisePo` with every field of p passed as the argument of the same name. -/
def PurchaseOrder.raise (p : PurchaseOrder) (ctx : Stub) : Option GoError × Stub :=
  RaisePo ctx p.PoId p.QuoteId p.VendorLimitLeft p.VendorLimitUsed p.BankerId p.PoDate
    p.Currency p.PoStatus

/-- The call `UpdatePo` with every field of p passed as the argument of the same name. -/
def PurchaseOrder.update (p : PurchaseOrder) (ctx : Stub) : Option GoError × Stub :=
  UpdatePo ctx p.PoId p.QuoteId p.VendorLimitLeft p.VendorLimitUsed p.BankerId p.PoDate
    p.Currency p.PoStatus

/-- The call `RaiseInvoice` with every field of v passed as the argument of the same name (the
method takes poId third, before vendorId and buyerId). -/
def Invoice.raise (v : Invoice) (ctx : Stub) : Option GoError × Stub :=
  RaiseInvoice ctx v.InvoiceId v.QuoteId v.PoId v.VendorId v.BuyerId v.InvoiceStatus
    v.RequestForFinance v.InvoiceRaisedDate v.InvoiceAcceptedDate

/-- The call `UpdateInvoice` with every field of v passed as the argument of the same name. -/
def Invoice.update (v : Invoice) (ctx : Stub) : Option GoError × Stub :=
  UpdateInvoice ctx v.InvoiceId v.QuoteId v.VendorId v.BuyerId v.PoId v.InvoiceStatus
    v.RequestForFinance v.InvoiceRaisedDate v.InvoiceAcceptedDate

/-! ### Sequences of calls and what a call writes -/

/-- The four kinds of exposed methods: the unconditional seed, the creates (gated on absence),
the updates (gated on presence) and the reads. -/
inductive OpKind where
  | init
  | create
  | update
  | query
  deriving DecidableEq, Repr

/-- The kind of the method called. -/
def Op.kind : Op → OpKind
  | .InitLedger => .init
  | .PlaceQuote .. => .create
  | .RaiseInvoice .. => .create
  | .RaisePo .. => .create
  | .UpdateQuote .. => .update
  | .UpdatePo .. => .update
  | .UpdateInvoice .. => .update
  | .GetQuoteById _ => .query
  | .GetPoById _ => .query
  | .GetInvoiceById _ => .query
  | .IsExists _ => .query

/-- The key a call is about: its id argument, and `quote1` for `InitLedger`. -/
def Op.key : Op → Bytes
  | .InitLedger => ascii "quote1"
  | .PlaceQuote quoteId .. => quoteId
  | .RaiseInvoice invoiceId .. => invoiceId
  | .RaisePo poId .. => poId
  | .UpdateQuote quoteId .. => quoteId
  | .UpdatePo poId .. => poId
  | .UpdateInvoice invoiceId .. => invoiceId
  | .GetQuoteById quoteId => quoteId
  | .GetPoById poId => poId
  | .GetInvoiceById invoiceId => invoiceId
  | .IsExists id => id

/-- The bytes a call passes to `PutState` when it gets that far: the encoding of the record it
builds from its arguments; `none` for the reads. -/
def Op.value : Op → Option Bytes
  | .InitLedger => some (encodeStruct (Quote.tags.zip seedQuote.values))
  | .PlaceQuote quoteId vendorId desc itemsList buyerId quoteDate totalAmount
      extimatedDeliveryDate status =>
    some (encodeStruct (Quote.tags.zip (Quote.values
      { QuoteId := quoteId, VendorId := vendorId, Desc := desc, ItemsList := itemsList,
        BuyerId := buyerId, QuoteDate := quoteDate, TotalAmount := totalAmount,
        EstimatedDeliveryDate := extimatedDeliveryDate, Status := status })))
  | .UpdateQuote quoteId vendorId desc itemsList buyerId quoteDate totalAmount
      extimatedDeliveryDate status =>
    some (encodeStruct (Quote.tags.zip (Quote.values
      { QuoteId := quoteId, VendorId := vendorId, Desc := desc, ItemsList := itemsList,
        BuyerId := buyerId, QuoteDate := quoteDate, TotalAmount := totalAmount,
        EstimatedDeliveryDate := extimatedDeliveryDate, Status := status })))
  | .RaisePo poId quoteId vendorLimitLeft VendorLimitUsed bankerId poDate currency poStatus =>
    some (encodeStruct (PurchaseOrder.tags.zip (PurchaseOrder.values
      { PoId := poId, QuoteId := quoteId, VendorLimitLeft := vendorLimitLeft,
        VendorLimitUsed := VendorLimitUsed, BankerId := bankerId, PoDate := poDate,
        Currency := currency, PoStatus := poStatus })))
  | .UpdatePo poId quoteId vendorLimitLeft VendorLimitUsed bankerId poDate currency poStatus =>
    some (encodeStruct (PurchaseOrder.tags.zip (PurchaseOrder.values
      { PoId := poId, QuoteId := quoteId, VendorLimitLeft := vendorLimitLeft,
        VendorLimitUsed := VendorLimitUsed, BankerId := bankerId, PoDate := poDate,
        Currency := currency, PoStatus := poStatus })))
  | .RaiseInvoice invoiceId quoteId poId vendorId buyerId invoiceStatus requestForFinance
      invoiceRaisedDate invoiceAcceptedDate =>
    some (encodeStruct (Invoice.tags.zip (Invoice.values
      { InvoiceId := invoiceId, QuoteId := quoteId, VendorId := vendorId, BuyerId := buyerId,
        PoId := poId, InvoiceStatus := invoiceStatus, RequestForFinance := requestForFinance,
        InvoiceRaisedDate := invoiceRaisedDate, InvoiceAcceptedDate := invoiceAcceptedDate })))
  | .UpdateInvoice invoiceId quoteId vendorId buyerId poId invoiceStatus requestForFinance
      invoiceRaisedDate invoiceAcceptedDate =>
    some (encodeStruct (Invoice.tags.zip (Invoice.values
      { InvoiceId := invoiceId, QuoteId := quoteId, VendorId := vendorId, BuyerId := buyerId,
        PoId := poId, InvoiceStatus := invoiceStatus, RequestForFinance := requestForFinance,
        InvoiceRaisedDate := invoiceRaisedDate, InvoiceAcceptedDate := invoiceAcceptedDate })))
  | .GetQuoteById _ => none
  | .GetPoById _ => none
  | .GetInvoiceById _ => none
  | .IsExists _ => none

/-- What the peer answers during one transaction to the two calls on the stub: whether the call
fails and with which error text. -/
structure Faults where
  getErr : Bytes → Option Bytes
  putErr : Bytes → Bytes → Option Bytes

/-- The stub of a later transaction: the world state that ctx holds, with the answers f of the
peer during that transaction. -/
def Stub.next (ctx : Stub) (f : Faults) : Stub :=
  { state := ctx.state, getErr := f.getErr, putErr := f.putErr }

/-- A transaction in which no call on the stub fails. -/
def noFaults : Faults := { getErr := fun _ => none, putErr := fun _ _ => none }

/-- A transaction in which every read of the world state fails. -/
def readFaults : Faults :=
  { getErr := fun _ => some (ascii "peer down"), putErr := fun _ _ => none }

/-- The world state after a sequence of calls, each a transaction with its own answers of the
peer, made one after the other from the world state of ctx. -/
def runAll (calls : List (Faults × Op)) (ctx : Stub) : Stub :=
  calls.foldl (fun c call => (call.2.run (c.next call.1)).2) ctx

/-- A sequence of three calls: a quote is placed under q1, an update of q1 is tried in a
transaction whose reads fail, and the sample purchase order is raised under po1. -/
def sampleCalls : List (Faults × Op) :=
  [(noFaults, Op.PlaceQuote (ascii "q1") [] [] [] [] [] [] [] []),
   (readFaults, Op.UpdateQuote (ascii "q1") (ascii "V9") [] [] [] [] [] [] []),
   (noFaults, Op.RaisePo (ascii "po1") (ascii "q1") (ascii "900") (ascii "100") (ascii "K1")
      (ascii "2021-01-02") (ascii "INR") (ascii "OPEN"))]

/-- The bytes value are what `json.Marshal` writes for a quote, a purchase order or an invoice
whose identifier field is key. -/
def EncodesRecordOf (key value : Bytes) : Prop :=
  (∃ q : Quote, q.QuoteId = key ∧ q.Marshal = .ok value) ∨
  (∃ p : PurchaseOrder, p.PoId = key ∧ p.Marshal = .ok value) ∨
  (∃ v : Invoice, v.InvoiceId = key ∧ v.Marshal = .ok value)

/-- The members (key, value) read off the pieces of an object whose values are all strings,
after its opening brace. -/
def memberList : List Tok → Option (List (Bytes × Bytes))
  | [.endObject] => some []
  | [.string k, .colon, .string v, .endObject] =>
    match unquoteBytes k, unquoteBytes v with
    | some key, some value => some [(key, value)]
    | _, _ => none
  | .string k :: .colon :: .string v :: .comma :: more =>
    match unquoteBytes k, unquoteBytes v, memberList more with
    | some key, some value, some members => some ((key, value) :: members)
    | _, _, _ => none
  | _ => none

/-- The members of the JSON object data, in the order written, when data is an object whose
values are all strings. -/
def objectMembers (data : Bytes) : Option (List (Bytes × Bytes)) :=
  if checkValid data then
    match tokens data with
    | .beginObject :: toks => memberList toks
    | _ => none
  else none

/-- A world state that holds nothing and accepts a write only of the encoding of the sample
quote. -/
def pickyStub : Stub :=
  { state := fun _ => none, getErr := fun _ => none,
    putErr := fun _ value =>
      if value = encodeStruct (Quote.tags.zip sampleQuote.values) then none
      else some (ascii "ledger closed") }

/-! ## Theorems -/

/-! ### UTF-8 -/

theorem byte_ofNat_eq (n : Nat) (b : Byte) (h : n = b.val) : (Fin.ofNat n : Byte) = b := by
  apply Fin.ext
  simp [Fin.ofNat]
  omega

theorem DecodeRune_two (b b1 : Byte) (tl : Bytes) (h0 : 0xC2 ≤ b.val) (h1 : b.val < 0xE0)
    (h2 : 0x80 ≤ b1.val) (h3 : b1.val ≤ 0xBF) :
    DecodeRune (b :: b1 :: tl) = (b.val % 0x20 * 0x40 + b1.val % 0x40, 2) := by
  have a1 : ¬ b.val < 0x80 := by omega
  have a2 : ¬ (b.val < 0xC2 ∨ 0xF4 < b.val) := by omega
  simp [DecodeRune, a1, a2, h1, h2, h3]

theorem DecodeRune_three (b b1 b2 : Byte) (tl : Bytes) (h0 : 0xE0 ≤ b.val) (h1 : b.val < 0xF0)
    (h2 : acceptLo b.val ≤ b1.val) (h3 : b1.val ≤ acceptHi b.val)
    (h4 : 0x80 ≤ b2.val) (h5 : b2.val ≤ 0xBF) :
    DecodeRune (b :: b1 :: b2 :: tl) =
      (b.val % 0x10 * 0x1000 + b1.val % 0x40 * 0x40 + b2.val % 0x40, 3) := by
  have a1 : ¬ b.val < 0x80 := by omega
  have a2 : ¬ (b.val < 0xC2 ∨ 0xF4 < b.val) := by omega
  have a3 : ¬ b.val < 0xE0 := by omega
  simp [DecodeRune, a1, a2, a3, h1, h2, h3, h4, h5]

theorem DecodeRune_four (b b1 b2 b3 : Byte) (tl : Bytes) (h0 : 0xF0 ≤ b.val) (h1 : b.val ≤ 0xF4)
    (h2 : acceptLo b.val ≤ b1.val) (h3 : b1.val ≤ acceptHi b.val)
    (h4 : 0x80 ≤ b2.val) (h5 : b2.val ≤ 0xBF) (h6 : 0x80 ≤ b3.val) (h7 : b3.val ≤ 0xBF) :
    DecodeRune (b :: b1 :: b2 :: b3 :: tl) =
      (b.val % 0x08 * 0x40000 + b1.val % 0x40 * 0x1000 + b2.val % 0x40 * 0x40 + b3.val % 0x40,
        4) := by
  have a1 : ¬ b.val < 0x80 := by omega
  have a2 : ¬ (b.val < 0xC2 ∨ 0xF4 < b.val) := by omega
  have a3 : ¬ b.val < 0xE0 := by omega
  have a4 : ¬ b.val < 0xF0 := by omega
  simp [DecodeRune, a1, a2, a3, a4, h2, h3, h4, h5, h6, h7]

/-- A byte of 0x80 or more either starts no valid encoding, or starts one of the three shapes. -/
theorem DecodeRune_cases (b : Byte) (rest : Bytes) (hb : 0x80 ≤ b.val) :
    DecodeRune (b :: rest) = (RuneError, 1) ∨
    (∃ b1 tl, rest = b1 :: tl ∧ 0xC2 ≤ b.val ∧ b.val < 0xE0 ∧ 0x80 ≤ b1.val ∧ b1.val ≤ 0xBF) ∨
    (∃ b1 b2 tl, rest = b1 :: b2 :: tl ∧ 0xE0 ≤ b.val ∧ b.val < 0xF0 ∧
      acceptLo b.val ≤ b1.val ∧ b1.val ≤ acceptHi b.val ∧ 0x80 ≤ b2.val ∧ b2.val ≤ 0xBF) ∨
    (∃ b1 b2 b3 tl, rest = b1 :: b2 :: b3 :: tl ∧ 0xF0 ≤ b.val ∧ b.val ≤ 0xF4 ∧
      acceptLo b.val ≤ b1.val ∧ b1.val ≤ acceptHi b.val ∧ 0x80 ≤ b2.val ∧ b2.val ≤ 0xBF ∧
      0x80 ≤ b3.val ∧ b3.val ≤ 0xBF) := by
  have a1 : ¬ b.val < 0x80 := by omega
  by_cases a2 : b.val < 0xC2 ∨ 0xF4 < b.val
  · left; simp [DecodeRune, a1, a2]
  by_cases a3 : b.val < 0xE0
  · match rest with
    | [] => left; simp [DecodeRune, a1, a2, a3]
    | b1 :: tl =>
      by_cases c : 0x80 ≤ b1.val ∧ b1.val ≤ 0xBF
      · right; left
        exact ⟨b1, tl, rfl, by omega, a3, c.1, c.2⟩
      · left; simp [DecodeRune, a1, a2, a3, c]
  by_cases a4 : b.val < 0xF0
  · match rest with
    | [] => left; simp [DecodeRune, a1, a2, a3, a4]
    | [_] => left; simp [DecodeRune, a1, a2, a3, a4]
    | b1 :: b2 :: tl =>
      by_cases c : acceptLo b.val ≤ b1.val ∧ b1.val ≤ acceptHi b.val ∧ 0x80 ≤ b2.val ∧ b2.val ≤ 0xBF
      · right; right; left
        exact ⟨b1, b2, tl, rfl, by omega, a4, c⟩
      · left; simp [DecodeRune, a1, a2, a3, a4, c]
  · match rest with
    | [] => left; simp [DecodeRune, a1, a2, a3, a4]
    | [_] => left; simp [DecodeRune, a1, a2, a3, a4]
    | [_, _] => left; simp [DecodeRune, a1, a2, a3, a4]
    | b1 :: b2 :: b3 :: tl =>
      by_cases c : acceptLo b.val ≤ b1.val ∧ b1.val ≤ acceptHi b.val ∧ 0x80 ≤ b2.val ∧ b2.val ≤ 0xBF
          ∧ 0x80 ≤ b3.val ∧ b3.val ≤ 0xBF
      · right; right; right
        exact ⟨b1, b2, b3, tl, rfl, by omega, by omega, c⟩
      · left; simp [DecodeRune, a1, a2, a3, a4, c]

theorem isRune_two (b b1 : Byte) (h0 : 0xC2 ≤ b.val) (h1 : b.val < 0xE0)
    (h2 : 0x80 ≤ b1.val) (h3 : b1.val ≤ 0xBF) :
    IsRune [b, b1] (b.val % 0x20 * 0x40 + b1.val % 0x40) := by
  refine ⟨by simp, ?_, ?_, ?_⟩
  · intro x hx
    simp at hx
    rcases hx with rfl | rfl <;> omega
  · have e1 : ¬ (b.val % 0x20 * 0x40 + b1.val % 0x40 ≤ 0x7F) := by omega
    have e2 : b.val % 0x20 * 0x40 + b1.val % 0x40 ≤ 0x7FF := by omega
    simp only [EncodeRune, e1, e2, if_false, if_true]
    rw [byte_ofNat_eq _ b (by omega), byte_ofNat_eq _ b1 (by omega)]
  · intro tail
    exact DecodeRune_two b b1 tail h0 h1 h2 h3

theorem isRune_three (b b1 b2 : Byte) (h0 : 0xE0 ≤ b.val) (h1 : b.val < 0xF0)
    (h2 : acceptLo b.val ≤ b1.val) (h3 : b1.val ≤ acceptHi b.val)
    (h4 : 0x80 ≤ b2.val) (h5 : b2.val ≤ 0xBF) :
    IsRune [b, b1, b2] (b.val % 0x10 * 0x1000 + b1.val % 0x40 * 0x40 + b2.val % 0x40) := by
  have g2 : 0x80 ≤ b1.val ∧ (b.val = 0xE0 → 0xA0 ≤ b1.val) := by
    unfold acceptLo at h2; split_ifs at h2 <;> omega
  have g3 : b1.val ≤ 0xBF ∧ (b.val = 0xED → b1.val ≤ 0x9F) := by
    unfold acceptHi at h3; split_ifs at h3 <;> omega
  refine ⟨by simp, ?_, ?_, ?_⟩
  · intro x hx
    simp at hx
    rcases hx with rfl | rfl | rfl <;> omega
  · have e1 : ¬ (b.val % 0x10 * 0x1000 + b1.val % 0x40 * 0x40 + b2.val % 0x40 ≤ 0x7F) := by omega
    have e2 : ¬ (b.val % 0x10 * 0x1000 + b1.val % 0x40 * 0x40 + b2.val % 0x40 ≤ 0x7FF) := by
      omega
    have e3 : ¬ (0x10FFFF < b.val % 0x10 * 0x1000 + b1.val % 0x40 * 0x40 + b2.val % 0x40 ∨
        (0xD800 ≤ b.val % 0x10 * 0x1000 + b1.val % 0x40 * 0x40 + b2.val % 0x40 ∧
          b.val % 0x10 * 0x1000 + b1.val % 0x40 * 0x40 + b2.val % 0x40 ≤ 0xDFFF)) := by omega
    have e4 : b.val % 0x10 * 0x1000 + b1.val % 0x40 * 0x40 + b2.val % 0x40 ≤ 0xFFFF := by omega
    simp only [EncodeRune, e1, e2, e3, e4, if_false, if_true]
    rw [byte_ofNat_eq _ b (by omega), byte_ofNat_eq _ b1 (by omega),
      byte_ofNat_eq _ b2 (by omega)]
  · intro tail
    exact DecodeRune_three b b1 b2 tail h0 h1 h2 h3 h4 h5

theorem isRune_four (b b1 b2 b3 : Byte) (h0 : 0xF0 ≤ b.val) (h1 : b.val ≤ 0xF4)
    (h2 : acceptLo b.val ≤ b1.val) (h3 : b1.val ≤ acceptHi b.val)
    (h4 : 0x80 ≤ b2.val) (h5 : b2.val ≤ 0xBF) (h6 : 0x80 ≤ b3.val) (h7 : b3.val ≤ 0xBF) :
    IsRune [b, b1, b2, b3]
      (b.val % 0x08 * 0x40000 + b1.val % 0x40 * 0x1000 + b2.val % 0x40 * 0x40 + b3.val % 0x40) := by
  have g2 : 0x80 ≤ b1.val ∧ (b.val = 0xF0 → 0x90 ≤ b1.val) := by
    unfold acceptLo at h2; split_ifs at h2 <;> omega
  have g3 : b1.val ≤ 0xBF ∧ (b.val = 0xF4 → b1.val ≤ 0x8F) := by
    unfold acceptHi at h3; split_ifs at h3 <;> omega
  refine ⟨by simp, ?_, ?_, ?_⟩
  · intro x hx
    simp at hx
    rcases hx with rfl | rfl | rfl | rfl <;> omega
  · generalize hc : b.val % 0x08 * 0x40000 + b1.val % 0x40 * 0x1000 + b2.val % 0x40 * 0x40
      + b3.val % 0x40 = c
    have e1 : ¬ (c ≤ 0x7F) := by omega
    have e2 : ¬ (c ≤ 0x7FF) := by omega
    have e3 : ¬ (0x10FFFF < c ∨ (0xD800 ≤ c ∧ c ≤ 0xDFFF)) := by omega
    have e4 : ¬ (c ≤ 0xFFFF) := by omega
    simp only [EncodeRune, e1, e2, e3, e4, if_false]
    rw [byte_ofNat_eq _ b (by omega), byte_ofNat_eq _ b1 (by omega),
      byte_ofNat_eq _ b2 (by omega), byte_ofNat_eq _ b3 (by omega)]
  · intro tail
    exact DecodeRune_four b b1 b2 b3 tail h0 h1 h2 h3 h4 h5 h6 h7

/-- A byte of 0x80 or more on which `DecodeRune` does not report an error starts the encoding of
the rune returned, and the width returned is the length of that encoding. -/
theorem DecodeRune_isRune (b : Byte) (rest : Bytes) (hb : 0x80 ≤ b.val)
    (hv : ¬((DecodeRune (b :: rest)).1 = RuneError ∧ (DecodeRune (b :: rest)).2 = 1)) :
    ∃ bs tl, b :: rest = bs ++ tl ∧ IsRune bs (DecodeRune (b :: rest)).1 ∧
      (DecodeRune (b :: rest)).2 = bs.length := by
  rcases DecodeRune_cases b rest hb with h | ⟨b1, tl, rfl, h0, h1, h2, h3⟩ |
      ⟨b1, b2, tl, rfl, h0, h1, h2, h3, h4, h5⟩ |
      ⟨b1, b2, b3, tl, rfl, h0, h1, h2, h3, h4, h5, h6, h7⟩
  · rw [h] at hv
    simp at hv
  · refine ⟨[b, b1], tl, rfl, ?_, ?_⟩
    · rw [DecodeRune_two b b1 tl h0 h1 h2 h3]
      exact isRune_two b b1 h0 h1 h2 h3
    · rw [DecodeRune_two b b1 tl h0 h1 h2 h3]; rfl
  · refine ⟨[b, b1, b2], tl, rfl, ?_, ?_⟩
    · rw [DecodeRune_three b b1 b2 tl h0 h1 h2 h3 h4 h5]
      exact isRune_three b b1 b2 h0 h1 h2 h3 h4 h5
    · rw [DecodeRune_three b b1 b2 tl h0 h1 h2 h3 h4 h5]; rfl
  · refine ⟨[b, b1, b2, b3], tl, rfl, ?_, ?_⟩
    · rw [DecodeRune_four b b1 b2 b3 tl h0 h1 h2 h3 h4 h5 h6 h7]
      exact isRune_four b b1 b2 b3 h0 h1 h2 h3 h4 h5 h6 h7
    · rw [DecodeRune_four b b1 b2 b3 tl h0 h1 h2 h3 h4 h5 h6 h7]; rfl

theorem take_drop_of_rune (b : Byte) (rest bs tl : Bytes) (h : b :: rest = bs ++ tl)
    (hl : 2 ≤ bs.length) :
    (b :: rest).take bs.length = bs ∧ rest.drop (bs.length - 1) = tl := by
  constructor
  · rw [h]; simp
  · match bs, hl with
    | x :: bs1, _ =>
      simp only [List.cons_append, List.cons.injEq] at h
      rw [h.2]
      simp

/-! ### What `appendString` writes -/

theorem unhex_hex (n : Nat) (h : n < 16) : unhex (hex n).val = some n := by
  interval_cases n <;> rfl

theorem ascii_ufffd : ascii "\\ufffd" = [0x5C, 0x75, 0x66, 0x66, 0x66, 0x64] := by decide

theorem ascii_u202 : ascii "\\u202" = [0x5C, 0x75, 0x32, 0x30, 0x32] := by decide

theorem EncodeRune_ascii (b : Byte) (h : b.val < 0x80) : EncodeRune b.val = [b] := by
  have e1 : b.val ≤ 0x7F := by omega
  simp only [EncodeRune, e1, if_true]
  rw [byte_ofNat_eq _ b rfl]

theorem EncodeRune_RuneError : EncodeRune RuneError = [0xEF, 0xBF, 0xBD] := by decide

theorem escaped_escapeByte (b : Byte) (e d : Bytes) (h : b.val < 0x80)
    (hs : htmlSafe b.val = false) (ih : Escaped e d) : Escaped (escapeByte b ++ e) (b :: d) := by
  unfold escapeByte
  split_ifs with c1 c2 c3 c4 c5 c6
  · refine Escaped.short b b e d ?_ ih
    rcases c1 with c | c <;> simp [shortEscape, c] <;> exact Fin.ext c.symm
  · have hb : b = 0x08 := Fin.ext c2
    subst hb
    exact Escaped.short 0x62 0x08 e d (by decide) ih
  · have hb : b = 0x0C := Fin.ext c3
    subst hb
    exact Escaped.short 0x66 0x0C e d (by decide) ih
  · have hb : b = 0x0A := Fin.ext c4
    subst hb
    exact Escaped.short 0x6E 0x0A e d (by decide) ih
  · have hb : b = 0x0D := Fin.ext c5
    subst hb
    exact Escaped.short 0x72 0x0D e d (by decide) ih
  · have hb : b = 0x09 := Fin.ext c6
    subst hb
    exact Escaped.short 0x74 0x09 e d (by decide) ih
  · have key := Escaped.u4 0x30 0x30 (hex (b.val / 16)) (hex (b.val % 16)) 0 0 (b.val / 16)
      (b.val % 16) e d (by decide) (by decide) (unhex_hex _ (by omega)) (unhex_hex _ (by omega))
      (by simp [isSurrogate]; omega) ih
    have hv : ((0 * 16 + 0) * 16 + b.val / 16) * 16 + b.val % 16 = b.val := by omega
    rw [hv, EncodeRune_ascii b h] at key
    exact key

theorem escaped_appendStringLoop (fuel : Nat) :
    ∀ s : Bytes, Escaped (appendStringLoop fuel s) (coerceLoop fuel s) := by
  induction fuel with
  | zero => intro s; simp [appendStringLoop, coerceLoop]; exact Escaped.nil
  | succ n ih =>
    intro s
    match s with
    | [] => simp [appendStringLoop, coerceLoop]; exact Escaped.nil
    | b :: rest =>
      simp only [appendStringLoop, coerceLoop]
      by_cases hb : b.val < 0x80
      · simp only [hb, if_true]
        by_cases hs : htmlSafe b.val = true
        · simp only [hs, if_true]
          refine Escaped.plain b _ _ ?_ (ih rest)
          simp only [htmlSafe, plainByte, Bool.and_eq_true, decide_eq_true_eq, bne_iff_ne] at hs ⊢
          tauto
        · simp only [hs]
          exact escaped_escapeByte b _ _ hb (by simpa using hs) (ih rest)
      · simp only [hb, if_false]
        by_cases hv : (DecodeRune (b :: rest)).1 = RuneError ∧ (DecodeRune (b :: rest)).2 = 1
        · simp only [hv, and_self, if_true]
          rw [ascii_ufffd]
          have key := Escaped.u4 0x66 0x66 0x66 0x64 15 15 15 13 _ _ (by decide) (by decide)
            (by decide) (by decide) (by decide) (ih rest)
          exact key
        · simp only [hv, if_false]
          obtain ⟨bs, tl, hsplit, hrune, hlen⟩ := DecodeRune_isRune b rest (by omega) hv
          obtain ⟨htake, hdrop⟩ := take_drop_of_rune b rest bs tl hsplit hrune.1
          rw [hlen, htake, hdrop]
          by_cases hu : (DecodeRune (b :: rest)).1 = 0x2028 ∨ (DecodeRune (b :: rest)).1 = 0x2029
          · simp only [hu, if_true]
            rw [ascii_u202]
            have key := Escaped.u4 0x32 0x30 0x32 (hex ((DecodeRune (b :: rest)).1 % 16)) 2 0 2
              ((DecodeRune (b :: rest)).1 % 16) _ _ (by decide) (by decide) (by decide)
              (unhex_hex _ (by omega)) (by rcases hu with h | h <;> simp [h, isSurrogate]) (ih tl)
            have hv2 : ((2 * 16 + 0) * 16 + 2) * 16 + (DecodeRune (b :: rest)).1 % 16
                = (DecodeRune (b :: rest)).1 := by rcases hu with h | h <;> simp [h]
            rw [hv2, hrune.2.2.1] at key
            exact key
          · simp only [hu, if_false]
            exact Escaped.rune bs _ _ _ hrune (ih tl)

/-! ### The scanner on a string literal -/

theorem isHexDigit_of_unhex (c d : Nat) (h : unhex c = some d) : isHexDigit c = true := by
  unfold unhex at h
  unfold isHexDigit
  split_ifs at h with c1 c2 c3
  · simp [c1.1, c1.2]
  · simp [c2.1, c2.2]
  · simp [c3.1, c3.2]

theorem run_cons (s : Scanner) (c : Byte) (cs : Bytes) :
    Scanner.run s (c :: cs) = (s.next c.val).bind (fun s1 => Scanner.run s1 cs) := by
  simp only [Scanner.run]
  cases s.next c.val <;> rfl

theorem run_append (a b : Bytes) : ∀ s : Scanner,
    Scanner.run s (a ++ b) = (Scanner.run s a).bind (fun s1 => Scanner.run s1 b) := by
  induction a with
  | nil => intro s; simp [Scanner.run]
  | cons c cs ih =>
    intro s
    rw [List.cons_append, run_cons, run_cons]
    cases s.next c.val with
    | none => rfl
    | some s1 => simp [ih]

theorem inString_next (ps : List ParseState) (et : Bool) (c : Nat) :
    Scanner.next ⟨.stateInString, ps, et⟩ c = stateInString ⟨.stateInString, ps, et⟩ c := rfl

theorem run_inString_high (bs : Bytes) (h : ∀ x ∈ bs, 0x80 ≤ x.val) (ps : List ParseState)
    (et : Bool) : Scanner.run ⟨.stateInString, ps, et⟩ bs = some ⟨.stateInString, ps, et⟩ := by
  induction bs with
  | nil => rfl
  | cons b bs ih =>
    have hb : 0x80 ≤ b.val := h b (by simp)
    rw [run_cons, inString_next]
    have a1 : ¬ b.val = 0x22 := by omega
    have a2 : ¬ b.val = 0x5C := by omega
    have a3 : ¬ b.val < 0x20 := by omega
    simp only [stateInString, a1, a2, a3, if_false, Option.some_bind]
    exact ih (fun x hx => h x (by simp [hx]))

theorem shortEscape_cases (c : Nat) (x : Byte) (h : shortEscape c = some x) :
    (c = 0x22 ∧ x = 0x22) ∨ (c = 0x5C ∧ x = 0x5C) ∨ (c = 0x62 ∧ x = 0x08) ∨
    (c = 0x66 ∧ x = 0x0C) ∨ (c = 0x6E ∧ x = 0x0A) ∨ (c = 0x72 ∧ x = 0x0D) ∨
    (c = 0x74 ∧ x = 0x09) := by
  unfold shortEscape at h
  split_ifs at h with c1 c2 c3 c4 c5 c6 c7 <;> simp at h <;> simp [*]

/-- The scanner, inside a string literal, is again inside the literal after its body. -/
theorem run_escaped (e d : Bytes) (h : Escaped e d) (ps : List ParseState) (et : Bool) :
    Scanner.run ⟨.stateInString, ps, et⟩ e = some ⟨.stateInString, ps, et⟩ := by
  induction h with
  | nil => rfl
  | plain b e d hb _ ih =>
    rw [run_cons, inString_next]
    simp only [plainByte, Bool.and_eq_true, decide_eq_true_eq, bne_iff_ne] at hb
    have a1 : ¬ b.val = 0x22 := by tauto
    have a2 : ¬ b.val = 0x5C := by tauto
    have a3 : ¬ b.val < 0x20 := by omega
    simp only [stateInString, a1, a2, a3, if_false, Option.some_bind]
    exact ih
  | short c x e d hc _ ih =>
    rw [run_cons, inString_next]
    have s1 : stateInString ⟨.stateInString, ps, et⟩ (0x5C : Byte).val
        = some ⟨.stateInStringEsc, ps, et⟩ := rfl
    rw [s1, Option.some_bind, run_cons]
    have s2 : Scanner.next ⟨.stateInStringEsc, ps, et⟩ c.val = some ⟨.stateInString, ps, et⟩ := by
      rcases shortEscape_cases _ _ hc with h | h | h | h | h | h | h <;>
        simp [Scanner.next, stateInStringEsc, h.1]
    rw [s2, Option.some_bind]
    exact ih
  | u4 h1 h2 h3 h4 d1 d2 d3 d4 e d e1 e2 e3 e4 _ _ ih =>
    have s1 : Scanner.next ⟨.stateInString, ps, et⟩ (0x5C : Byte).val
        = some ⟨.stateInStringEsc, ps, et⟩ := rfl
    have s2 : Scanner.next ⟨.stateInStringEsc, ps, et⟩ (0x75 : Byte).val
        = some ⟨.stateInStringEscU, ps, et⟩ := rfl
    have s3 : Scanner.next ⟨.stateInStringEscU, ps, et⟩ h1.val
        = some ⟨.stateInStringEscU1, ps, et⟩ := by
      simp [Scanner.next, stateHex, isHexDigit_of_unhex _ _ e1]
    have s4 : Scanner.next ⟨.stateInStringEscU1, ps, et⟩ h2.val
        = some ⟨.stateInStringEscU12, ps, et⟩ := by
      simp [Scanner.next, stateHex, isHexDigit_of_unhex _ _ e2]
    have s5 : Scanner.next ⟨.stateInStringEscU12, ps, et⟩ h3.val
        = some ⟨.stateInStringEscU123, ps, et⟩ := by
      simp [Scanner.next, stateHex, isHexDigit_of_unhex _ _ e3]
    have s6 : Scanner.next ⟨.stateInStringEscU123, ps, et⟩ h4.val
        = some ⟨.stateInString, ps, et⟩ := by
      simp [Scanner.next, stateHex, isHexDigit_of_unhex _ _ e4]
    rw [run_cons, s1, Option.some_bind, run_cons, s2, Option.some_bind, run_cons, s3,
      Option.some_bind, run_cons, s4, Option.some_bind, run_cons, s5, Option.some_bind,
      run_cons, s6, Option.some_bind]
    exact ih
  | rune bs c e d hr _ ih =>
    rw [run_append, run_inString_high bs hr.2.1, Option.some_bind]
    exact ih

theorem val_5C : ((0x5C : Byte) : Nat) = 0x5C := rfl

theorem val_75 : ((0x75 : Byte) : Nat) = 0x75 := rfl

/-! ### The literal scan and `unquoteBytes` on a string literal -/

theorem lexStep_inString_plain (toks : List Tok) (item : Bytes) (c : Byte)
    (h1 : c.val ≠ 0x5C) (h2 : c.val ≠ 0x22) :
    lexStep ⟨toks, .inString item false⟩ c = ⟨toks, .inString (item ++ [c]) false⟩ := by
  simp [lexStep, h1, h2]

theorem lexStep_inString_escaped (toks : List Tok) (item : Bytes) (c : Byte) :
    lexStep ⟨toks, .inString item true⟩ c = ⟨toks, .inString (item ++ [c]) false⟩ := by
  simp [lexStep]

theorem lexStep_inString_backslash (toks : List Tok) (item : Bytes) :
    lexStep ⟨toks, .inString item false⟩ 0x5C = ⟨toks, .inString (item ++ [0x5C]) true⟩ := by
  simp [lexStep, val_5C]

theorem unhex_ne (c d : Nat) (h : unhex c = some d) : c ≠ 0x5C ∧ c ≠ 0x22 := by
  unfold unhex at h
  split_ifs at h <;> omega

theorem lex_high (bs : Bytes) (h : ∀ x ∈ bs, 0x80 ≤ x.val) (toks : List Tok) :
    ∀ item : Bytes, List.foldl lexStep ⟨toks, .inString item false⟩ bs
      = ⟨toks, .inString (item ++ bs) false⟩ := by
  induction bs with
  | nil => intro item; simp
  | cons b bs ih =>
    intro item
    have hb : 0x80 ≤ b.val := h b (by simp)
    rw [List.foldl_cons, lexStep_inString_plain toks item b (by omega) (by omega),
      ih (fun x hx => h x (by simp [hx]))]
    simp

/-- The literal scan, inside a string literal, collects its body and is still inside it. -/
theorem lex_escaped (e d : Bytes) (h : Escaped e d) (toks : List Tok) :
    ∀ item : Bytes, List.foldl lexStep ⟨toks, .inString item false⟩ e
      = ⟨toks, .inString (item ++ e) false⟩ := by
  induction h with
  | nil => intro item; simp
  | plain b e d hb _ ih =>
    intro item
    simp only [plainByte, Bool.and_eq_true, decide_eq_true_eq, bne_iff_ne] at hb
    rw [List.foldl_cons, lexStep_inString_plain toks item b (by tauto) (by tauto), ih]
    simp
  | short c x e d hc _ ih =>
    intro item
    rw [List.foldl_cons, lexStep_inString_backslash, List.foldl_cons, lexStep_inString_escaped,
      ih]
    simp
  | u4 h1 h2 h3 h4 d1 d2 d3 d4 e d e1 e2 e3 e4 _ _ ih =>
    intro item
    rw [List.foldl_cons, lexStep_inString_backslash, List.foldl_cons, lexStep_inString_escaped,
      List.foldl_cons, lexStep_inString_plain _ _ h1 (unhex_ne _ _ e1).1 (unhex_ne _ _ e1).2,
      List.foldl_cons, lexStep_inString_plain _ _ h2 (unhex_ne _ _ e2).1 (unhex_ne _ _ e2).2,
      List.foldl_cons, lexStep_inString_plain _ _ h3 (unhex_ne _ _ e3).1 (unhex_ne _ _ e3).2,
      List.foldl_cons, lexStep_inString_plain _ _ h4 (unhex_ne _ _ e4).1 (unhex_ne _ _ e4).2,
      ih]
    simp
  | rune bs c e d hr _ ih =>
    intro item
    rw [List.foldl_append, lex_high bs hr.2.1, ih]
    simp

theorem getu4_cons (h1 h2 h3 h4 : Byte) (d1 d2 d3 d4 : Nat) (tl : Bytes)
    (e1 : unhex h1.val = some d1) (e2 : unhex h2.val = some d2)
    (e3 : unhex h3.val = some d3) (e4 : unhex h4.val = some d4) :
    getu4 (0x5C :: 0x75 :: h1 :: h2 :: h3 :: h4 :: tl)
      = some (((d1 * 16 + d2) * 16 + d3) * 16 + d4) := by
  simp [getu4, e1, e2, e3, e4, val_5C, val_75]

theorem unquoteLoop_step (fuel : Nat) (c : Byte) (rest w left : Bytes)
    (h : unquoteStep c rest = some (w, left)) :
    unquoteLoop (fuel + 1) (c :: rest) = (unquoteLoop fuel left).map (w ++ ·) := by
  simp [unquoteLoop, h]

theorem unquoteStep_plain (b : Byte) (rest : Bytes) (hb : plainByte b.val = true) :
    unquoteStep b rest = some ([b], rest) := by
  simp only [plainByte, Bool.and_eq_true, decide_eq_true_eq, bne_iff_ne] at hb
  have a1 : ¬ b.val = 0x5C := by tauto
  have a2 : ¬ (b.val = 0x22 ∨ b.val < 0x20) := by omega
  have a3 : b.val < 0x80 := by omega
  simp only [unquoteStep, a1, a2, a3, if_false, if_true]

theorem unquoteStep_short (c x : Byte) (rest : Bytes) (hc : shortEscape c.val = some x) :
    unquoteStep 0x5C (c :: rest) = some ([x], rest) := by
  simp only [unquoteStep, val_5C, if_true]
  rcases shortEscape_cases _ _ hc with h | h | h | h | h | h | h <;>
    simp [h.1, h.2] <;> exact Fin.ext h.1

theorem unquoteStep_u4 (h1 h2 h3 h4 : Byte) (d1 d2 d3 d4 : Nat) (rest : Bytes)
    (e1 : unhex h1.val = some d1) (e2 : unhex h2.val = some d2)
    (e3 : unhex h3.val = some d3) (e4 : unhex h4.val = some d4)
    (hs : isSurrogate (((d1 * 16 + d2) * 16 + d3) * 16 + d4) = false) :
    unquoteStep 0x5C (0x75 :: h1 :: h2 :: h3 :: h4 :: rest)
      = some (EncodeRune (((d1 * 16 + d2) * 16 + d3) * 16 + d4), rest) := by
  simp [unquoteStep, val_5C, val_75, getu4_cons h1 h2 h3 h4 d1 d2 d3 d4 rest e1 e2 e3 e4, hs]

theorem unquoteStep_rune (b : Byte) (bs rest : Bytes) (c : Nat) (h : IsRune (b :: bs) c) :
    unquoteStep b (bs ++ rest) = some (b :: bs, rest) := by
  obtain ⟨hlen, hhigh, henc, hdec⟩ := h
  have hb : 0x80 ≤ b.val := hhigh b (by simp)
  have a1 : ¬ b.val = 0x5C := by omega
  have a2 : ¬ (b.val = 0x22 ∨ b.val < 0x20) := by omega
  have a3 : ¬ b.val < 0x80 := by omega
  have hd := hdec rest
  simp only [List.cons_append] at hd
  simp only [unquoteStep, a1, a2, a3, if_false, hd, henc]
  simp

/-- The function `unquoteBytes` reads the body of a literal back as the text it stands for. -/
theorem unquoteLoop_escaped (e d : Bytes) (h : Escaped e d) :
    ∀ fuel, e.length ≤ fuel → unquoteLoop fuel e = some d := by
  induction h with
  | nil => intro fuel _; cases fuel <;> rfl
  | plain b e d hb _ ih =>
    intro fuel hf
    match fuel, hf with
    | n + 1, hf =>
      rw [unquoteLoop_step n b e _ _ (unquoteStep_plain b e hb), ih n (by simpa using hf)]
      rfl
  | short c x e d hc _ ih =>
    intro fuel hf
    match fuel, hf with
    | n + 1, hf =>
      have hl : e.length ≤ n := by simp at hf; omega
      rw [unquoteLoop_step n _ _ _ _ (unquoteStep_short c x e hc), ih n hl]
      rfl
  | u4 h1 h2 h3 h4 d1 d2 d3 d4 e d e1 e2 e3 e4 hs _ ih =>
    intro fuel hf
    match fuel, hf with
    | n + 1, hf =>
      have hl : e.length ≤ n := by simp at hf; omega
      rw [unquoteLoop_step n _ _ _ _ (unquoteStep_u4 h1 h2 h3 h4 d1 d2 d3 d4 e e1 e2 e3 e4 hs),
        ih n hl]
      rfl
  | rune bs c e d hr _ ih =>
    intro fuel hf
    match bs, hr, fuel, hf with
    | b :: bs1, hr, n + 1, hf =>
      have hl : e.length ≤ n := by simp at hf; omega
      rw [List.cons_append, unquoteLoop_step n _ _ _ _ (unquoteStep_rune b bs1 e c hr), ih n hl]
      rfl
    | [], hr, _, _ => exact absurd hr.1 (by simp)

/-! ### Decoding what the struct encoder wrote -/

theorem val_22 : ((0x22 : Byte) : Nat) = 0x22 := rfl

theorem val_3A : ((0x3A : Byte) : Nat) = 0x3A := rfl

theorem val_2C : ((0x2C : Byte) : Nat) = 0x2C := rfl

theorem val_7B : ((0x7B : Byte) : Nat) = 0x7B := rfl

theorem val_7D : ((0x7D : Byte) : Nat) = 0x7D := rfl

theorem escaped_plain (n : Bytes) (h : ∀ b ∈ n, plainByte b.val = true) : Escaped n n := by
  induction n with
  | nil => exact Escaped.nil
  | cons b n ih =>
    exact Escaped.plain b n n (h b (by simp)) (ih (fun x hx => h x (by simp [hx])))

theorem escaped_appendString (v : Bytes) :
    Escaped (appendStringLoop v.length v) (toValidUTF8 v) :=
  escaped_appendStringLoop v.length v

theorem appendString_eq (v : Bytes) :
    appendString v = 0x22 :: (appendStringLoop v.length v ++ [0x22]) := rfl

theorem unquoteBytes_quoted (e d : Bytes) (h : Escaped e d) :
    unquoteBytes (0x22 :: (e ++ [0x22])) = some d := by
  simp only [unquoteBytes, val_22, true_and]
  have h1 : (e ++ [(0x22 : Byte)]).getLast? = some 0x22 := by simp
  have h2 : (e ++ [(0x22 : Byte)]).dropLast = e := by simp
  rw [h1, h2]
  simp only [if_true]
  exact unquoteLoop_escaped e d h _ (le_refl _)

/-- The scanner, inside a string literal, leaves it at the closing quote. -/
theorem run_literal (e d : Bytes) (h : Escaped e d) (ps : List ParseState) (tail : Bytes) :
    Scanner.run ⟨.stateInString, ps, false⟩ (e ++ 0x22 :: tail)
      = Scanner.run ⟨.stateEndValue, ps, false⟩ tail := by
  rw [run_append, run_escaped e d h, Option.some_bind, run_cons]
  rfl

theorem run_member (name v : Bytes) (hn : ∀ b ∈ name, plainByte b.val = true)
    (ps : List ParseState) (tail : Bytes) :
    Scanner.run ⟨.stateInString, .parseObjectKey :: ps, false⟩
        ((name ++ [0x22, 0x3A]) ++ appendString v ++ tail)
      = Scanner.run ⟨.stateEndValue, .parseObjectValue :: ps, false⟩ tail := by
  have e1 : (name ++ [0x22, 0x3A]) ++ appendString v ++ tail
      = name ++ 0x22 :: (0x3A :: 0x22 :: (appendStringLoop v.length v ++ 0x22 :: tail)) := by
    simp [appendString_eq]
  rw [e1, run_literal name name (escaped_plain name hn), run_cons]
  have s1 : Scanner.next ⟨.stateEndValue, .parseObjectKey :: ps, false⟩ (0x3A : Byte).val
      = some ⟨.stateBeginValue, .parseObjectValue :: ps, false⟩ := rfl
  rw [s1, Option.some_bind, run_cons]
  have s2 : Scanner.next ⟨.stateBeginValue, .parseObjectValue :: ps, false⟩ (0x22 : Byte).val
      = some ⟨.stateInString, .parseObjectValue :: ps, false⟩ := rfl
  rw [s2, Option.some_bind, run_literal _ _ (escaped_appendString v)]

theorem encodeFields_cons (next : Byte) (f : Bytes × Bytes) (fs : List (Bytes × Bytes)) :
    encodeFields next (f :: fs)
      = next :: 0x22 :: ((f.1 ++ [0x22, 0x3A]) ++ appendString f.2 ++ encodeFields 0x2C fs) := by
  obtain ⟨name, v⟩ := f
  simp [encodeFields]

theorem plainNames_tail (f : Bytes × Bytes) (fs : List (Bytes × Bytes))
    (h : PlainNames (f :: fs)) : PlainNames fs :=
  fun g hg => h g (by simp [hg])

theorem run_fields (fs : List (Bytes × Bytes)) (hn : PlainNames fs) :
    Scanner.run ⟨.stateEndValue, [.parseObjectValue], false⟩ (encodeFields 0x2C fs)
      = some ⟨.stateEndTop, [], true⟩ := by
  induction fs with
  | nil => rfl
  | cons f fs ih =>
    rw [encodeFields_cons, run_cons]
    have s1 : Scanner.next ⟨.stateEndValue, [.parseObjectValue], false⟩ (0x2C : Byte).val
        = some ⟨.stateBeginString, [.parseObjectKey], false⟩ := rfl
    rw [s1, Option.some_bind, run_cons]
    have s2 : Scanner.next ⟨.stateBeginString, [.parseObjectKey], false⟩ (0x22 : Byte).val
        = some ⟨.stateInString, [.parseObjectKey], false⟩ := rfl
    rw [s2, Option.some_bind, run_member f.1 f.2 (hn f (by simp))]
    exact ih (plainNames_tail f fs hn)

/-- What `json.Marshal` writes for a struct of strings passes the syntax check. -/
theorem checkValid_encodeStruct (fs : List (Bytes × Bytes)) (hn : PlainNames fs) :
    checkValid (encodeStruct fs) = true := by
  match fs, hn with
  | [], _ => rfl
  | f :: fs, hn =>
    have key : Scanner.run Scanner.reset (encodeStruct (f :: fs))
        = some ⟨.stateEndTop, [], true⟩ := by
      rw [encodeStruct, encodeFields_cons, run_cons]
      have s1 : Scanner.next Scanner.reset (0x7B : Byte).val
          = some ⟨.stateBeginStringOrEmpty, [.parseObjectKey], false⟩ := rfl
      rw [s1, Option.some_bind, run_cons]
      have s2 : Scanner.next ⟨.stateBeginStringOrEmpty, [.parseObjectKey], false⟩
          (0x22 : Byte).val = some ⟨.stateInString, [.parseObjectKey], false⟩ := rfl
      rw [s2, Option.some_bind, run_member f.1 f.2 (hn f (by simp))]
      exact run_fields fs (plainNames_tail f fs hn)
    simp only [checkValid, key]
    rfl

theorem lex_literal (e d : Bytes) (h : Escaped e d) (toks : List Tok) (tail : Bytes) :
    List.foldl lexStep ⟨toks, .idle⟩ (0x22 :: (e ++ 0x22 :: tail))
      = List.foldl lexStep ⟨toks ++ [.string (0x22 :: (e ++ [0x22]))], .idle⟩ tail := by
  have s1 : lexStep ⟨toks, .idle⟩ 0x22 = ⟨toks, .inString [0x22] false⟩ := rfl
  rw [List.foldl_cons, s1, List.foldl_append, lex_escaped e d h, List.foldl_cons]
  have s2 : lexStep ⟨toks, .inString ([0x22] ++ e) false⟩ 0x22
      = ⟨toks ++ [.string (0x22 :: (e ++ [0x22]))], .idle⟩ := by
    simp [lexStep, val_22]
  rw [s2]

theorem lex_member (f : Bytes × Bytes) (hn : ∀ b ∈ f.1, plainByte b.val = true)
    (toks : List Tok) (tail : Bytes) :
    List.foldl lexStep ⟨toks, .idle⟩ (0x22 :: ((f.1 ++ [0x22, 0x3A]) ++ appendString f.2 ++ tail))
      = List.foldl lexStep ⟨toks ++ memberToks f, .idle⟩ tail := by
  have e1 : (0x22 : Byte) :: ((f.1 ++ [0x22, 0x3A]) ++ appendString f.2 ++ tail)
      = 0x22 :: (f.1 ++ 0x22 :: (0x3A :: 0x22 :: (appendStringLoop f.2.length f.2 ++ 0x22 :: tail)))
        := by
    simp [appendString_eq]
  rw [e1, lex_literal f.1 f.1 (escaped_plain f.1 hn), List.foldl_cons]
  have s1 : lexStep ⟨toks ++ [.string (0x22 :: (f.1 ++ [0x22]))], .idle⟩ 0x3A
      = ⟨toks ++ [.string (0x22 :: (f.1 ++ [0x22]))] ++ [.colon], .idle⟩ := rfl
  rw [s1, lex_literal _ _ (escaped_appendString f.2)]
  simp [memberToks, appendString_eq]

theorem lex_fields (fs : List (Bytes × Bytes)) (hn : PlainNames fs) : ∀ toks : List Tok,
    List.foldl lexStep ⟨toks, .idle⟩ (encodeFields 0x2C fs)
      = ⟨toks ++ restToks fs ++ [.endObject], .idle⟩ := by
  induction fs with
  | nil => intro toks; simp [restToks]; rfl
  | cons f fs ih =>
    intro toks
    rw [encodeFields_cons, List.foldl_cons]
    have s1 : lexStep ⟨toks, .idle⟩ 0x2C = ⟨toks ++ [.comma], .idle⟩ := rfl
    rw [s1, lex_member f (hn f (by simp)), ih (plainNames_tail f fs hn)]
    simp [restToks]

/-- The tokens of what `json.Marshal` writes for a struct with at least one field. -/
theorem tokens_encodeStruct (f : Bytes × Bytes) (fs : List (Bytes × Bytes))
    (hn : PlainNames (f :: fs)) :
    tokens (encodeStruct (f :: fs))
      = .beginObject :: (memberToks f ++ restToks fs ++ [.endObject]) := by
  simp only [tokens, encodeStruct]
  rw [encodeFields_cons, List.foldl_cons]
  have s1 : lexStep ⟨[], .idle⟩ 0x7B = ⟨[.beginObject], .idle⟩ := rfl
  rw [s1, lex_member f (hn f (by simp)), lex_fields fs (plainNames_tail f fs hn)]
  simp

theorem objectStep_member (tags : List Bytes) (f : Bytes × Bytes)
    (hn : ∀ b ∈ f.1, plainByte b.val = true) (vals : List Bytes) :
    List.foldl (objectStep tags) ⟨1, none, vals, none⟩ (memberToks f)
      = ⟨1, none, assignField tags vals f, none⟩ := by
  have k1 : unquoteBytes (0x22 :: (f.1 ++ [0x22])) = some f.1 :=
    unquoteBytes_quoted f.1 f.1 (escaped_plain f.1 hn)
  have k2 : unquoteBytes (appendString f.2) = some (toValidUTF8 f.2) := by
    rw [appendString_eq]
    exact unquoteBytes_quoted _ _ (escaped_appendString f.2)
  simp only [memberToks, List.foldl_cons, List.foldl_nil, objectStep, k1, k2, assignField]
  cases findField tags f.1 <;> rfl

theorem objectStep_fields (tags : List Bytes) (fs : List (Bytes × Bytes)) (hn : PlainNames fs) :
    ∀ vals : List Bytes,
      List.foldl (objectStep tags) ⟨1, none, vals, none⟩ (restToks fs ++ [.endObject])
        = ⟨0, none, fs.foldl (assignField tags) vals, none⟩ := by
  induction fs with
  | nil => intro vals; rfl
  | cons f fs ih =>
    intro vals
    have s1 : objectStep tags ⟨1, none, vals, none⟩ .comma = ⟨1, none, vals, none⟩ := rfl
    have e1 : restToks (f :: fs) ++ [.endObject]
        = .comma :: (memberToks f ++ (restToks fs ++ [.endObject])) := by
      simp [restToks]
    rw [e1, List.foldl_cons, s1, List.foldl_append,
      objectStep_member tags f (hn f (by simp)), ih (plainNames_tail f fs hn)]
    rfl

/-- Decoding what `json.Marshal` wrote for a struct of strings: every member, in order, sets the
field its name selects to its value coerced to valid UTF-8. -/
theorem decodeStruct_encodeStruct (tags : List Bytes) (fs : List (Bytes × Bytes))
    (hn : PlainNames fs) :
    decodeStruct tags (encodeStruct fs)
      = .ok (fs.foldl (assignField tags) (tags.map (fun _ => []))) := by
  match fs, hn with
  | [], _ => rfl
  | f :: fs, hn =>
    simp only [decodeStruct, checkValid_encodeStruct (f :: fs) hn, if_true,
      tokens_encodeStruct f fs hn]
    rw [List.append_assoc, List.foldl_append, objectStep_member tags f (hn f (by simp)),
      objectStep_fields tags fs (plainNames_tail f fs hn)]
    rfl

set_option maxRecDepth 100000

/-! ### The three record types -/

theorem coerceLoop_valid (fuel : Nat) : ∀ s : Bytes, validLoop fuel s = true →
    coerceLoop fuel s = s := by
  induction fuel with
  | zero =>
    intro s h
    match s, h with
    | [], _ => rfl
  | succ n ih =>
    intro s h
    match s, h with
    | [], _ => rfl
    | b :: rest, h =>
      simp only [validLoop] at h
      simp only [coerceLoop]
      by_cases hb : b.val < 0x80
      · simp only [hb, if_true] at h ⊢
        rw [ih rest h]
      · simp only [hb, if_false] at h ⊢
        by_cases hv : (DecodeRune (b :: rest)).1 = RuneError ∧ (DecodeRune (b :: rest)).2 = 1
        · simp [hv] at h
        · simp only [hv, if_false] at h ⊢
          rw [ih _ h]
          obtain ⟨bs, tl, hsplit, hrune, hlen⟩ := DecodeRune_isRune b rest (by omega) hv
          obtain ⟨htake, hdrop⟩ := take_drop_of_rune b rest bs tl hsplit hrune.1
          rw [hlen, htake, hdrop, hsplit]

/-- A valid UTF-8 string is left as it is by the coercion. -/
theorem toValidUTF8_valid (s : Bytes) (h : ValidString s = true) : toValidUTF8 s = s :=
  coerceLoop_valid s.length s h

theorem plainNames_zip (tags vals : List Bytes)
    (h : ∀ n ∈ tags, ∀ b ∈ n, plainByte b.val = true) : PlainNames (tags.zip vals) :=
  fun f hf => h f.1 (List.of_mem_zip hf).1

theorem Quote_tags_plain : ∀ n ∈ Quote.tags, ∀ b ∈ n, plainByte b.val = true := by decide

theorem PurchaseOrder_tags_plain : ∀ n ∈ PurchaseOrder.tags, ∀ b ∈ n, plainByte b.val = true := by
  decide

theorem Invoice_tags_plain : ∀ n ∈ Invoice.tags, ∀ b ∈ n, plainByte b.val = true := by decide

theorem Quote_Unmarshal_Marshal (q : Quote) (quoteJSON : Bytes)
    (h : q.Marshal = .ok quoteJSON) : Quote.Unmarshal quoteJSON = .ok q.coerce := by
  simp only [Quote.Marshal, Except.ok.injEq] at h
  subst h
  simp only [Quote.Unmarshal,
    decodeStruct_encodeStruct _ _ (plainNames_zip _ q.values Quote_tags_plain)]
  rfl

theorem PurchaseOrder_Unmarshal_Marshal (p : PurchaseOrder) (poJSON : Bytes)
    (h : p.Marshal = .ok poJSON) : PurchaseOrder.Unmarshal poJSON = .ok p.coerce := by
  simp only [PurchaseOrder.Marshal, Except.ok.injEq] at h
  subst h
  simp only [PurchaseOrder.Unmarshal,
    decodeStruct_encodeStruct _ _ (plainNames_zip _ p.values PurchaseOrder_tags_plain)]
  rfl

theorem Invoice_Unmarshal_Marshal (v : Invoice) (invoiceJSON : Bytes)
    (h : v.Marshal = .ok invoiceJSON) : Invoice.Unmarshal invoiceJSON = .ok v.coerce := by
  simp only [Invoice.Marshal, Except.ok.injEq] at h
  subst h
  simp only [Invoice.Unmarshal,
    decodeStruct_encodeStruct _ _ (plainNames_zip _ v.values Invoice_tags_plain)]
  rfl

theorem Quote_coerce_valid (q : Quote) (h : q.Valid) : q.coerce = q := by
  obtain ⟨h1, h2, h3, h4, h5, h6, h7, h8, h9⟩ := h
  simp only [Quote.coerce, toValidUTF8_valid _ h1, toValidUTF8_valid _ h2,
    toValidUTF8_valid _ h3, toValidUTF8_valid _ h4, toValidUTF8_valid _ h5,
    toValidUTF8_valid _ h6, toValidUTF8_valid _ h7, toValidUTF8_valid _ h8,
    toValidUTF8_valid _ h9]

theorem PurchaseOrder_coerce_valid (p : PurchaseOrder) (h : p.Valid) : p.coerce = p := by
  obtain ⟨h1, h2, h3, h4, h5, h6, h7, h8⟩ := h
  simp only [PurchaseOrder.coerce, toValidUTF8_valid _ h1, toValidUTF8_valid _ h2,
    toValidUTF8_valid _ h3, toValidUTF8_valid _ h4, toValidUTF8_valid _ h5,
    toValidUTF8_valid _ h6, toValidUTF8_valid _ h7, toValidUTF8_valid _ h8]

theorem Invoice_coerce_valid (v : Invoice) (h : v.Valid) : v.coerce = v := by
  obtain ⟨h1, h2, h3, h4, h5, h6, h7, h8, h9⟩ := h
  simp only [Invoice.coerce, toValidUTF8_valid _ h1, toValidUTF8_valid _ h2,
    toValidUTF8_valid _ h3, toValidUTF8_valid _ h4, toValidUTF8_valid _ h5,
    toValidUTF8_valid _ h6, toValidUTF8_valid _ h7, toValidUTF8_valid _ h8,
    toValidUTF8_valid _ h9]

/-! ### The stub and the existence check -/

theorem GetState_ok (ctx : Stub) (key : Bytes) (h : ctx.getErr key = none) :
    ctx.GetState key = .ok (ctx.state key) := by
  simp [Stub.GetState, h]

theorem GetState_err (ctx : Stub) (key err : Bytes) (h : ctx.getErr key = some err) :
    ctx.GetState key = .error err := by
  simp [Stub.GetState, h]

theorem PutState_ok (ctx : Stub) (key value : Bytes) (h : ctx.putErr key value = none) :
    ctx.PutState key value = (none, ctx.put key value) := by
  simp [Stub.PutState, h]

theorem PutState_err (ctx : Stub) (key value err : Bytes) (h : ctx.putErr key value = some err) :
    ctx.PutState key value = (some err, ctx) := by
  simp [Stub.PutState, h]

theorem put_state_same (ctx : Stub) (key value : Bytes) :
    (ctx.put key value).state key = some value := by
  simp [Stub.put]

theorem put_state_other (ctx : Stub) (key value k : Bytes) (h : k ≠ key) :
    (ctx.put key value).state k = ctx.state k := by
  simp [Stub.put, h]

theorem put_getErr (ctx : Stub) (key value : Bytes) : (ctx.put key value).getErr = ctx.getErr :=
  rfl

theorem put_putErr (ctx : Stub) (key value : Bytes) : (ctx.put key value).putErr = ctx.putErr :=
  rfl

theorem IsExists_ok (ctx : Stub) (id : Bytes) (h : ctx.getErr id = none) :
    IsExists ctx id = .ok (ctx.state id).isSome := by
  simp [IsExists, GetState_ok ctx id h]

theorem IsExists_err (ctx : Stub) (id err : Bytes) (h : ctx.getErr id = some err) :
    IsExists ctx id = .error (.errorf (ascii "failed to read from world state: " ++ err)) := by
  simp [IsExists, GetState_err ctx id err h]

/-! ### Create, update and read, per record type -/

theorem PlaceQuote_absent (ctx : Stub) (q : Quote) (hget : ctx.getErr q.QuoteId = none)
    (habs : ctx.state q.QuoteId = none) :
    q.place ctx
      = returnPut (ctx.PutState q.QuoteId (encodeStruct (Quote.tags.zip q.values))) := by
  simp [Quote.place, PlaceQuote, IsExists_ok ctx _ hget, habs, Quote.Marshal, Quote.values]

theorem RaisePo_absent (ctx : Stub) (p : PurchaseOrder) (hget : ctx.getErr p.PoId = none)
    (habs : ctx.state p.PoId = none) :
    p.raise ctx
      = returnPut (ctx.PutState p.PoId (encodeStruct (PurchaseOrder.tags.zip p.values))) := by
  simp [PurchaseOrder.raise, RaisePo, IsExists_ok ctx _ hget, habs, PurchaseOrder.Marshal, PurchaseOrder.values]

theorem RaiseInvoice_absent (ctx : Stub) (v : Invoice) (hget : ctx.getErr v.InvoiceId = none)
    (habs : ctx.state v.InvoiceId = none) :
    v.raise ctx
      = returnPut (ctx.PutState v.InvoiceId (encodeStruct (Invoice.tags.zip v.values))) := by
  simp [Invoice.raise, RaiseInvoice, IsExists_ok ctx _ hget, habs, Invoice.Marshal, Invoice.values]

theorem UpdateQuote_present (ctx : Stub) (q : Quote) (hget : ctx.getErr q.QuoteId = none)
    (hpre : (ctx.state q.QuoteId).isSome = true) :
    q.update ctx
      = returnPut (ctx.PutState q.QuoteId (encodeStruct (Quote.tags.zip q.values))) := by
  simp [Quote.update, UpdateQuote, IsExists_ok ctx _ hget, hpre, Quote.Marshal, Quote.values]

theorem UpdatePo_present (ctx : Stub) (p : PurchaseOrder) (hget : ctx.getErr p.PoId = none)
    (hpre : (ctx.state p.PoId).isSome = true) :
    p.update ctx
      = returnPut (ctx.PutState p.PoId (encodeStruct (PurchaseOrder.tags.zip p.values))) := by
  simp [PurchaseOrder.update, UpdatePo, IsExists_ok ctx _ hget, hpre, PurchaseOrder.Marshal, PurchaseOrder.values]

theorem UpdateInvoice_present (ctx : Stub) (v : Invoice) (hget : ctx.getErr v.InvoiceId = none)
    (hpre : (ctx.state v.InvoiceId).isSome = true) :
    v.update ctx
      = returnPut (ctx.PutState v.InvoiceId (encodeStruct (Invoice.tags.zip v.values))) := by
  simp [Invoice.update, UpdateInvoice, IsExists_ok ctx _ hget, hpre, Invoice.Marshal, Invoice.values]

theorem GetQuoteById_stored (ctx : Stub) (q : Quote) (id : Bytes) (hget : ctx.getErr id = none)
    (hst : ctx.state id = some (encodeStruct (Quote.tags.zip q.values))) :
    GetQuoteById ctx id = .ok q.coerce := by
  simp [GetQuoteById, GetState_ok ctx id hget, hst, Quote_Unmarshal_Marshal q _ rfl]

theorem GetPoById_stored (ctx : Stub) (p : PurchaseOrder) (id : Bytes)
    (hget : ctx.getErr id = none)
    (hst : ctx.state id = some (encodeStruct (PurchaseOrder.tags.zip p.values))) :
    GetPoById ctx id = .ok p.coerce := by
  simp [GetPoById, GetState_ok ctx id hget, hst, PurchaseOrder_Unmarshal_Marshal p _ rfl]

theorem GetInvoiceById_stored (ctx : Stub) (v : Invoice) (id : Bytes)
    (hget : ctx.getErr id = none)
    (hst : ctx.state id = some (encodeStruct (Invoice.tags.zip v.values))) :
    GetInvoiceById ctx id = .ok v.coerce := by
  simp [GetInvoiceById, GetState_ok ctx id hget, hst, Invoice_Unmarshal_Marshal v _ rfl]

theorem place_created (ctx : Stub) (q : Quote) (habs : ctx.state q.QuoteId = none)
    (hget : ctx.getErr q.QuoteId = none) (hput : ∀ value, ctx.putErr q.QuoteId value = none) :
    q.place ctx = (none, ctx.put q.QuoteId (encodeStruct (Quote.tags.zip q.values))) := by
  rw [PlaceQuote_absent ctx q hget habs, PutState_ok ctx _ _ (hput _)]
  rfl

theorem raisePo_created (ctx : Stub) (p : PurchaseOrder) (habs : ctx.state p.PoId = none)
    (hget : ctx.getErr p.PoId = none) (hput : ∀ value, ctx.putErr p.PoId value = none) :
    p.raise ctx = (none, ctx.put p.PoId (encodeStruct (PurchaseOrder.tags.zip p.values))) := by
  rw [RaisePo_absent ctx p hget habs, PutState_ok ctx _ _ (hput _)]
  rfl

theorem raiseInvoice_created (ctx : Stub) (v : Invoice) (habs : ctx.state v.InvoiceId = none)
    (hget : ctx.getErr v.InvoiceId = none)
    (hput : ∀ value, ctx.putErr v.InvoiceId value = none) :
    v.raise ctx = (none, ctx.put v.InvoiceId (encodeStruct (Invoice.tags.zip v.values))) := by
  rw [RaiseInvoice_absent ctx v hget habs, PutState_ok ctx _ _ (hput _)]
  rfl

theorem updateQuote_replaced (ctx : Stub) (q : Quote)
    (hpre : (ctx.state q.QuoteId).isSome = true)
    (hget : ctx.getErr q.QuoteId = none) (hput : ∀ value, ctx.putErr q.QuoteId value = none) :
    q.update ctx = (none, ctx.put q.QuoteId (encodeStruct (Quote.tags.zip q.values))) := by
  rw [UpdateQuote_present ctx q hget hpre, PutState_ok ctx _ _ (hput _)]
  rfl

theorem updatePo_replaced (ctx : Stub) (p : PurchaseOrder)
    (hpre : (ctx.state p.PoId).isSome = true)
    (hget : ctx.getErr p.PoId = none) (hput : ∀ value, ctx.putErr p.PoId value = none) :
    p.update ctx = (none, ctx.put p.PoId (encodeStruct (PurchaseOrder.tags.zip p.values))) := by
  rw [UpdatePo_present ctx p hget hpre, PutState_ok ctx _ _ (hput _)]
  rfl

theorem updateInvoice_replaced (ctx : Stub) (v : Invoice)
    (hpre : (ctx.state v.InvoiceId).isSome = true)
    (hget : ctx.getErr v.InvoiceId = none)
    (hput : ∀ value, ctx.putErr v.InvoiceId value = none) :
    v.update ctx = (none, ctx.put v.InvoiceId (encodeStruct (Invoice.tags.zip v.values))) := by
  rw [UpdateInvoice_present ctx v hget hpre, PutState_ok ctx _ _ (hput _)]
  rfl

theorem GetQuoteById_put (ctx : Stub) (q : Quote) (id : Bytes) (hget : ctx.getErr id = none) :
    GetQuoteById (ctx.put id (encodeStruct (Quote.tags.zip q.values))) id = .ok q.coerce :=
  GetQuoteById_stored _ q id hget (put_state_same ctx id _)

theorem GetPoById_put (ctx : Stub) (p : PurchaseOrder) (id : Bytes)
    (hget : ctx.getErr id = none) :
    GetPoById (ctx.put id (encodeStruct (PurchaseOrder.tags.zip p.values))) id = .ok p.coerce :=
  GetPoById_stored _ p id hget (put_state_same ctx id _)

theorem GetInvoiceById_put (ctx : Stub) (v : Invoice) (id : Bytes)
    (hget : ctx.getErr id = none) :
    GetInvoiceById (ctx.put id (encodeStruct (Invoice.tags.zip v.values))) id = .ok v.coerce :=
  GetInvoiceById_stored _ v id hget (put_state_same ctx id _)

theorem sampleQuote_valid : sampleQuote.Valid := by decide

theorem samplePo_valid : samplePo.Valid := by decide

theorem sampleInvoice_valid : sampleInvoice.Valid := by decide

/-! ### The claims -/

/-- C1 (amended): on a world state where the key is absent and reads and writes of it do not
fail, a create call succeeds, and the read that follows succeeds and returns the record built
from the arguments with every string coerced to valid UTF-8 (each invalid byte replaced by
U+FFFD): when the arguments are valid UTF-8, the record whose key field is the id and whose
other fields are the arguments of the same names. -/
theorem C1_create_then_get :
    (∀ (ctx : Stub) (q : Quote), ctx.state q.QuoteId = none → ctx.getErr q.QuoteId = none →
      (∀ value, ctx.putErr q.QuoteId value = none) →
      (q.place ctx).1 = none ∧ GetQuoteById (q.place ctx).2 q.QuoteId = .ok q.coerce ∧
      (q.Valid → GetQuoteById (q.place ctx).2 q.QuoteId = .ok q)) ∧
    (∀ (ctx : Stub) (p : PurchaseOrder), ctx.state p.PoId = none → ctx.getErr p.PoId = none →
      (∀ value, ctx.putErr p.PoId value = none) →
      (p.raise ctx).1 = none ∧ GetPoById (p.raise ctx).2 p.PoId = .ok p.coerce ∧
      (p.Valid → GetPoById (p.raise ctx).2 p.PoId = .ok p)) ∧
    (∀ (ctx : Stub) (v : Invoice), ctx.state v.InvoiceId = none →
      ctx.getErr v.InvoiceId = none → (∀ value, ctx.putErr v.InvoiceId value = none) →
      (v.raise ctx).1 = none ∧ GetInvoiceById (v.raise ctx).2 v.InvoiceId = .ok v.coerce ∧
      (v.Valid → GetInvoiceById (v.raise ctx).2 v.InvoiceId = .ok v)) := by
  refine ⟨?_, ?_, ?_⟩
  · intro ctx q habs hget hput
    rw [place_created ctx q habs hget hput]
    dsimp only
    rw [GetQuoteById_put ctx q _ hget]
    exact ⟨rfl, rfl, fun hv => by rw [Quote_coerce_valid q hv]⟩
  · intro ctx p habs hget hput
    rw [raisePo_created ctx p habs hget hput]
    dsimp only
    rw [GetPoById_put ctx p _ hget]
    exact ⟨rfl, rfl, fun hv => by rw [PurchaseOrder_coerce_valid p hv]⟩
  · intro ctx v habs hget hput
    rw [raiseInvoice_created ctx v habs hget hput]
    dsimp only
    rw [GetInvoiceById_put ctx v _ hget]
    exact ⟨rfl, rfl, fun hv => by rw [Invoice_coerce_valid v hv]⟩

/-- Witness of C1: the three sample records, each created on the empty world state, and a quote
whose vendor id is the byte 0xFF. -/
theorem C1_create_then_get_witness :
    ((sampleQuote.place emptyStub).1 = none ∧
      GetQuoteById (sampleQuote.place emptyStub).2 sampleQuote.QuoteId = .ok sampleQuote) ∧
    ((samplePo.raise emptyStub).1 = none ∧
      GetPoById (samplePo.raise emptyStub).2 samplePo.PoId = .ok samplePo) ∧
    ((sampleInvoice.raise emptyStub).1 = none ∧
      GetInvoiceById (sampleInvoice.raise emptyStub).2 sampleInvoice.InvoiceId
        = .ok sampleInvoice) ∧
    GetQuoteById (Quote.place ⟨ascii "q1", [0xFF], [], [], [], [], [], [], []⟩ emptyStub).2
      (ascii "q1") = .ok ⟨ascii "q1", [0xEF, 0xBF, 0xBD], [], [], [], [], [], [], []⟩ :=
  have hq := C1_create_then_get.1 emptyStub sampleQuote rfl rfl (fun _ => rfl)
  have hp := C1_create_then_get.2.1 emptyStub samplePo rfl rfl (fun _ => rfl)
  have hv := C1_create_then_get.2.2 emptyStub sampleInvoice rfl rfl (fun _ => rfl)
  ⟨⟨hq.1, hq.2.2 sampleQuote_valid⟩, ⟨hp.1, hp.2.2 samplePo_valid⟩,
   ⟨hv.1, hv.2.2 sampleInvoice_valid⟩,
   (C1_create_then_get.1 emptyStub ⟨ascii "q1", [0xFF], [], [], [], [], [], [], []⟩ rfl rfl
     (fun _ => rfl)).2.1.trans (by decide)⟩

/-- C1 fails as stated: a quote placed with the vendor id 0xFF (not valid UTF-8) is read back
with the vendor id U+FFFD. -/
theorem C1_counterexample :
    (PlaceQuote emptyStub (ascii "q1") [0xFF] [] [] [] [] [] [] []).1 = none ∧
    GetQuoteById (PlaceQuote emptyStub (ascii "q1") [0xFF] [] [] [] [] [] [] []).2 (ascii "q1")
      = .ok ⟨ascii "q1", [0xEF, 0xBF, 0xBD], [], [], [], [], [], [], []⟩ ∧
    GetQuoteById (PlaceQuote emptyStub (ascii "q1") [0xFF] [] [] [] [] [] [] []).2 (ascii "q1")
      ≠ .ok ⟨ascii "q1", [0xFF], [], [], [], [], [], [], []⟩ := by
  decide

theorem PlaceQuote_present (ctx : Stub) (id a b c d e f g h : Bytes)
    (hget : ctx.getErr id = none) (hpre : (ctx.state id).isSome = true) :
    PlaceQuote ctx id a b c d e f g h = (some (alreadyExists id), ctx) := by
  simp [PlaceQuote, IsExists_ok ctx id hget, hpre, alreadyExists]

theorem RaisePo_present (ctx : Stub) (id a b c d e f g : Bytes)
    (hget : ctx.getErr id = none) (hpre : (ctx.state id).isSome = true) :
    RaisePo ctx id a b c d e f g = (some (alreadyExists id), ctx) := by
  simp [RaisePo, IsExists_ok ctx id hget, hpre, alreadyExists]

theorem RaiseInvoice_present (ctx : Stub) (id a b c d e f g h : Bytes)
    (hget : ctx.getErr id = none) (hpre : (ctx.state id).isSome = true) :
    RaiseInvoice ctx id a b c d e f g h = (some (alreadyExists id), ctx) := by
  simp [RaiseInvoice, IsExists_ok ctx id hget, hpre, alreadyExists]

/-- C2 (amended): a create call on a key that holds a value (read not failing) fails with the
already-exists error naming the key, whatever the other arguments, and changes nothing; on a
world state where the key is absent and reads and writes of it do not fail, the first create
succeeds, a second create with the same key fails with that error, and the read afterwards
returns what it returned after the first call: the arguments of the first call coerced to valid
UTF-8, hence those arguments themselves when they are valid UTF-8. -/
theorem C2_create_twice :
    (∀ (ctx : Stub) (id a b c d e f g h : Bytes), ctx.getErr id = none →
      (ctx.state id).isSome = true →
      PlaceQuote ctx id a b c d e f g h = (some (alreadyExists id), ctx) ∧
      RaisePo ctx id a b c d e f g = (some (alreadyExists id), ctx) ∧
      RaiseInvoice ctx id a b c d e f g h = (some (alreadyExists id), ctx)) ∧
    (∀ (ctx : Stub) (q : Quote) (a b c d e f g h : Bytes), ctx.state q.QuoteId = none →
      ctx.getErr q.QuoteId = none → (∀ value, ctx.putErr q.QuoteId value = none) →
      (q.place ctx).1 = none ∧
      (PlaceQuote (q.place ctx).2 q.QuoteId a b c d e f g h).1 = some (alreadyExists q.QuoteId) ∧
      GetQuoteById (PlaceQuote (q.place ctx).2 q.QuoteId a b c d e f g h).2 q.QuoteId
        = GetQuoteById (q.place ctx).2 q.QuoteId ∧
      GetQuoteById (PlaceQuote (q.place ctx).2 q.QuoteId a b c d e f g h).2 q.QuoteId
        = .ok q.coerce ∧
      (q.Valid →
        GetQuoteById (PlaceQuote (q.place ctx).2 q.QuoteId a b c d e f g h).2 q.QuoteId
          = .ok q)) ∧
    (∀ (ctx : Stub) (p : PurchaseOrder) (a b c d e f g : Bytes), ctx.state p.PoId = none →
      ctx.getErr p.PoId = none → (∀ value, ctx.putErr p.PoId value = none) →
      (p.raise ctx).1 = none ∧
      (RaisePo (p.raise ctx).2 p.PoId a b c d e f g).1 = some (alreadyExists p.PoId) ∧
      GetPoById (RaisePo (p.raise ctx).2 p.PoId a b c d e f g).2 p.PoId
        = GetPoById (p.raise ctx).2 p.PoId ∧
      GetPoById (RaisePo (p.raise ctx).2 p.PoId a b c d e f g).2 p.PoId = .ok p.coerce ∧
      (p.Valid → GetPoById (RaisePo (p.raise ctx).2 p.PoId a b c d e f g).2 p.PoId = .ok p)) ∧
    (∀ (ctx : Stub) (v : Invoice) (a b c d e f g h : Bytes), ctx.state v.InvoiceId = none →
      ctx.getErr v.InvoiceId = none → (∀ value, ctx.putErr v.InvoiceId value = none) →
      (v.raise ctx).1 = none ∧
      (RaiseInvoice (v.raise ctx).2 v.InvoiceId a b c d e f g h).1
        = some (alreadyExists v.InvoiceId) ∧
      GetInvoiceById (RaiseInvoice (v.raise ctx).2 v.InvoiceId a b c d e f g h).2 v.InvoiceId
        = GetInvoiceById (v.raise ctx).2 v.InvoiceId ∧
      GetInvoiceById (RaiseInvoice (v.raise ctx).2 v.InvoiceId a b c d e f g h).2 v.InvoiceId
        = .ok v.coerce ∧
      (v.Valid →
        GetInvoiceById (RaiseInvoice (v.raise ctx).2 v.InvoiceId a b c d e f g h).2 v.InvoiceId
          = .ok v)) := by
  refine ⟨?_, ?_, ?_, ?_⟩
  · intro ctx id a b c d e f g h hget hpre
    exact ⟨PlaceQuote_present ctx id a b c d e f g h hget hpre,
      RaisePo_present ctx id a b c d e f g hget hpre,
      RaiseInvoice_present ctx id a b c d e f g h hget hpre⟩
  · intro ctx q a b c d e f g h habs hget hput
    rw [place_created ctx q habs hget hput]
    dsimp only
    rw [PlaceQuote_present (ctx.put q.QuoteId (encodeStruct (Quote.tags.zip q.values))) q.QuoteId a b c d e f g h hget (by simp [put_state_same])]
    rw [GetQuoteById_put ctx q _ hget]
    exact ⟨rfl, rfl, rfl, rfl, fun hv => by rw [Quote_coerce_valid q hv]⟩
  · intro ctx p a b c d e f g habs hget hput
    rw [raisePo_created ctx p habs hget hput]
    dsimp only
    rw [RaisePo_present (ctx.put p.PoId (encodeStruct (PurchaseOrder.tags.zip p.values))) p.PoId a b c d e f g hget (by simp [put_state_same])]
    rw [GetPoById_put ctx p _ hget]
    exact ⟨rfl, rfl, rfl, rfl, fun hv => by rw [PurchaseOrder_coerce_valid p hv]⟩
  · intro ctx v a b c d e f g h habs hget hput
    rw [raiseInvoice_created ctx v habs hget hput]
    dsimp only
    rw [RaiseInvoice_present (ctx.put v.InvoiceId (encodeStruct (Invoice.tags.zip v.values)))
      v.InvoiceId a b c d e f g h hget (by simp [put_state_same])]
    rw [GetInvoiceById_put ctx v _ hget]
    exact ⟨rfl, rfl, rfl, rfl, fun hv => by rw [Invoice_coerce_valid v hv]⟩

/-- Witness of C2: the sample purchase order raised twice on the empty world state. -/
theorem C2_create_twice_witness :
    (samplePo.raise emptyStub).1 = none ∧
    (RaisePo (samplePo.raise emptyStub).2 samplePo.PoId [] [] [] [] [] [] []).1
      = some (alreadyExists samplePo.PoId) ∧
    GetPoById (RaisePo (samplePo.raise emptyStub).2 samplePo.PoId [] [] [] [] [] [] []).2
      samplePo.PoId = .ok samplePo :=
  have h := C2_create_twice.2.2.1 emptyStub samplePo [] [] [] [] [] [] [] rfl rfl (fun _ => rfl)
  ⟨h.1, h.2.1, h.2.2.2.2 samplePo_valid⟩

/-- C2 fails as stated: a purchase order raised with the quote id 0xC0 (not valid UTF-8), and
raised again under the same key, is read back with the quote id U+FFFD, not with the quote id
of the first call; and on a world state whose reads succeed and whose writes fail, the first
create on an absent key does not succeed. -/
theorem C2_counterexample :
    (RaisePo emptyStub (ascii "po1") [0xC0] [] [] [] [] [] []).1 = none ∧
    (RaisePo (RaisePo emptyStub (ascii "po1") [0xC0] [] [] [] [] [] []).2
      (ascii "po1") [] [] [] [] [] [] []).1 = some (alreadyExists (ascii "po1")) ∧
    GetPoById (RaisePo (RaisePo emptyStub (ascii "po1") [0xC0] [] [] [] [] [] []).2
      (ascii "po1") [] [] [] [] [] [] []).2 (ascii "po1")
      = .ok ⟨ascii "po1", [0xEF, 0xBF, 0xBD], [], [], [], [], [], []⟩ ∧
    GetPoById (RaisePo (RaisePo emptyStub (ascii "po1") [0xC0] [] [] [] [] [] []).2
      (ascii "po1") [] [] [] [] [] [] []).2 (ascii "po1")
      ≠ .ok ⟨ascii "po1", [0xC0], [], [], [], [], [], []⟩ ∧
    unwritableStub.state (ascii "po1") = none ∧
    unwritableStub.getErr (ascii "po1") = none ∧
    (RaisePo unwritableStub (ascii "po1") [] [] [] [] [] [] []).1
      = some (.stub (ascii "ledger closed")) := by
  decide

theorem UpdateQuote_absent (ctx : Stub) (id a b c d e f g h : Bytes)
    (hget : ctx.getErr id = none) (habs : ctx.state id = none) :
    UpdateQuote ctx id a b c d e f g h = (some (notFound id), ctx) := by
  simp [UpdateQuote, IsExists_ok ctx id hget, habs, notFound]

theorem UpdatePo_absent (ctx : Stub) (id a b c d e f g : Bytes)
    (hget : ctx.getErr id = none) (habs : ctx.state id = none) :
    UpdatePo ctx id a b c d e f g = (some (notFound id), ctx) := by
  simp [UpdatePo, IsExists_ok ctx id hget, habs, notFound]

theorem UpdateInvoice_absent (ctx : Stub) (id a b c d e f g h : Bytes)
    (hget : ctx.getErr id = none) (habs : ctx.state id = none) :
    UpdateInvoice ctx id a b c d e f g h = (some (notFound id), ctx) := by
  simp [UpdateInvoice, IsExists_ok ctx id hget, habs, notFound]

/-- C3: an update call on a key that is absent (read not failing) fails with the not-found
error naming the key, and the key is still absent afterwards (the world state is unchanged). -/
theorem C3_update_absent (ctx : Stub) (id a b c d e f g h : Bytes)
    (hget : ctx.getErr id = none) (habs : ctx.state id = none) :
    (UpdateQuote ctx id a b c d e f g h).1 = some (notFound id) ∧
    (UpdateQuote ctx id a b c d e f g h).2.state id = none ∧
    (UpdateQuote ctx id a b c d e f g h).2 = ctx ∧
    (UpdatePo ctx id a b c d e f g).1 = some (notFound id) ∧
    (UpdatePo ctx id a b c d e f g).2.state id = none ∧
    (UpdatePo ctx id a b c d e f g).2 = ctx ∧
    (UpdateInvoice ctx id a b c d e f g h).1 = some (notFound id) ∧
    (UpdateInvoice ctx id a b c d e f g h).2.state id = none ∧
    (UpdateInvoice ctx id a b c d e f g h).2 = ctx := by
  rw [UpdateQuote_absent ctx id a b c d e f g h hget habs,
    UpdatePo_absent ctx id a b c d e f g hget habs,
    UpdateInvoice_absent ctx id a b c d e f g h hget habs]
  exact ⟨rfl, habs, rfl, rfl, habs, rfl, rfl, habs, rfl⟩

/-- Witness of C3: updates of the key q9 on the empty world state. -/
theorem C3_update_absent_witness :
    (UpdateQuote emptyStub (ascii "q9") [] [] [] [] [] [] [] []).1
      = some (notFound (ascii "q9")) ∧
    (UpdateQuote emptyStub (ascii "q9") [] [] [] [] [] [] [] []).2.state (ascii "q9") = none ∧
    (UpdateQuote emptyStub (ascii "q9") [] [] [] [] [] [] [] []).2 = emptyStub ∧
    (UpdatePo emptyStub (ascii "q9") [] [] [] [] [] [] []).1 = some (notFound (ascii "q9")) ∧
    (UpdatePo emptyStub (ascii "q9") [] [] [] [] [] [] []).2.state (ascii "q9") = none ∧
    (UpdatePo emptyStub (ascii "q9") [] [] [] [] [] [] []).2 = emptyStub ∧
    (UpdateInvoice emptyStub (ascii "q9") [] [] [] [] [] [] [] []).1
      = some (notFound (ascii "q9")) ∧
    (UpdateInvoice emptyStub (ascii "q9") [] [] [] [] [] [] [] []).2.state (ascii "q9") = none ∧
    (UpdateInvoice emptyStub (ascii "q9") [] [] [] [] [] [] [] []).2 = emptyStub :=
  C3_update_absent emptyStub (ascii "q9") [] [] [] [] [] [] [] [] rfl rfl

/-- C4 (amended): on a world state where the key holds a value and reads and writes of it do
not fail, an update call succeeds and the read that follows returns its arguments coerced to
valid UTF-8, hence exactly its arguments when they are valid UTF-8; the bytes stored under the
key afterwards are the encoding of the arguments alone, so two world states with different
values under the key hold the same bytes there after the same update. -/
theorem C4_update_then_get :
    (∀ (ctx : Stub) (q : Quote), (ctx.state q.QuoteId).isSome = true →
      ctx.getErr q.QuoteId = none → (∀ value, ctx.putErr q.QuoteId value = none) →
      (q.update ctx).1 = none ∧ GetQuoteById (q.update ctx).2 q.QuoteId = .ok q.coerce ∧
      (q.Valid → GetQuoteById (q.update ctx).2 q.QuoteId = .ok q) ∧
      (q.update ctx).2.state q.QuoteId = some (encodeStruct (Quote.tags.zip q.values))) ∧
    (∀ (ctx : Stub) (p : PurchaseOrder), (ctx.state p.PoId).isSome = true →
      ctx.getErr p.PoId = none → (∀ value, ctx.putErr p.PoId value = none) →
      (p.update ctx).1 = none ∧ GetPoById (p.update ctx).2 p.PoId = .ok p.coerce ∧
      (p.Valid → GetPoById (p.update ctx).2 p.PoId = .ok p) ∧
      (p.update ctx).2.state p.PoId = some (encodeStruct (PurchaseOrder.tags.zip p.values))) ∧
    (∀ (ctx : Stub) (v : Invoice), (ctx.state v.InvoiceId).isSome = true →
      ctx.getErr v.InvoiceId = none → (∀ value, ctx.putErr v.InvoiceId value = none) →
      (v.update ctx).1 = none ∧ GetInvoiceById (v.update ctx).2 v.InvoiceId = .ok v.coerce ∧
      (v.Valid → GetInvoiceById (v.update ctx).2 v.InvoiceId = .ok v) ∧
      (v.update ctx).2.state v.InvoiceId = some (encodeStruct (Invoice.tags.zip v.values))) ∧
    (∀ (ctx1 ctx2 : Stub) (q : Quote),
      (ctx1.state q.QuoteId).isSome = true → (ctx2.state q.QuoteId).isSome = true →
      ctx1.getErr q.QuoteId = none → ctx2.getErr q.QuoteId = none →
      (∀ value, ctx1.putErr q.QuoteId value = none) →
      (∀ value, ctx2.putErr q.QuoteId value = none) →
      (q.update ctx1).2.state q.QuoteId = (q.update ctx2).2.state q.QuoteId) ∧
    (∀ (ctx1 ctx2 : Stub) (p : PurchaseOrder),
      (ctx1.state p.PoId).isSome = true → (ctx2.state p.PoId).isSome = true →
      ctx1.getErr p.PoId = none → ctx2.getErr p.PoId = none →
      (∀ value, ctx1.putErr p.PoId value = none) → (∀ value, ctx2.putErr p.PoId value = none) →
      (p.update ctx1).2.state p.PoId = (p.update ctx2).2.state p.PoId) ∧
    (∀ (ctx1 ctx2 : Stub) (v : Invoice),
      (ctx1.state v.InvoiceId).isSome = true → (ctx2.state v.InvoiceId).isSome = true →
      ctx1.getErr v.InvoiceId = none → ctx2.getErr v.InvoiceId = none →
      (∀ value, ctx1.putErr v.InvoiceId value = none) →
      (∀ value, ctx2.putErr v.InvoiceId value = none) →
      (v.update ctx1).2.state v.InvoiceId = (v.update ctx2).2.state v.InvoiceId) := by
  refine ⟨?_, ?_, ?_, ?_, ?_, ?_⟩
  · intro ctx q hpre hget hput
    rw [updateQuote_replaced ctx q hpre hget hput]
    dsimp only
    rw [GetQuoteById_put ctx q _ hget]
    exact ⟨rfl, rfl, fun hv => by rw [Quote_coerce_valid q hv], put_state_same ctx _ _⟩
  · intro ctx p hpre hget hput
    rw [updatePo_replaced ctx p hpre hget hput]
    dsimp only
    rw [GetPoById_put ctx p _ hget]
    exact ⟨rfl, rfl, fun hv => by rw [PurchaseOrder_coerce_valid p hv], put_state_same ctx _ _⟩
  · intro ctx v hpre hget hput
    rw [updateInvoice_replaced ctx v hpre hget hput]
    dsimp only
    rw [GetInvoiceById_put ctx v _ hget]
    exact ⟨rfl, rfl, fun hv => by rw [Invoice_coerce_valid v hv], put_state_same ctx _ _⟩
  · intro ctx1 ctx2 q h1 h2 g1 g2 p1 p2
    rw [updateQuote_replaced ctx1 q h1 g1 p1, updateQuote_replaced ctx2 q h2 g2 p2]
    dsimp only
    rw [put_state_same, put_state_same]
  · intro ctx1 ctx2 p h1 h2 g1 g2 p1 p2
    rw [updatePo_replaced ctx1 p h1 g1 p1, updatePo_replaced ctx2 p h2 g2 p2]
    dsimp only
    rw [put_state_same, put_state_same]
  · intro ctx1 ctx2 v h1 h2 g1 g2 p1 p2
    rw [updateInvoice_replaced ctx1 v h1 g1 p1, updateInvoice_replaced ctx2 v h2 g2 p2]
    dsimp only
    rw [put_state_same, put_state_same]

/-- Witness of C4: the sample quote is placed as a draft and then updated to approved; and the
same update on a world state that held other bytes under the key stores the same bytes. -/
theorem C4_update_then_get_witness :
    (({ sampleQuote with Status := ascii "APPROVED" } : Quote).update
      (sampleQuote.place emptyStub).2).1 = none ∧
    GetQuoteById (({ sampleQuote with Status := ascii "APPROVED" } : Quote).update
      (sampleQuote.place emptyStub).2).2 (ascii "q1")
      = .ok { sampleQuote with Status := ascii "APPROVED" } ∧
    (({ sampleQuote with Status := ascii "APPROVED" } : Quote).update
      (sampleQuote.place emptyStub).2).2.state (ascii "q1")
      = (({ sampleQuote with Status := ascii "APPROVED" } : Quote).update
        (emptyStub.put (ascii "q1") [0x00])).2.state (ascii "q1") :=
  have h := C4_update_then_get.1 (sampleQuote.place emptyStub).2
    { sampleQuote with Status := ascii "APPROVED" } (by decide) rfl (fun _ => rfl)
  ⟨h.1, h.2.2.1 (by decide),
    C4_update_then_get.2.2.2.1 (sampleQuote.place emptyStub).2
      (emptyStub.put (ascii "q1") [0x00]) { sampleQuote with Status := ascii "APPROVED" }
      (by decide) (by decide) rfl rfl (fun _ => rfl) (fun _ => rfl)⟩

/-- C4 fails as stated: the sample invoice updated with the status 0xFF (not valid UTF-8) is
read back with the status U+FFFD; and on a world state that holds the sample invoice as
`RaiseInvoice` stored it and whose writes fail, the update does not succeed. -/
theorem C4_counterexample :
    (UpdateInvoice (sampleInvoice.raise emptyStub).2 (ascii "inv1") [] [] [] [] [0xFF] [] []
      []).1 = none ∧
    GetInvoiceById (UpdateInvoice (sampleInvoice.raise emptyStub).2 (ascii "inv1") [] [] [] []
      [0xFF] [] [] []).2 (ascii "inv1")
      = .ok ⟨ascii "inv1", [], [], [], [], [0xEF, 0xBF, 0xBD], [], [], []⟩ ∧
    GetInvoiceById (UpdateInvoice (sampleInvoice.raise emptyStub).2 (ascii "inv1") [] [] [] []
      [0xFF] [] [] []).2 (ascii "inv1")
      ≠ .ok ⟨ascii "inv1", [], [], [], [], [0xFF], [], [], []⟩ ∧
    closedStub.state (ascii "inv1") = (sampleInvoice.raise emptyStub).2.state (ascii "inv1") ∧
    (sampleInvoice.update closedStub).1 = some (.stub (ascii "ledger closed")) := by
  decide

/-- C5: a read by id of a key that is absent (read of the world state not failing) returns no
record and fails with the not-found error naming the key. -/
theorem C5_get_absent (ctx : Stub) (id : Bytes) (hget : ctx.getErr id = none)
    (habs : ctx.state id = none) :
    GetQuoteById ctx id = .error (notFound id) ∧ GetPoById ctx id = .error (notFound id) ∧
    GetInvoiceById ctx id = .error (notFound id) := by
  simp [GetQuoteById, GetPoById, GetInvoiceById, GetState_ok ctx id hget, habs, notFound]

/-- Witness of C5: the key `missing` on the empty world state. -/
theorem C5_get_absent_witness :
    GetQuoteById emptyStub (ascii "missing") = .error (notFound (ascii "missing")) ∧
    GetPoById emptyStub (ascii "missing") = .error (notFound (ascii "missing")) ∧
    GetInvoiceById emptyStub (ascii "missing") = .error (notFound (ascii "missing")) :=
  C5_get_absent emptyStub (ascii "missing") rfl rfl

theorem returnPut_fst_none (ctx : Stub) (key value : Bytes)
    (h : (returnPut (ctx.PutState key value)).1 = none) :
    (returnPut (ctx.PutState key value)).2 = ctx.put key value := by
  unfold returnPut Stub.PutState at h ⊢
  cases hp : ctx.putErr key value with
  | none => rfl
  | some e => simp [hp] at h

theorem returnPut_fst_some (ctx : Stub) (key value : Bytes) (err : GoError)
    (h : (returnPut (ctx.PutState key value)).1 = some err) :
    (returnPut (ctx.PutState key value)).2 = ctx := by
  unfold returnPut Stub.PutState at h ⊢
  cases hp : ctx.putErr key value with
  | none => simp [hp] at h
  | some e => rfl

theorem PlaceQuote_success (ctx : Stub) (id a b c d e f g h : Bytes)
    (hok : (PlaceQuote ctx id a b c d e f g h).1 = none) :
    ∃ value, (PlaceQuote ctx id a b c d e f g h).2 = ctx.put id value := by
  unfold PlaceQuote at hok ⊢
  cases hx : IsExists ctx id with
  | error err => simp [hx] at hok
  | ok found =>
    cases found with
    | true => simp [hx] at hok
    | false =>
      simp only [hx, Bool.false_eq_true, if_false, Quote.Marshal] at hok ⊢
      exact ⟨_, returnPut_fst_none ctx id _ hok⟩

theorem RaisePo_success (ctx : Stub) (id a b c d e f g : Bytes)
    (hok : (RaisePo ctx id a b c d e f g).1 = none) :
    ∃ value, (RaisePo ctx id a b c d e f g).2 = ctx.put id value := by
  unfold RaisePo at hok ⊢
  cases hx : IsExists ctx id with
  | error err => simp [hx] at hok
  | ok found =>
    cases found with
    | true => simp [hx] at hok
    | false =>
      simp only [hx, Bool.false_eq_true, if_false, PurchaseOrder.Marshal] at hok ⊢
      exact ⟨_, returnPut_fst_none ctx id _ hok⟩

theorem RaiseInvoice_success (ctx : Stub) (id a b c d e f g h : Bytes)
    (hok : (RaiseInvoice ctx id a b c d e f g h).1 = none) :
    ∃ value, (RaiseInvoice ctx id a b c d e f g h).2 = ctx.put id value := by
  unfold RaiseInvoice at hok ⊢
  cases hx : IsExists ctx id with
  | error err => simp [hx] at hok
  | ok found =>
    cases found with
    | true => simp [hx] at hok
    | false =>
      simp only [hx, Bool.false_eq_true, if_false, Invoice.Marshal] at hok ⊢
      exact ⟨_, returnPut_fst_none ctx id _ hok⟩

theorem IsExists_put (ctx : Stub) (id value : Bytes) (hget : ctx.getErr id = none) :
    IsExists (ctx.put id value) id = .ok true := by
  rw [IsExists_ok (ctx.put id value) id hget, put_state_same]
  rfl

/-- C6: when the read of the key does not fail, `IsExists` succeeds and returns true exactly when
`GetState` returns bytes for the key; so it returns false where the key is absent, and true
right after a successful `PlaceQuote`, `RaisePo` or `RaiseInvoice` with that key. -/
theorem C6_isExists (ctx : Stub) (id : Bytes) (hget : ctx.getErr id = none) :
    (∃ found, IsExists ctx id = .ok found ∧
      (found = true ↔ ∃ bytes, ctx.GetState id = .ok (some bytes))) ∧
    (ctx.state id = none → IsExists ctx id = .ok false) ∧
    (∀ a b c d e f g h : Bytes, (PlaceQuote ctx id a b c d e f g h).1 = none →
      IsExists (PlaceQuote ctx id a b c d e f g h).2 id = .ok true) ∧
    (∀ a b c d e f g : Bytes, (RaisePo ctx id a b c d e f g).1 = none →
      IsExists (RaisePo ctx id a b c d e f g).2 id = .ok true) ∧
    (∀ a b c d e f g h : Bytes, (RaiseInvoice ctx id a b c d e f g h).1 = none →
      IsExists (RaiseInvoice ctx id a b c d e f g h).2 id = .ok true) := by
  refine ⟨⟨(ctx.state id).isSome, IsExists_ok ctx id hget, ?_⟩, ?_, ?_, ?_, ?_⟩
  · rw [GetState_ok ctx id hget]
    cases ctx.state id <;> simp
  · intro habs
    rw [IsExists_ok ctx id hget, habs]
    rfl
  · intro a b c d e f g h hok
    obtain ⟨value, hv⟩ := PlaceQuote_success ctx id a b c d e f g h hok
    rw [hv]
    exact IsExists_put ctx id value hget
  · intro a b c d e f g hok
    obtain ⟨value, hv⟩ := RaisePo_success ctx id a b c d e f g hok
    rw [hv]
    exact IsExists_put ctx id value hget
  · intro a b c d e f g h hok
    obtain ⟨value, hv⟩ := RaiseInvoice_success ctx id a b c d e f g h hok
    rw [hv]
    exact IsExists_put ctx id value hget

/-- Witness of C6: the key q1 on the empty world state, before and after a create. -/
theorem C6_isExists_witness :
    IsExists emptyStub (ascii "q1") = .ok false ∧
    IsExists (PlaceQuote emptyStub (ascii "q1") [] [] [] [] [] [] [] []).2 (ascii "q1")
      = .ok true ∧
    IsExists (RaisePo emptyStub (ascii "q1") [] [] [] [] [] [] []).2 (ascii "q1") = .ok true ∧
    IsExists (RaiseInvoice emptyStub (ascii "q1") [] [] [] [] [] [] [] []).2 (ascii "q1")
      = .ok true :=
  have h := C6_isExists emptyStub (ascii "q1") rfl
  ⟨h.2.1 rfl, h.2.2.1 [] [] [] [] [] [] [] [] (by decide),
    h.2.2.2.1 [] [] [] [] [] [] [] (by decide), h.2.2.2.2 [] [] [] [] [] [] [] [] (by decide)⟩

/-- C7 (amended): for every quote, purchase order and invoice, `json.Marshal` succeeds and
`json.Unmarshal` of its output into the same type succeeds and yields the record with every
field coerced to valid UTF-8; it yields the record itself when all its fields are valid UTF-8
(empty fields included). -/
theorem C7_codec_round_trip :
    (∀ q : Quote, ∃ quoteJSON, q.Marshal = .ok quoteJSON ∧
      Quote.Unmarshal quoteJSON = .ok q.coerce ∧
      (q.Valid → Quote.Unmarshal quoteJSON = .ok q)) ∧
    (∀ p : PurchaseOrder, ∃ poJSON, p.Marshal = .ok poJSON ∧
      PurchaseOrder.Unmarshal poJSON = .ok p.coerce ∧
      (p.Valid → PurchaseOrder.Unmarshal poJSON = .ok p)) ∧
    (∀ v : Invoice, ∃ invoiceJSON, v.Marshal = .ok invoiceJSON ∧
      Invoice.Unmarshal invoiceJSON = .ok v.coerce ∧
      (v.Valid → Invoice.Unmarshal invoiceJSON = .ok v)) := by
  refine ⟨?_, ?_, ?_⟩
  · intro q
    refine ⟨_, rfl, Quote_Unmarshal_Marshal q _ rfl, fun hv => ?_⟩
    rw [Quote_Unmarshal_Marshal q _ rfl, Quote_coerce_valid q hv]
  · intro p
    refine ⟨_, rfl, PurchaseOrder_Unmarshal_Marshal p _ rfl, fun hv => ?_⟩
    rw [PurchaseOrder_Unmarshal_Marshal p _ rfl, PurchaseOrder_coerce_valid p hv]
  · intro v
    refine ⟨_, rfl, Invoice_Unmarshal_Marshal v _ rfl, fun hv => ?_⟩
    rw [Invoice_Unmarshal_Marshal v _ rfl, Invoice_coerce_valid v hv]

/-- Witness of C7: the three records whose fields are all empty. -/
theorem C7_codec_round_trip_witness :
    (∃ quoteJSON, (⟨[], [], [], [], [], [], [], [], []⟩ : Quote).Marshal = .ok quoteJSON ∧
      Quote.Unmarshal quoteJSON = .ok ⟨[], [], [], [], [], [], [], [], []⟩) ∧
    (∃ poJSON, (⟨[], [], [], [], [], [], [], []⟩ : PurchaseOrder).Marshal = .ok poJSON ∧
      PurchaseOrder.Unmarshal poJSON = .ok ⟨[], [], [], [], [], [], [], []⟩) ∧
    (∃ invoiceJSON, (⟨[], [], [], [], [], [], [], [], []⟩ : Invoice).Marshal = .ok invoiceJSON ∧
      Invoice.Unmarshal invoiceJSON = .ok ⟨[], [], [], [], [], [], [], [], []⟩) :=
  ⟨(C7_codec_round_trip.1 ⟨[], [], [], [], [], [], [], [], []⟩).imp
      (fun _ h => ⟨h.1, h.2.2 (by decide)⟩),
   (C7_codec_round_trip.2.1 ⟨[], [], [], [], [], [], [], []⟩).imp
      (fun _ h => ⟨h.1, h.2.2 (by decide)⟩),
   (C7_codec_round_trip.2.2 ⟨[], [], [], [], [], [], [], [], []⟩).imp
      (fun _ h => ⟨h.1, h.2.2 (by decide)⟩)⟩

/-- C7 fails as stated: the quote whose description is the two bytes 0xE2 0x82 (a truncated
encoding) is decoded from its own encoding with the description U+FFFD U+FFFD. -/
theorem C7_counterexample :
    (⟨[], [], [0xE2, 0x82], [], [], [], [], [], []⟩ : Quote).Marshal
      = .ok (ascii ("\x7b\"quoteId\":\"\",\"vendorId\":\"\",\"desc\":\"\\ufffd\\ufffd\"," ++
        "\"itemsList\":\"\",\"buyerId\":\"\",\"quoteDate\":\"\",\"totalAmount\":\"\"," ++
        "\"extimatedDeliveryDate\":\"\",\"status\":\"\"\x7d")) ∧
    Quote.Unmarshal (ascii ("\x7b\"quoteId\":\"\",\"vendorId\":\"\"," ++
        "\"desc\":\"\\ufffd\\ufffd\"," ++
        "\"itemsList\":\"\",\"buyerId\":\"\",\"quoteDate\":\"\",\"totalAmount\":\"\"," ++
        "\"extimatedDeliveryDate\":\"\",\"status\":\"\"\x7d"))
      = .ok ⟨[], [], [0xEF, 0xBF, 0xBD, 0xEF, 0xBF, 0xBD], [], [], [], [], [], []⟩ ∧
    (⟨[], [], [0xEF, 0xBF, 0xBD, 0xEF, 0xBF, 0xBD], [], [], [], [], [], []⟩ : Quote)
      ≠ ⟨[], [], [0xE2, 0x82], [], [], [], [], [], []⟩ := by
  decide

theorem readError_ne_alreadyExists (err id : Bytes) : readError err ≠ alreadyExists id := by
  intro h
  have h1 : ascii "failed to read from world state: " ++ err
      = ascii "the quote " ++ id ++ ascii " already exists" := by
    simpa [readError, alreadyExists] using h
  have e1 : ascii "failed to read from world state: "
      = 0x66 :: ascii "ailed to read from world state: " := by decide
  have e2 : ascii "the quote " = 0x74 :: ascii "he quote " := by decide
  rw [e1, e2] at h1
  simp only [List.cons_append, List.cons.injEq] at h1
  exact absurd h1.1 (by decide)

theorem readError_ne_notFound (err id : Bytes) : readError err ≠ notFound id := by
  intro h
  have h1 : ascii "failed to read from world state: " ++ err
      = ascii "the asset " ++ id ++ ascii " does not exist" := by
    simpa [readError, notFound] using h
  have e1 : ascii "failed to read from world state: "
      = 0x66 :: ascii "ailed to read from world state: " := by decide
  have e2 : ascii "the asset " = 0x74 :: ascii "he asset " := by decide
  rw [e1, e2] at h1
  simp only [List.cons_append, List.cons.injEq] at h1
  exact absurd h1.1 (by decide)

/-- C8: when the read of the key fails, `IsExists` returns the read error (not false); every
create and update call on the key returns that read error, which is neither the already-exists
nor the not-found error, and leaves the world state as it was (nothing is written); every read
by id returns that read error as well. -/
theorem C8_read_failure (ctx : Stub) (id err : Bytes) (hfail : ctx.getErr id = some err) :
    IsExists ctx id = .error (readError err) ∧
    (∀ a b c d e f g h : Bytes,
      PlaceQuote ctx id a b c d e f g h = (some (readError err), ctx) ∧
      RaiseInvoice ctx id a b c d e f g h = (some (readError err), ctx) ∧
      RaisePo ctx id a b c d e f g = (some (readError err), ctx) ∧
      UpdateQuote ctx id a b c d e f g h = (some (readError err), ctx) ∧
      UpdatePo ctx id a b c d e f g = (some (readError err), ctx) ∧
      UpdateInvoice ctx id a b c d e f g h = (some (readError err), ctx)) ∧
    GetQuoteById ctx id = .error (readError err) ∧
    GetPoById ctx id = .error (readError err) ∧
    GetInvoiceById ctx id = .error (readError err) ∧
    (∀ k, readError err ≠ alreadyExists k) ∧ (∀ k, readError err ≠ notFound k) := by
  have hx : IsExists ctx id = .error (readError err) := IsExists_err ctx id err hfail
  refine ⟨hx, ?_, ?_, ?_, ?_, readError_ne_alreadyExists err, readError_ne_notFound err⟩
  · intro a b c d e f g h
    simp [PlaceQuote, RaiseInvoice, RaisePo, UpdateQuote, UpdatePo, UpdateInvoice, hx]
  · simp [GetQuoteById, GetState_err ctx id err hfail, readError]
  · simp [GetPoById, GetState_err ctx id err hfail, readError]
  · simp [GetInvoiceById, GetState_err ctx id err hfail, readError]

/-- Witness of C8: the key q1 on a world state whose reads fail. -/
theorem C8_read_failure_witness :
    IsExists unreadableStub (ascii "q1") = .error (readError (ascii "peer down")) ∧
    PlaceQuote unreadableStub (ascii "q1") [] [] [] [] [] [] [] []
      = (some (readError (ascii "peer down")), unreadableStub) ∧
    UpdateQuote unreadableStub (ascii "q1") [] [] [] [] [] [] [] []
      = (some (readError (ascii "peer down")), unreadableStub) ∧
    GetQuoteById unreadableStub (ascii "q1") = .error (readError (ascii "peer down")) ∧
    readError (ascii "peer down") ≠ alreadyExists (ascii "q1") ∧
    readError (ascii "peer down") ≠ notFound (ascii "q1") :=
  have h := C8_read_failure unreadableStub (ascii "q1") (ascii "peer down") rfl
  ⟨h.1, (h.2.1 [] [] [] [] [] [] [] []).1, (h.2.1 [] [] [] [] [] [] [] []).2.2.2.1, h.2.2.1,
    h.2.2.2.2.2.1 _, h.2.2.2.2.2.2 _⟩

theorem create_error_state (ctx : Stub) (id value : Bytes) (found : Except GoError Bool)
    (msg : GoError) (err : GoError) (r : Option GoError × Stub)
    (hr : r = match found with
      | .error e => (some e, ctx)
      | .ok b => if b then (some msg, ctx) else returnPut (ctx.PutState id value))
    (h : r.1 = some err) : r.2 = ctx := by
  subst hr
  cases found with
  | error e => rfl
  | ok b =>
    cases b with
    | true => rfl
    | false => exact returnPut_fst_some ctx id value err h

theorem update_error_state (ctx : Stub) (id value : Bytes) (found : Except GoError Bool)
    (msg : GoError) (err : GoError) (r : Option GoError × Stub)
    (hr : r = match found with
      | .error e => (some e, ctx)
      | .ok b => if !b then (some msg, ctx) else returnPut (ctx.PutState id value))
    (h : r.1 = some err) : r.2 = ctx := by
  subst hr
  cases found with
  | error e => rfl
  | ok b =>
    cases b with
    | false => rfl
    | true => exact returnPut_fst_some ctx id value err h

theorem InitLedger_error_state (ctx : Stub) (err : GoError) (h : (InitLedger ctx).1 = some err) :
    (InitLedger ctx).2 = ctx := by
  unfold InitLedger InitLedger.loop Stub.PutState at h ⊢
  simp only [Quote.Marshal] at h ⊢
  cases hp : ctx.putErr (ascii "quote1") _ with
  | none => simp [hp, InitLedger.loop] at h
  | some e => simp [hp]

theorem ofError_error (r : Option GoError × Stub) (err : GoError)
    (h : (Reply.ofError r).1 = .error err) : r.1 = some err ∧ (Reply.ofError r).2 = r.2 := by
  unfold Reply.ofError at h ⊢
  cases hr : r.1 with
  | none => simp [hr] at h
  | some e =>
    simp only [hr, Except.error.injEq] at h ⊢
    exact ⟨by rw [h], trivial⟩

/-- C9: for every exposed operation and every world state, if the operation returns an error
then the world state after it is the world state before it. -/
theorem C9_error_keeps_state (op : Op) (ctx : Stub) (err : GoError)
    (h : (op.run ctx).1 = .error err) : (op.run ctx).2 = ctx := by
  cases op with
  | InitLedger =>
    obtain ⟨h1, h2⟩ := ofError_error _ err h
    exact h2.trans (InitLedger_error_state ctx err h1)
  | PlaceQuote a b c d e f g h0 i =>
    obtain ⟨h1, h2⟩ := ofError_error _ err h
    exact h2.trans (create_error_state ctx a _ (IsExists ctx a) _ err _ rfl h1)
  | RaiseInvoice a b c d e f g h0 i =>
    obtain ⟨h1, h2⟩ := ofError_error _ err h
    exact h2.trans (create_error_state ctx a _ (IsExists ctx a) _ err _ rfl h1)
  | RaisePo a b c d e f g h0 =>
    obtain ⟨h1, h2⟩ := ofError_error _ err h
    exact h2.trans (create_error_state ctx a _ (IsExists ctx a) _ err _ rfl h1)
  | GetQuoteById id => rfl
  | GetPoById id => rfl
  | GetInvoiceById id => rfl
  | UpdateQuote a b c d e f g h0 i =>
    obtain ⟨h1, h2⟩ := ofError_error _ err h
    exact h2.trans (update_error_state ctx a _ (IsExists ctx a) _ err _ rfl h1)
  | UpdatePo a b c d e f g h0 =>
    obtain ⟨h1, h2⟩ := ofError_error _ err h
    exact h2.trans (update_error_state ctx a _ (IsExists ctx a) _ err _ rfl h1)
  | UpdateInvoice a b c d e f g h0 i =>
    obtain ⟨h1, h2⟩ := ofError_error _ err h
    exact h2.trans (update_error_state ctx a _ (IsExists ctx a) _ err _ rfl h1)
  | IsExists id => rfl

/-- Witness of C9: a second `PlaceQuote` of the sample quote fails and changes nothing. -/
theorem C9_error_keeps_state_witness :
    ((Op.PlaceQuote (ascii "q1") [] [] [] [] [] [] [] []).run (sampleQuote.place emptyStub).2).1
      = .error (alreadyExists (ascii "q1")) ∧
    ((Op.PlaceQuote (ascii "q1") [] [] [] [] [] [] [] []).run (sampleQuote.place emptyStub).2).2
      = (sampleQuote.place emptyStub).2 :=
  have h : ((Op.PlaceQuote (ascii "q1") [] [] [] [] [] [] [] []).run
      (sampleQuote.place emptyStub).2).1 = .error (alreadyExists (ascii "q1")) := by decide
  ⟨h, C9_error_keeps_state _ _ _ h⟩

theorem InitLedger_eq (ctx : Stub) :
    InitLedger ctx =
      match ctx.putErr (ascii "quote1") (encodeStruct (Quote.tags.zip seedQuote.values)) with
      | some err => (some (.errorf (ascii "failed to put to world state. " ++ err)), ctx)
      | none =>
        (none, ctx.put (ascii "quote1") (encodeStruct (Quote.tags.zip seedQuote.values))) := by
  unfold InitLedger InitLedger.loop Stub.PutState
  simp only [Quote.Marshal]
  cases hp : ctx.putErr (ascii "quote1") _ with
  | none =>
    have hp1 : ctx.putErr (ascii "quote1") (encodeStruct (Quote.tags.zip seedQuote.values))
        = none := hp
    simp only [hp1]
    rfl
  | some e =>
    have hp1 : ctx.putErr (ascii "quote1") (encodeStruct (Quote.tags.zip seedQuote.values))
        = some e := hp
    simp only [hp1]

theorem seedQuote_valid : seedQuote.Valid := by decide

/-- C10 (amended): on a world state where writes and reads of the key `quote1` do not fail,
`InitLedger` succeeds and `GetQuoteById` of `quote1` then returns the quote with that id and the
eight other fields `NA`; on every world state, `InitLedger` leaves every key other than `quote1`
as it was. -/
theorem C10_init_ledger :
    (∀ ctx : Stub, (∀ value, ctx.putErr (ascii "quote1") value = none) →
      ctx.getErr (ascii "quote1") = none →
      (InitLedger ctx).1 = none ∧
      GetQuoteById (InitLedger ctx).2 (ascii "quote1")
        = .ok ⟨ascii "quote1", ascii "NA", ascii "NA", ascii "NA", ascii "NA", ascii "NA",
            ascii "NA", ascii "NA", ascii "NA"⟩) ∧
    (∀ (ctx : Stub) (k : Bytes), k ≠ ascii "quote1" →
      (InitLedger ctx).2.state k = ctx.state k) := by
  constructor
  · intro ctx hput hget
    rw [InitLedger_eq ctx, hput]
    dsimp only
    rw [GetQuoteById_put ctx seedQuote _ hget, Quote_coerce_valid seedQuote seedQuote_valid]
    exact ⟨rfl, rfl⟩
  · intro ctx k hk
    rw [InitLedger_eq ctx]
    cases ctx.putErr (ascii "quote1") (encodeStruct (Quote.tags.zip seedQuote.values)) with
    | none => exact put_state_other ctx _ _ k hk
    | some e => rfl

/-- Witness of C10: `InitLedger` on the empty world state, and on the world state that holds the
sample quote, whose key q1 it leaves alone. -/
theorem C10_init_ledger_witness :
    (InitLedger emptyStub).1 = none ∧
    GetQuoteById (InitLedger emptyStub).2 (ascii "quote1")
      = .ok ⟨ascii "quote1", ascii "NA", ascii "NA", ascii "NA", ascii "NA", ascii "NA",
          ascii "NA", ascii "NA", ascii "NA"⟩ ∧
    (InitLedger (sampleQuote.place emptyStub).2).2.state (ascii "q1")
      = (sampleQuote.place emptyStub).2.state (ascii "q1") :=
  have h := C10_init_ledger.1 emptyStub (fun _ => rfl) rfl
  ⟨h.1, h.2, C10_init_ledger.2 (sampleQuote.place emptyStub).2 (ascii "q1") (by decide)⟩

/-- C10 fails as stated: on a world state whose writes succeed and whose reads fail,
`InitLedger` succeeds and `GetQuoteById` of `quote1` then returns the read error, not the seed
quote. -/
theorem C10_counterexample :
    (∀ key value, unreadableStub.putErr key value = none) ∧
    (InitLedger unreadableStub).1 = none ∧
    GetQuoteById (InitLedger unreadableStub).2 (ascii "quote1")
      = .error (readError (ascii "peer down")) :=
  ⟨fun _ _ => rfl, by decide, by decide⟩

/-! ### What one call does to the world state -/

theorem IsExists_eq_ok (ctx : Stub) (id : Bytes) (found : Bool)
    (h : IsExists ctx id = .ok found) :
    ctx.getErr id = none ∧ (ctx.state id).isSome = found := by
  unfold IsExists Stub.GetState at h
  cases hg : ctx.getErr id with
  | some err => simp [hg] at h
  | none =>
    simp only [hg, Except.ok.injEq] at h
    exact ⟨rfl, h⟩

theorem create_cases (ctx : Stub) (id value : Bytes) (found : Except GoError Bool)
    (msg : GoError) (r : Option GoError × Stub)
    (hr : r = match found with
      | .error e => (some e, ctx)
      | .ok b => if b then (some msg, ctx) else returnPut (ctx.PutState id value)) :
    r.2 = ctx ∨ (found = .ok false ∧ r = (none, ctx.put id value)) := by
  subst hr
  cases found with
  | error e => exact Or.inl rfl
  | ok b =>
    cases b with
    | true => exact Or.inl rfl
    | false =>
      cases hp : ctx.putErr id value with
      | none => exact Or.inr ⟨rfl, by simp [returnPut, Stub.PutState, hp]⟩
      | some e => exact Or.inl (by simp [returnPut, Stub.PutState, hp])

theorem update_cases (ctx : Stub) (id value : Bytes) (found : Except GoError Bool)
    (msg : GoError) (r : Option GoError × Stub)
    (hr : r = match found with
      | .error e => (some e, ctx)
      | .ok b => if !b then (some msg, ctx) else returnPut (ctx.PutState id value)) :
    r.2 = ctx ∨ (found = .ok true ∧ r = (none, ctx.put id value)) := by
  subst hr
  cases found with
  | error e => exact Or.inl rfl
  | ok b =>
    cases b with
    | false => exact Or.inl rfl
    | true =>
      cases hp : ctx.putErr id value with
      | none => exact Or.inr ⟨rfl, by simp [returnPut, Stub.PutState, hp]⟩
      | some e => exact Or.inl (by simp [returnPut, Stub.PutState, hp])

theorem InitLedger_cases (ctx : Stub) :
    (InitLedger ctx).2 = ctx ∨
    InitLedger ctx
      = (none, ctx.put (ascii "quote1") (encodeStruct (Quote.tags.zip seedQuote.values))) := by
  rw [InitLedger_eq ctx]
  cases ctx.putErr (ascii "quote1") (encodeStruct (Quote.tags.zip seedQuote.values)) with
  | none => exact Or.inr rfl
  | some e => exact Or.inl rfl

theorem ofError_written (r : Option GoError × Stub) (ctx1 : Stub) (h : r = (none, ctx1)) :
    (Reply.ofError r).2 = ctx1 ∧ (Reply.ofError r).1 = .ok .done := by
  subst h
  exact ⟨rfl, rfl⟩

theorem ofError_snd (r : Option GoError × Stub) : (Reply.ofError r).2 = r.2 := by
  unfold Reply.ofError
  cases r.1 <;> rfl

/-- One call either leaves the world state as it was, or succeeds and writes the encoding of the
record built from its arguments under its key; a create writes only where the key was absent,
an update only where it held a value. -/
theorem run_cases (op : Op) (ctx : Stub) :
    (op.run ctx).2 = ctx ∨
    ∃ value, op.value = some value ∧ (op.run ctx).2 = ctx.put op.key value ∧
      (op.run ctx).1 = .ok .done ∧
      (op.kind = .create → ctx.state op.key = none) ∧
      (op.kind = .update → (ctx.state op.key).isSome = true) := by
  cases op with
  | InitLedger =>
    rcases InitLedger_cases ctx with h | h
    · exact Or.inl ((ofError_snd _).trans h)
    · obtain ⟨h1, h2⟩ := ofError_written _ _ h
      exact Or.inr ⟨_, rfl, h1, h2, by simp [Op.kind], by simp [Op.kind]⟩
  | PlaceQuote a b c d e f g h0 i =>
    rcases create_cases ctx a _ (IsExists ctx a) _ (PlaceQuote ctx a b c d e f g h0 i) rfl
      with h | ⟨hx, h⟩
    · exact Or.inl ((ofError_snd _).trans h)
    · obtain ⟨h1, h2⟩ := ofError_written _ _ h
      refine Or.inr ⟨_, rfl, h1, h2, fun _ => ?_, by simp [Op.kind]⟩
      have := (IsExists_eq_ok ctx a false hx).2
      simpa using this
  | RaiseInvoice a b c d e f g h0 i =>
    rcases create_cases ctx a _ (IsExists ctx a) _ (RaiseInvoice ctx a b c d e f g h0 i) rfl
      with h | ⟨hx, h⟩
    · exact Or.inl ((ofError_snd _).trans h)
    · obtain ⟨h1, h2⟩ := ofError_written _ _ h
      refine Or.inr ⟨_, rfl, h1, h2, fun _ => ?_, by simp [Op.kind]⟩
      have := (IsExists_eq_ok ctx a false hx).2
      simpa using this
  | RaisePo a b c d e f g h0 =>
    rcases create_cases ctx a _ (IsExists ctx a) _ (RaisePo ctx a b c d e f g h0) rfl
      with h | ⟨hx, h⟩
    · exact Or.inl ((ofError_snd _).trans h)
    · obtain ⟨h1, h2⟩ := ofError_written _ _ h
      refine Or.inr ⟨_, rfl, h1, h2, fun _ => ?_, by simp [Op.kind]⟩
      have := (IsExists_eq_ok ctx a false hx).2
      simpa using this
  | GetQuoteById id => exact Or.inl rfl
  | GetPoById id => exact Or.inl rfl
  | GetInvoiceById id => exact Or.inl rfl
  | UpdateQuote a b c d e f g h0 i =>
    rcases update_cases ctx a _ (IsExists ctx a) _ (UpdateQuote ctx a b c d e f g h0 i) rfl
      with h | ⟨hx, h⟩
    · exact Or.inl ((ofError_snd _).trans h)
    · obtain ⟨h1, h2⟩ := ofError_written _ _ h
      exact Or.inr ⟨_, rfl, h1, h2, by simp [Op.kind],
        fun _ => (IsExists_eq_ok ctx a true hx).2⟩
  | UpdatePo a b c d e f g h0 =>
    rcases update_cases ctx a _ (IsExists ctx a) _ (UpdatePo ctx a b c d e f g h0) rfl
      with h | ⟨hx, h⟩
    · exact Or.inl ((ofError_snd _).trans h)
    · obtain ⟨h1, h2⟩ := ofError_written _ _ h
      exact Or.inr ⟨_, rfl, h1, h2, by simp [Op.kind],
        fun _ => (IsExists_eq_ok ctx a true hx).2⟩
  | UpdateInvoice a b c d e f g h0 i =>
    rcases update_cases ctx a _ (IsExists ctx a) _ (UpdateInvoice ctx a b c d e f g h0 i) rfl
      with h | ⟨hx, h⟩
    · exact Or.inl ((ofError_snd _).trans h)
    · obtain ⟨h1, h2⟩ := ofError_written _ _ h
      exact Or.inr ⟨_, rfl, h1, h2, by simp [Op.kind],
        fun _ => (IsExists_eq_ok ctx a true hx).2⟩
  | IsExists id => exact Or.inl rfl

theorem value_kind (op : Op) (value : Bytes) (h : op.value = some value) : op.kind ≠ .query := by
  cases op <;> simp [Op.value] at h <;> simp [Op.kind]

theorem run_getErr (op : Op) (ctx : Stub) : (op.run ctx).2.getErr = ctx.getErr := by
  rcases run_cases op ctx with h | ⟨value, _, h, _⟩ <;> rw [h]
  rfl

theorem run_putErr (op : Op) (ctx : Stub) : (op.run ctx).2.putErr = ctx.putErr := by
  rcases run_cases op ctx with h | ⟨value, _, h, _⟩ <;> rw [h]
  rfl

theorem run_state_other (op : Op) (ctx : Stub) (k : Bytes) (hk : k ≠ op.key) :
    (op.run ctx).2.state k = ctx.state k := by
  rcases run_cases op ctx with h | ⟨value, _, h, _⟩ <;> rw [h]
  exact put_state_other ctx _ _ k hk

theorem run_state_present (op : Op) (ctx : Stub) (k : Bytes)
    (h : (ctx.state k).isSome = true) : ((op.run ctx).2.state k).isSome = true := by
  rcases run_cases op ctx with h1 | ⟨value, _, h1, _⟩ <;> rw [h1]
  · exact h
  · by_cases hk : k = op.key
    · rw [hk, put_state_same]; rfl
    · rw [put_state_other ctx _ _ k hk]; exact h

theorem next_state (ctx : Stub) (f : Faults) : (ctx.next f).state = ctx.state := rfl

theorem runAll_cons (call : Faults × Op) (calls : List (Faults × Op)) (ctx : Stub) :
    runAll (call :: calls) ctx = runAll calls (call.2.run (ctx.next call.1)).2 := rfl

theorem runAll_append (calls more : List (Faults × Op)) (ctx : Stub) :
    runAll (calls ++ more) ctx = runAll more (runAll calls ctx) := by
  simp [runAll, List.foldl_append]

theorem runAll_snoc (calls : List (Faults × Op)) (call : Faults × Op) (ctx : Stub) :
    runAll (calls ++ [call]) ctx = (call.2.run ((runAll calls ctx).next call.1)).2 := by
  rw [runAll_append]
  rfl

theorem runAll_state_present (calls : List (Faults × Op)) (k : Bytes) : ∀ ctx : Stub,
    (ctx.state k).isSome = true → ((runAll calls ctx).state k).isSome = true := by
  induction calls with
  | nil => intro ctx h; exact h
  | cons call calls ih =>
    intro ctx h
    rw [runAll_cons]
    exact ih _ (run_state_present call.2 (ctx.next call.1) k h)

/-! ### The claims on single calls and on sequences of calls -/

/-- C11 (amended): no exposed operation deletes a record: a key that holds a value before a call
still holds a value after it; hence along every sequence of calls, whatever calls on the stub
fail in them, once `IsExists` returned true for a key the key holds a value in every later world
state, and a later `IsExists` of the key returns true when its read of the world state does not
fail, returns the read error when it fails, and never returns false. -/
theorem C11_never_deleted :
    (∀ (op : Op) (ctx : Stub) (k : Bytes), (ctx.state k).isSome = true →
      ((op.run ctx).2.state k).isSome = true) ∧
    (∀ (calls : List (Faults × Op)) (ctx : Stub) (id : Bytes), IsExists ctx id = .ok true →
      ((runAll calls ctx).state id).isSome = true ∧
      ∀ f : Faults,
        (f.getErr id = none → IsExists ((runAll calls ctx).next f) id = .ok true) ∧
        (∀ err, f.getErr id = some err →
          IsExists ((runAll calls ctx).next f) id = .error (readError err)) ∧
        IsExists ((runAll calls ctx).next f) id ≠ .ok false) := by
  refine ⟨run_state_present, ?_⟩
  intro calls ctx id h
  obtain ⟨_, hpre⟩ := IsExists_eq_ok ctx id true h
  have hpost : ((runAll calls ctx).state id).isSome = true :=
    runAll_state_present calls id ctx hpre
  refine ⟨hpost, fun f => ⟨fun hget => ?_, fun err herr => ?_, ?_⟩⟩
  · rw [IsExists_ok _ id hget, next_state, hpost]
  · rw [IsExists_err _ id err herr]
    rfl
  · intro hfalse
    have := (IsExists_eq_ok _ id false hfalse).2
    rw [next_state, hpost] at this
    exact absurd this (by simp)

/-- Witness of C11: the key q1 of the sample quote survives an update by a purchase order
method, a seeding and a failing create, the last two in transactions whose reads fail. -/
theorem C11_never_deleted_witness :
    (((Op.UpdatePo (ascii "q1") [] [] [] [] [] [] []).run
      (sampleQuote.place emptyStub).2).2.state (ascii "q1")).isSome = true ∧
    IsExists ((runAll [(noFaults, Op.UpdatePo (ascii "q1") [] [] [] [] [] [] []),
      (readFaults, Op.InitLedger),
      (readFaults, Op.RaiseInvoice (ascii "q1") [] [] [] [] [] [] [] [])]
      (sampleQuote.place emptyStub).2).next noFaults) (ascii "q1") = .ok true :=
  ⟨C11_never_deleted.1 _ (sampleQuote.place emptyStub).2 (ascii "q1") (by decide),
   ((C11_never_deleted.2 _ (sampleQuote.place emptyStub).2 (ascii "q1") (by decide)).2
     noFaults).1 rfl⟩

/-- C11 fails as stated: after the sample quote was placed `IsExists` of its key returns true,
and in a later world state, in a transaction whose read of the world state fails, `IsExists` of
the same key returns the read error and not true. -/
theorem C11_counterexample :
    IsExists (sampleQuote.place emptyStub).2 (ascii "q1") = .ok true ∧
    IsExists ((runAll [(noFaults, Op.GetQuoteById (ascii "q1"))]
      (sampleQuote.place emptyStub).2).next readFaults) (ascii "q1")
      = .error (readError (ascii "peer down")) ∧
    IsExists ((runAll [(noFaults, Op.GetQuoteById (ascii "q1"))]
      (sampleQuote.place emptyStub).2).next readFaults) (ascii "q1") ≠ .ok true := by
  decide

/-- C12 (amended): in every single call, a key that was absent before and is present after is
the id argument of a successful create (`PlaceQuote`, `RaisePo`, `RaiseInvoice`) or is `quote1`
written by a successful `InitLedger`; a key that was present before and whose stored value
differs after is the id argument of a successful update (`UpdateQuote`, `UpdatePo`,
`UpdateInvoice`) or is `quote1` written by a successful `InitLedger`; the reads and `IsExists`
create and overwrite nothing. -/
theorem C12_lifecycle (op : Op) (ctx : Stub) (k : Bytes) :
    (ctx.state k = none → (op.run ctx).2.state k ≠ none →
      (op.run ctx).1 = .ok .done ∧ op.key = k ∧ (op.kind = .create ∨ op.kind = .init)) ∧
    (ctx.state k ≠ none → (op.run ctx).2.state k ≠ ctx.state k →
      (op.run ctx).1 = .ok .done ∧ op.key = k ∧ (op.kind = .update ∨ op.kind = .init)) ∧
    (op.kind = .query → (op.run ctx).2 = ctx) := by
  refine ⟨?_, ?_, ?_⟩
  · intro habs hpost
    rcases run_cases op ctx with h | ⟨value, hv, h, hok, hc, hu⟩
    · rw [h] at hpost; exact absurd habs hpost
    · have hk : k = op.key := by
        by_contra hne
        rw [h, put_state_other ctx _ _ k hne] at hpost
        exact hpost habs
      refine ⟨hok, hk.symm, ?_⟩
      cases hkind : op.kind with
      | init => exact Or.inr rfl
      | create => exact Or.inl rfl
      | update =>
        have := hu hkind
        rw [← hk, habs] at this
        exact absurd this (by simp)
      | query => exact absurd hkind (value_kind op value hv)
  · intro hpre hpost
    rcases run_cases op ctx with h | ⟨value, hv, h, hok, hc, hu⟩
    · rw [h] at hpost; exact absurd rfl hpost
    · have hk : k = op.key := by
        by_contra hne
        rw [h, put_state_other ctx _ _ k hne] at hpost
        exact hpost rfl
      refine ⟨hok, hk.symm, ?_⟩
      cases hkind : op.kind with
      | init => exact Or.inr rfl
      | update => exact Or.inl rfl
      | create =>
        have := hc hkind
        rw [← hk] at this
        exact absurd this hpre
      | query => exact absurd hkind (value_kind op value hv)
  · intro hq
    rcases run_cases op ctx with h | ⟨value, hv, _⟩
    · exact h
    · exact absurd hq (value_kind op value hv)

/-- Witness of C12: placing the sample quote on the empty world state creates q1, and updating
it on the resulting world state changes the value under q1. -/
theorem C12_lifecycle_witness :
    ((Op.PlaceQuote (ascii "q1") [] [] [] [] [] [] [] []).run emptyStub).1 = .ok .done ∧
    (Op.PlaceQuote (ascii "q1") [] [] [] [] [] [] [] []).key = ascii "q1" ∧
    ((Op.PlaceQuote (ascii "q1") [] [] [] [] [] [] [] []).kind = .create ∨
      (Op.PlaceQuote (ascii "q1") [] [] [] [] [] [] [] []).kind = .init) ∧
    ((Op.UpdateQuote (ascii "q1") [] [] [] [] [] [] [] []).run (sampleQuote.place emptyStub).2).1
      = .ok .done ∧
    ((Op.GetQuoteById (ascii "q1")).run emptyStub).2 = emptyStub :=
  have h1 := (C12_lifecycle (Op.PlaceQuote (ascii "q1") [] [] [] [] [] [] [] []) emptyStub
    (ascii "q1")).1 rfl (by decide)
  have h2 := (C12_lifecycle (Op.UpdateQuote (ascii "q1") [] [] [] [] [] [] [] [])
    (sampleQuote.place emptyStub).2 (ascii "q1")).2.1 (by decide) (by decide)
  ⟨h1.1, h1.2.1, h1.2.2, h2.1,
    (C12_lifecycle (Op.GetQuoteById (ascii "q1")) emptyStub (ascii "q1")).2.2 rfl⟩

/-- C12 fails as stated: `InitLedger`, which is not a create, makes the absent key `quote1`
present on the empty world state; and `InitLedger`, which is not an update, replaces the value
a `PlaceQuote` stored under `quote1`. -/
theorem C12_counterexample :
    emptyStub.state (ascii "quote1") = none ∧
    (Op.InitLedger.run emptyStub).2.state (ascii "quote1") ≠ none ∧
    Op.InitLedger.kind ≠ .create ∧
    (PlaceQuote emptyStub (ascii "quote1") [] [] [] [] [] [] [] []).2.state (ascii "quote1")
      ≠ none ∧
    (Op.InitLedger.run
      (PlaceQuote emptyStub (ascii "quote1") [] [] [] [] [] [] [] []).2).2.state (ascii "quote1")
      ≠ (PlaceQuote emptyStub (ascii "quote1") [] [] [] [] [] [] [] []).2.state (ascii "quote1") ∧
    Op.InitLedger.kind ≠ .update := by
  decide

theorem run_snd_eq (op : Op) (ctx : Stub) (r : Option GoError × Stub)
    (h : op.run ctx = Reply.ofError r) : r.2 = (op.run ctx).2 := by
  rw [h, ofError_snd]

/-- C15: the three reads by id and `IsExists` leave the world state unchanged; every create and
update with id argument id leaves the value or absence of every other key unchanged;
`InitLedger` leaves every key other than `quote1` unchanged. -/
theorem C15_frame :
    (∀ (ctx : Stub) (id : Bytes),
      ((Op.GetQuoteById id).run ctx).2 = ctx ∧ ((Op.GetPoById id).run ctx).2 = ctx ∧
      ((Op.GetInvoiceById id).run ctx).2 = ctx ∧ ((Op.IsExists id).run ctx).2 = ctx) ∧
    (∀ (ctx : Stub) (id a b c d e f g h k : Bytes), k ≠ id →
      (PlaceQuote ctx id a b c d e f g h).2.state k = ctx.state k ∧
      (RaiseInvoice ctx id a b c d e f g h).2.state k = ctx.state k ∧
      (RaisePo ctx id a b c d e f g).2.state k = ctx.state k ∧
      (UpdateQuote ctx id a b c d e f g h).2.state k = ctx.state k ∧
      (UpdatePo ctx id a b c d e f g).2.state k = ctx.state k ∧
      (UpdateInvoice ctx id a b c d e f g h).2.state k = ctx.state k) ∧
    (∀ (ctx : Stub) (k : Bytes), k ≠ ascii "quote1" →
      (InitLedger ctx).2.state k = ctx.state k) := by
  refine ⟨fun ctx id => ⟨rfl, rfl, rfl, rfl⟩, ?_, ?_⟩
  · intro ctx id a b c d e f g h k hk
    refine ⟨?_, ?_, ?_, ?_, ?_, ?_⟩
    · rw [run_snd_eq (.PlaceQuote id a b c d e f g h) ctx _ rfl]
      exact run_state_other _ ctx k hk
    · rw [run_snd_eq (.RaiseInvoice id a b c d e f g h) ctx _ rfl]
      exact run_state_other _ ctx k hk
    · rw [run_snd_eq (.RaisePo id a b c d e f g) ctx _ rfl]
      exact run_state_other _ ctx k hk
    · rw [run_snd_eq (.UpdateQuote id a b c d e f g h) ctx _ rfl]
      exact run_state_other _ ctx k hk
    · rw [run_snd_eq (.UpdatePo id a b c d e f g) ctx _ rfl]
      exact run_state_other _ ctx k hk
    · rw [run_snd_eq (.UpdateInvoice id a b c d e f g h) ctx _ rfl]
      exact run_state_other _ ctx k hk
  · intro ctx k hk
    rw [run_snd_eq .InitLedger ctx _ rfl]
    exact run_state_other _ ctx k hk

/-- Witness of C15: on the world state that holds the sample quote under q1, calls about the
key x leave q1 alone, and `InitLedger` leaves q1 alone. -/
theorem C15_frame_witness :
    (PlaceQuote (sampleQuote.place emptyStub).2 (ascii "x") [] [] [] [] [] [] [] []).2.state
      (ascii "q1") = (sampleQuote.place emptyStub).2.state (ascii "q1") ∧
    (UpdateInvoice (sampleQuote.place emptyStub).2 (ascii "x") [] [] [] [] [] [] [] []).2.state
      (ascii "q1") = (sampleQuote.place emptyStub).2.state (ascii "q1") ∧
    (InitLedger (sampleQuote.place emptyStub).2).2.state (ascii "q1")
      = (sampleQuote.place emptyStub).2.state (ascii "q1") :=
  have h := C15_frame.2.1 (sampleQuote.place emptyStub).2 (ascii "x") [] [] [] [] [] [] [] []
    (ascii "q1") (by decide)
  ⟨h.1, h.2.2.2.2.2, C15_frame.2.2 (sampleQuote.place emptyStub).2 (ascii "q1") (by decide)⟩

/-! ### World states reached from the empty one -/

theorem value_encodes (op : Op) (value : Bytes) (h : op.value = some value) :
    EncodesRecordOf op.key value := by
  cases op with
  | InitLedger =>
    simp only [Op.value, Option.some.injEq] at h
    exact Or.inl ⟨seedQuote, rfl, by rw [← h]; rfl⟩
  | PlaceQuote a b c d e f g h0 i =>
    simp only [Op.value, Option.some.injEq] at h
    exact Or.inl ⟨⟨a, b, c, d, e, f, g, h0, i⟩, rfl, by rw [← h]; rfl⟩
  | UpdateQuote a b c d e f g h0 i =>
    simp only [Op.value, Option.some.injEq] at h
    exact Or.inl ⟨⟨a, b, c, d, e, f, g, h0, i⟩, rfl, by rw [← h]; rfl⟩
  | RaisePo a b c d e f g h0 =>
    simp only [Op.value, Option.some.injEq] at h
    exact Or.inr (Or.inl ⟨⟨a, b, c, d, e, f, g, h0⟩, rfl, by rw [← h]; rfl⟩)
  | UpdatePo a b c d e f g h0 =>
    simp only [Op.value, Option.some.injEq] at h
    exact Or.inr (Or.inl ⟨⟨a, b, c, d, e, f, g, h0⟩, rfl, by rw [← h]; rfl⟩)
  | RaiseInvoice a b c d e f g h0 i =>
    simp only [Op.value, Option.some.injEq] at h
    exact Or.inr (Or.inr ⟨⟨a, b, d, e, c, f, g, h0, i⟩, rfl, by rw [← h]; rfl⟩)
  | UpdateInvoice a b c d e f g h0 i =>
    simp only [Op.value, Option.some.injEq] at h
    exact Or.inr (Or.inr ⟨⟨a, b, c, d, e, f, g, h0, i⟩, rfl, by rw [← h]; rfl⟩)
  | GetQuoteById id => simp [Op.value] at h
  | GetPoById id => simp [Op.value] at h
  | GetInvoiceById id => simp [Op.value] at h
  | IsExists id => simp [Op.value] at h

theorem run_encodes (op : Op) (ctx : Stub)
    (hinv : ∀ k value, ctx.state k = some value → EncodesRecordOf k value) :
    ∀ k value, (op.run ctx).2.state k = some value → EncodesRecordOf k value := by
  intro k value hst
  rcases run_cases op ctx with h | ⟨written, hv, h, _⟩
  · rw [h] at hst; exact hinv k value hst
  · rw [h] at hst
    by_cases hk : k = op.key
    · rw [hk, put_state_same] at hst
      rw [hk, ← Option.some.inj hst]
      exact value_encodes op written hv
    · rw [put_state_other ctx _ _ k hk] at hst
      exact hinv k value hst

/-- In every world state reached from an empty one, every key holds the encoding of a record of
one of the three types whose identifier field is that key. -/
theorem runAll_encodes (calls : List (Faults × Op)) : ∀ ctx : Stub,
    (∀ k value, ctx.state k = some value → EncodesRecordOf k value) →
    ∀ k value, (runAll calls ctx).state k = some value → EncodesRecordOf k value := by
  induction calls with
  | nil => intro ctx hinv; exact hinv
  | cons call calls ih =>
    intro ctx hinv
    rw [runAll_cons]
    exact ih _ (run_encodes call.2 (ctx.next call.1) hinv)

theorem empty_encodes (start : Stub) (hempty : ∀ key, start.state key = none) :
    ∀ k value, start.state k = some value → EncodesRecordOf k value := by
  intro k value h
  rw [hempty k] at h
  exact absurd h (by simp)

theorem encodeStruct_ne_nil (fs : List (Bytes × Bytes)) : encodeStruct fs ≠ [] := by
  cases fs with
  | nil => simp [encodeStruct, encodeFields]
  | cons f fs => rw [encodeStruct, encodeFields_cons]; simp

theorem Quote_Unmarshal_encoded (fs : List (Bytes × Bytes)) (hn : PlainNames fs) :
    ∃ q, Quote.Unmarshal (encodeStruct fs) = .ok q := by
  simp only [Quote.Unmarshal, decodeStruct_encodeStruct _ _ hn]
  exact ⟨_, rfl⟩

theorem PurchaseOrder_Unmarshal_encoded (fs : List (Bytes × Bytes)) (hn : PlainNames fs) :
    ∃ p, PurchaseOrder.Unmarshal (encodeStruct fs) = .ok p := by
  simp only [PurchaseOrder.Unmarshal, decodeStruct_encodeStruct _ _ hn]
  exact ⟨_, rfl⟩

theorem Invoice_Unmarshal_encoded (fs : List (Bytes × Bytes)) (hn : PlainNames fs) :
    ∃ v, Invoice.Unmarshal (encodeStruct fs) = .ok v := by
  simp only [Invoice.Unmarshal, decodeStruct_encodeStruct _ _ hn]
  exact ⟨_, rfl⟩

/-- What `json.Marshal` wrote for a record of any of the three types is plain field names with
string values. -/
theorem encodes_plain (key value : Bytes) (h : EncodesRecordOf key value) :
    ∃ fs, PlainNames fs ∧ value = encodeStruct fs := by
  rcases h with ⟨q, _, hq⟩ | ⟨p, _, hp⟩ | ⟨v, _, hv⟩
  · exact ⟨_, plainNames_zip _ q.values Quote_tags_plain, (Except.ok.inj hq).symm⟩
  · exact ⟨_, plainNames_zip _ p.values PurchaseOrder_tags_plain, (Except.ok.inj hp).symm⟩
  · exact ⟨_, plainNames_zip _ v.values Invoice_tags_plain, (Except.ok.inj hv).symm⟩

theorem GetQuoteById_of_state (ctx : Stub) (k value : Bytes) (hget : ctx.getErr k = none)
    (hst : ctx.state k = some value) : GetQuoteById ctx k = Quote.Unmarshal value := by
  simp only [GetQuoteById, GetState_ok ctx k hget, hst]
  cases Quote.Unmarshal value <;> rfl

theorem GetPoById_of_state (ctx : Stub) (k value : Bytes) (hget : ctx.getErr k = none)
    (hst : ctx.state k = some value) : GetPoById ctx k = PurchaseOrder.Unmarshal value := by
  simp only [GetPoById, GetState_ok ctx k hget, hst]
  cases PurchaseOrder.Unmarshal value <;> rfl

theorem GetInvoiceById_of_state (ctx : Stub) (k value : Bytes) (hget : ctx.getErr k = none)
    (hst : ctx.state k = some value) : GetInvoiceById ctx k = Invoice.Unmarshal value := by
  simp only [GetInvoiceById, GetState_ok ctx k hget, hst]
  cases Invoice.Unmarshal value <;> rfl

/-- The three reads by id succeed on a key that holds the encoding of a record of any of the
three types, when the read of the world state does not fail. -/
theorem reads_succeed (ctx : Stub) (k value : Bytes) (hget : ctx.getErr k = none)
    (hst : ctx.state k = some value) (henc : EncodesRecordOf k value) :
    (∃ q, GetQuoteById ctx k = .ok q) ∧ (∃ p, GetPoById ctx k = .ok p) ∧
    (∃ v, GetInvoiceById ctx k = .ok v) := by
  obtain ⟨fs, hn, hv⟩ := encodes_plain k value henc
  rw [GetQuoteById_of_state ctx k value hget hst, GetPoById_of_state ctx k value hget hst,
    GetInvoiceById_of_state ctx k value hget hst, hv]
  exact ⟨Quote_Unmarshal_encoded fs hn, PurchaseOrder_Unmarshal_encoded fs hn,
    Invoice_Unmarshal_encoded fs hn⟩

/-- A read by id never returns a decoding error on a world state whose values are encodings of
records. -/
theorem reads_no_json_error (ctx : Stub) (k : Bytes) (e : JsonError)
    (hinv : ∀ key value, ctx.state key = some value → EncodesRecordOf key value) :
    GetQuoteById ctx k ≠ .error (.json e) ∧ GetPoById ctx k ≠ .error (.json e) ∧
    GetInvoiceById ctx k ≠ .error (.json e) := by
  cases hg : ctx.getErr k with
  | some err =>
    simp [GetQuoteById, GetPoById, GetInvoiceById, GetState_err ctx k err hg]
  | none =>
    cases hst : ctx.state k with
    | none => simp [GetQuoteById, GetPoById, GetInvoiceById, GetState_ok ctx k hg, hst]
    | some value =>
      obtain ⟨⟨q, hq⟩, ⟨p, hp⟩, ⟨v, hv⟩⟩ := reads_succeed ctx k value hg hst (hinv k value hst)
      rw [hq, hp, hv]
      simp

/-- A value held under a key after a sequence of calls, and not held there at the start, was
written by one of the calls, which was about that key, succeeded and wrote the encoding of the
record built from its arguments; after every later call the key still held that value. -/
theorem runAll_last_written (start : Stub) (k value : Bytes) (hne : start.state k ≠ some value)
    (calls : List (Faults × Op)) :
    (runAll calls start).state k = some value →
    ∃ pre call post, calls = pre ++ call :: post ∧ call.2.key = k ∧
      call.2.value = some value ∧
      (call.2.run ((runAll pre start).next call.1)).1 = .ok .done ∧
      (runAll pre start).state k ≠ some value ∧
      ∀ n, (runAll (pre ++ call :: post.take n) start).state k = some value := by
  induction calls using List.reverseRecOn with
  | nil => intro hst; exact absurd hst hne
  | append_singleton init c ih =>
    intro hst
    by_cases hprev : (runAll init start).state k = some value
    · obtain ⟨pre, call, post, hsplit, hkey, hval, hok, hbefore, hstay⟩ := ih hprev
      refine ⟨pre, call, post ++ [c], by rw [hsplit]; simp, hkey, hval, hok, hbefore, ?_⟩
      intro n
      by_cases hn : n ≤ post.length
      · rw [List.take_append_of_le_length hn]
        exact hstay n
      · rw [List.take_of_length_le (by simp; omega)]
        have : pre ++ call :: (post ++ [c]) = init ++ [c] := by rw [hsplit]; simp
        rw [this]
        exact hst
    · rw [runAll_snoc] at hst
      rcases run_cases c.2 ((runAll init start).next c.1) with h | ⟨written, hv, h, hok, _⟩
      · rw [h] at hst
        exact absurd hst hprev
      · rw [h] at hst
        by_cases hk : k = c.2.key
        · rw [hk, put_state_same] at hst
          refine ⟨init, c, [], rfl, hk.symm, by rw [hv, hst], hok, hprev, ?_⟩
          intro n
          rw [List.take_nil, runAll_snoc, h, hk, put_state_same, hst]
        · rw [put_state_other _ _ _ k hk] at hst
          exact absurd hst hprev

/-- C14 (amended): in every world state reached from an empty one by a sequence of exposed
calls, whatever calls on the stub fail in them, every key that holds a value holds the encoding
of a quote, a purchase order or an invoice whose identifier field is that key; the read of that
record type, when its read of the world state does not fail, returns that record coerced to
valid UTF-8, whose identifier is the key coerced to valid UTF-8, hence the key itself when the
key is valid UTF-8; the reads of the other two record types then return a record as well; and
the value held is the one last written under the key: a call about that key succeeded and wrote
these bytes, the encoding of the record built from its arguments, where they were not held
before, and after every later call the key still held them. -/
theorem C14_identifier_is_key (calls : List (Faults × Op)) (start : Stub) (k value : Bytes)
    (hempty : ∀ key, start.state key = none)
    (hst : (runAll calls start).state k = some value) :
    ((∃ q : Quote, q.Marshal = .ok value ∧ q.QuoteId = k ∧
        q.coerce.QuoteId = toValidUTF8 k ∧ (ValidString k = true → q.coerce.QuoteId = k) ∧
        ∀ f : Faults, f.getErr k = none →
          GetQuoteById ((runAll calls start).next f) k = .ok q.coerce) ∨
      (∃ p : PurchaseOrder, p.Marshal = .ok value ∧ p.PoId = k ∧
        p.coerce.PoId = toValidUTF8 k ∧ (ValidString k = true → p.coerce.PoId = k) ∧
        ∀ f : Faults, f.getErr k = none →
          GetPoById ((runAll calls start).next f) k = .ok p.coerce) ∨
      (∃ v : Invoice, v.Marshal = .ok value ∧ v.InvoiceId = k ∧
        v.coerce.InvoiceId = toValidUTF8 k ∧ (ValidString k = true → v.coerce.InvoiceId = k) ∧
        ∀ f : Faults, f.getErr k = none →
          GetInvoiceById ((runAll calls start).next f) k = .ok v.coerce)) ∧
    (∀ f : Faults, f.getErr k = none →
      (∃ q, GetQuoteById ((runAll calls start).next f) k = .ok q) ∧
      (∃ p, GetPoById ((runAll calls start).next f) k = .ok p) ∧
      (∃ v, GetInvoiceById ((runAll calls start).next f) k = .ok v)) ∧
    (∃ pre call post, calls = pre ++ call :: post ∧ call.2.key = k ∧
      call.2.value = some value ∧
      (call.2.run ((runAll pre start).next call.1)).1 = .ok .done ∧
      (runAll pre start).state k ≠ some value ∧
      ∀ n, (runAll (pre ++ call :: post.take n) start).state k = some value) := by
  have henc := runAll_encodes calls start (empty_encodes start hempty) k value hst
  refine ⟨?_, fun f hget => reads_succeed _ k value hget hst henc,
    runAll_last_written start k value (by rw [hempty k]; simp) calls hst⟩
  rcases henc with ⟨q, hid, hq⟩ | ⟨p, hid, hp⟩ | ⟨v, hid, hv⟩
  · refine Or.inl ⟨q, hq, hid, by rw [← hid]; rfl, ?_, fun f hget => ?_⟩
    · intro hvalid
      rw [← hid] at hvalid ⊢
      exact toValidUTF8_valid _ hvalid
    · rw [GetQuoteById_of_state ((runAll calls start).next f) k value hget hst]
      exact Quote_Unmarshal_Marshal q value hq
  · refine Or.inr (Or.inl ⟨p, hp, hid, by rw [← hid]; rfl, ?_, fun f hget => ?_⟩)
    · intro hvalid
      rw [← hid] at hvalid ⊢
      exact toValidUTF8_valid _ hvalid
    · rw [GetPoById_of_state ((runAll calls start).next f) k value hget hst]
      exact PurchaseOrder_Unmarshal_Marshal p value hp
  · refine Or.inr (Or.inr ⟨v, hv, hid, by rw [← hid]; rfl, ?_, fun f hget => ?_⟩)
    · intro hvalid
      rw [← hid] at hvalid ⊢
      exact toValidUTF8_valid _ hvalid
    · rw [GetInvoiceById_of_state ((runAll calls start).next f) k value hget hst]
      exact Invoice_Unmarshal_Marshal v value hv

/-- Witness of C14: the key po1 after the sample calls on the empty world state. -/
theorem C14_identifier_is_key_witness :
    ((∃ q : Quote, q.Marshal = .ok (encodeStruct (PurchaseOrder.tags.zip samplePo.values)) ∧
        q.QuoteId = ascii "po1" ∧ q.coerce.QuoteId = toValidUTF8 (ascii "po1") ∧
        (ValidString (ascii "po1") = true → q.coerce.QuoteId = ascii "po1") ∧
        ∀ f : Faults, f.getErr (ascii "po1") = none →
          GetQuoteById ((runAll sampleCalls emptyStub).next f) (ascii "po1") = .ok q.coerce) ∨
      (∃ p : PurchaseOrder,
        p.Marshal = .ok (encodeStruct (PurchaseOrder.tags.zip samplePo.values)) ∧
        p.PoId = ascii "po1" ∧ p.coerce.PoId = toValidUTF8 (ascii "po1") ∧
        (ValidString (ascii "po1") = true → p.coerce.PoId = ascii "po1") ∧
        ∀ f : Faults, f.getErr (ascii "po1") = none →
          GetPoById ((runAll sampleCalls emptyStub).next f) (ascii "po1") = .ok p.coerce) ∨
      (∃ v : Invoice, v.Marshal = .ok (encodeStruct (PurchaseOrder.tags.zip samplePo.values)) ∧
        v.InvoiceId = ascii "po1" ∧ v.coerce.InvoiceId = toValidUTF8 (ascii "po1") ∧
        (ValidString (ascii "po1") = true → v.coerce.InvoiceId = ascii "po1") ∧
        ∀ f : Faults, f.getErr (ascii "po1") = none →
          GetInvoiceById ((runAll sampleCalls emptyStub).next f) (ascii "po1")
            = .ok v.coerce)) ∧
    (∀ f : Faults, f.getErr (ascii "po1") = none →
      (∃ q, GetQuoteById ((runAll sampleCalls emptyStub).next f) (ascii "po1") = .ok q) ∧
      (∃ p, GetPoById ((runAll sampleCalls emptyStub).next f) (ascii "po1") = .ok p) ∧
      (∃ v, GetInvoiceById ((runAll sampleCalls emptyStub).next f) (ascii "po1") = .ok v)) ∧
    (∃ pre call post, sampleCalls = pre ++ call :: post ∧ call.2.key = ascii "po1" ∧
      call.2.value = some (encodeStruct (PurchaseOrder.tags.zip samplePo.values)) ∧
      (call.2.run ((runAll pre emptyStub).next call.1)).1 = .ok .done ∧
      (runAll pre emptyStub).state (ascii "po1")
        ≠ some (encodeStruct (PurchaseOrder.tags.zip samplePo.values)) ∧
      ∀ n, (runAll (pre ++ call :: post.take n) emptyStub).state (ascii "po1")
        = some (encodeStruct (PurchaseOrder.tags.zip samplePo.values))) :=
  C14_identifier_is_key sampleCalls emptyStub (ascii "po1") _ (fun _ => rfl) (by decide)

/-- C14 fails as stated: after `RaisePo` of the key p1 with the quote id q7 on the empty world
state, `GetQuoteById` of p1 returns a quote whose quoteId is q7 and `GetInvoiceById` of p1 an
invoice whose invoiceId is empty; and after `PlaceQuote` of the key 0xFF (not valid UTF-8),
`GetQuoteById` of that key returns a quote whose quoteId is U+FFFD. -/
theorem C14_counterexample :
    GetQuoteById ((runAll [(noFaults, Op.RaisePo (ascii "p1") (ascii "q7") [] [] [] [] [] [])]
      emptyStub).next noFaults) (ascii "p1") = .ok ⟨ascii "q7", [], [], [], [], [], [], [], []⟩ ∧
    ascii "q7" ≠ ascii "p1" ∧
    GetInvoiceById ((runAll [(noFaults, Op.RaisePo (ascii "p1") (ascii "q7") [] [] [] [] [] [])]
      emptyStub).next noFaults) (ascii "p1")
      = .ok ⟨[], ascii "q7", [], [], ascii "p1", [], [], [], []⟩ ∧
    GetQuoteById ((runAll [(noFaults, Op.PlaceQuote [0xFF] [] [] [] [] [] [] [] [])]
      emptyStub).next noFaults) [0xFF]
      = .ok ⟨[0xEF, 0xBF, 0xBD], [], [], [], [], [], [], [], []⟩ := by
  decide

/-- C18: in every world state reached from an empty one by a sequence of exposed calls, whatever
calls on the stub fail in them, every stored value is non-empty and is what `json.Marshal`
writes for a quote, a purchase order or an invoice, and for every key that holds a value each
of the three reads by id succeeds when its read of the world state does not fail; no read by id
ever returns a decoding error. -/
theorem C18_reachable_decodable (calls : List (Faults × Op)) (start : Stub)
    (hempty : ∀ key, start.state key = none) :
    (∀ k value, (runAll calls start).state k = some value →
      value ≠ [] ∧
      ((∃ q : Quote, q.Marshal = .ok value) ∨ (∃ p : PurchaseOrder, p.Marshal = .ok value) ∨
        (∃ v : Invoice, v.Marshal = .ok value)) ∧
      (∀ f : Faults, f.getErr k = none →
        (∃ q, GetQuoteById ((runAll calls start).next f) k = .ok q) ∧
        (∃ p, GetPoById ((runAll calls start).next f) k = .ok p) ∧
        (∃ v, GetInvoiceById ((runAll calls start).next f) k = .ok v))) ∧
    (∀ (f : Faults) k e, GetQuoteById ((runAll calls start).next f) k ≠ .error (.json e) ∧
      GetPoById ((runAll calls start).next f) k ≠ .error (.json e) ∧
      GetInvoiceById ((runAll calls start).next f) k ≠ .error (.json e)) := by
  have hinv := runAll_encodes calls start (empty_encodes start hempty)
  refine ⟨?_, fun f k e => reads_no_json_error ((runAll calls start).next f) k e hinv⟩
  intro k value hst
  have henc := hinv k value hst
  refine ⟨?_, ?_, ?_⟩
  · obtain ⟨fs, _, hv⟩ := encodes_plain k value henc
    rw [hv]
    exact encodeStruct_ne_nil fs
  · rcases henc with ⟨q, _, hq⟩ | ⟨p, _, hp⟩ | ⟨v, _, hv⟩
    · exact Or.inl ⟨q, hq⟩
    · exact Or.inr (Or.inl ⟨p, hp⟩)
    · exact Or.inr (Or.inr ⟨v, hv⟩)
  · intro f hget
    exact reads_succeed ((runAll calls start).next f) k value hget hst henc

/-- Witness of C18: the key q1 after the sample quote was placed and then overwritten by
`UpdateInvoice` on the empty world state, with a transaction whose reads fail in between. -/
theorem C18_reachable_decodable_witness :
    (runAll [(noFaults, Op.PlaceQuote (ascii "q1") [] [] [] [] [] [] [] []),
      (readFaults, Op.InitLedger),
      (noFaults, Op.UpdateInvoice (ascii "q1") [0xFF] [] [] [] [] [] [] [])]
      emptyStub).state (ascii "q1")
      = some (encodeStruct (Invoice.tags.zip
          (Invoice.values ⟨ascii "q1", [0xFF], [], [], [], [], [], [], []⟩))) ∧
    encodeStruct (Invoice.tags.zip
      (Invoice.values ⟨ascii "q1", [0xFF], [], [], [], [], [], [], []⟩)) ≠ [] ∧
    (∃ q, GetQuoteById ((runAll [(noFaults, Op.PlaceQuote (ascii "q1") [] [] [] [] [] [] [] []),
      (readFaults, Op.InitLedger),
      (noFaults, Op.UpdateInvoice (ascii "q1") [0xFF] [] [] [] [] [] [] [])]
      emptyStub).next noFaults) (ascii "q1") = .ok q) ∧
    (∃ p, GetPoById ((runAll [(noFaults, Op.PlaceQuote (ascii "q1") [] [] [] [] [] [] [] []),
      (readFaults, Op.InitLedger),
      (noFaults, Op.UpdateInvoice (ascii "q1") [0xFF] [] [] [] [] [] [] [])]
      emptyStub).next noFaults) (ascii "q1") = .ok p) ∧
    (∃ v, GetInvoiceById ((runAll [(noFaults, Op.PlaceQuote (ascii "q1") [] [] [] [] [] [] [] []),
      (readFaults, Op.InitLedger),
      (noFaults, Op.UpdateInvoice (ascii "q1") [0xFF] [] [] [] [] [] [] [])]
      emptyStub).next noFaults) (ascii "q1") = .ok v) :=
  have hst : (runAll [(noFaults, Op.PlaceQuote (ascii "q1") [] [] [] [] [] [] [] []),
      (readFaults, Op.InitLedger),
      (noFaults, Op.UpdateInvoice (ascii "q1") [0xFF] [] [] [] [] [] [] [])]
      emptyStub).state (ascii "q1")
      = some (encodeStruct (Invoice.tags.zip
          (Invoice.values ⟨ascii "q1", [0xFF], [], [], [], [], [], [], []⟩))) := by decide
  have h := (C18_reachable_decodable _ emptyStub (fun _ => rfl)).1 (ascii "q1") _ hst
  ⟨hst, h.1, (h.2.2 noFaults rfl).1, (h.2.2 noFaults rfl).2.1, (h.2.2 noFaults rfl).2.2⟩

/-! ### The members of an encoded record -/

theorem unquote_name (f : Bytes × Bytes) (hn : ∀ b ∈ f.1, plainByte b.val = true) :
    unquoteBytes (0x22 :: (f.1 ++ [0x22])) = some f.1 :=
  unquoteBytes_quoted f.1 f.1 (escaped_plain f.1 hn)

theorem unquote_value (f : Bytes × Bytes) :
    unquoteBytes (appendString f.2) = some (toValidUTF8 f.2) := by
  rw [appendString_eq]
  exact unquoteBytes_quoted _ _ (escaped_appendString f.2)

theorem memberList_fields (fs : List (Bytes × Bytes)) : ∀ f : Bytes × Bytes,
    PlainNames (f :: fs) →
    memberList (memberToks f ++ (restToks fs ++ [.endObject]))
      = some ((f :: fs).map (fun g => (g.1, toValidUTF8 g.2))) := by
  induction fs with
  | nil =>
    intro f hn
    simp [memberToks, restToks, memberList, unquote_name f (hn f (by simp)), unquote_value f]
  | cons g gs ih =>
    intro f hn
    have e1 : memberToks f ++ (restToks (g :: gs) ++ [.endObject])
        = .string (0x22 :: (f.1 ++ [0x22])) :: .colon :: .string (appendString f.2) :: .comma
          :: (memberToks g ++ (restToks gs ++ [.endObject])) := by
      simp [memberToks, restToks]
    rw [e1, memberList, unquote_name f (hn f (by simp)), unquote_value f,
      ih g (plainNames_tail f (g :: gs) hn)]
    rfl

/-- The members of what `json.Marshal` writes for a struct of strings: one per field, in order,
under the name of the field, with the value coerced to valid UTF-8. -/
theorem objectMembers_encodeStruct (f : Bytes × Bytes) (fs : List (Bytes × Bytes))
    (hn : PlainNames (f :: fs)) :
    objectMembers (encodeStruct (f :: fs))
      = some ((f :: fs).map (fun g => (g.1, toValidUTF8 g.2))) := by
  simp only [objectMembers, checkValid_encodeStruct (f :: fs) hn, if_true,
    tokens_encodeStruct f fs hn, List.append_assoc]
  exact memberList_fields fs f hn

/-- C16 (amended): what `json.Marshal` writes for a record is an object with one member per
field, in field order, whose value is the field coerced to valid UTF-8 (the field itself when
it is valid UTF-8); for an invoice the keys are exactly invoiceId, quoteId, vendorId, buyerId,
poId, invoiceStatus, requestForFinance, invoiceRaisedDate, invoiceAcceptedDate; for a quote the
keys of the members other than the eighth are quoteId, vendorId, desc, itemsList, buyerId,
quoteDate, totalAmount and status; for a purchase order the keys of the members other than the
fourth are poId, quoteId, vendorLimitLeft, bankerId, poDate, currency and poStatus. -/
theorem C16_field_name_tags :
    (∀ q : Quote, ∃ quoteJSON k8, q.Marshal = .ok quoteJSON ∧
      objectMembers quoteJSON = some (List.zip
        [ascii "quoteId", ascii "vendorId", ascii "desc", ascii "itemsList", ascii "buyerId",
          ascii "quoteDate", ascii "totalAmount", k8, ascii "status"]
        (q.values.map toValidUTF8)) ∧
      (q.Valid → objectMembers quoteJSON = some (List.zip
        [ascii "quoteId", ascii "vendorId", ascii "desc", ascii "itemsList", ascii "buyerId",
          ascii "quoteDate", ascii "totalAmount", k8, ascii "status"] q.values))) ∧
    (∀ p : PurchaseOrder, ∃ poJSON k4, p.Marshal = .ok poJSON ∧
      objectMembers poJSON = some (List.zip
        [ascii "poId", ascii "quoteId", ascii "vendorLimitLeft", k4, ascii "bankerId",
          ascii "poDate", ascii "currency", ascii "poStatus"]
        (p.values.map toValidUTF8)) ∧
      (p.Valid → objectMembers poJSON = some (List.zip
        [ascii "poId", ascii "quoteId", ascii "vendorLimitLeft", k4, ascii "bankerId",
          ascii "poDate", ascii "currency", ascii "poStatus"] p.values))) ∧
    (∀ v : Invoice, ∃ invoiceJSON, v.Marshal = .ok invoiceJSON ∧
      objectMembers invoiceJSON = some (List.zip
        [ascii "invoiceId", ascii "quoteId", ascii "vendorId", ascii "buyerId", ascii "poId",
          ascii "invoiceStatus", ascii "requestForFinance", ascii "invoiceRaisedDate",
          ascii "invoiceAcceptedDate"]
        (v.values.map toValidUTF8)) ∧
      (v.Valid → objectMembers invoiceJSON = some (List.zip
        [ascii "invoiceId", ascii "quoteId", ascii "vendorId", ascii "buyerId", ascii "poId",
          ascii "invoiceStatus", ascii "requestForFinance", ascii "invoiceRaisedDate",
          ascii "invoiceAcceptedDate"] v.values))) := by
  refine ⟨?_, ?_, ?_⟩
  · intro q
    have key : objectMembers (encodeStruct (Quote.tags.zip q.values)) = some (List.zip
        [ascii "quoteId", ascii "vendorId", ascii "desc", ascii "itemsList", ascii "buyerId",
          ascii "quoteDate", ascii "totalAmount", ascii "extimatedDeliveryDate", ascii "status"]
        (q.values.map toValidUTF8)) :=
      objectMembers_encodeStruct _ _ (plainNames_zip _ q.values Quote_tags_plain)
    refine ⟨_, ascii "extimatedDeliveryDate", rfl, key, fun hv => ?_⟩
    rw [key]
    have hc := Quote_coerce_valid q hv
    have : q.values.map toValidUTF8 = q.coerce.values := rfl
    rw [this, hc]
  · intro p
    have key : objectMembers (encodeStruct (PurchaseOrder.tags.zip p.values)) = some (List.zip
        [ascii "poId", ascii "quoteId", ascii "vendorLimitLeft", ascii "VendorLimitUsed",
          ascii "bankerId", ascii "poDate", ascii "currency", ascii "poStatus"]
        (p.values.map toValidUTF8)) :=
      objectMembers_encodeStruct _ _ (plainNames_zip _ p.values PurchaseOrder_tags_plain)
    refine ⟨_, ascii "VendorLimitUsed", rfl, key, fun hv => ?_⟩
    rw [key]
    have hc := PurchaseOrder_coerce_valid p hv
    have : p.values.map toValidUTF8 = p.coerce.values := rfl
    rw [this, hc]
  · intro v
    have key : objectMembers (encodeStruct (Invoice.tags.zip v.values)) = some (List.zip
        [ascii "invoiceId", ascii "quoteId", ascii "vendorId", ascii "buyerId", ascii "poId",
          ascii "invoiceStatus", ascii "requestForFinance", ascii "invoiceRaisedDate",
          ascii "invoiceAcceptedDate"]
        (v.values.map toValidUTF8)) :=
      objectMembers_encodeStruct _ _ (plainNames_zip _ v.values Invoice_tags_plain)
    refine ⟨_, rfl, key, fun hv => ?_⟩
    rw [key]
    have hc := Invoice_coerce_valid v hv
    have : v.values.map toValidUTF8 = v.coerce.values := rfl
    rw [this, hc]

/-- Witness of C16: the members of the encoding of the sample invoice. -/
theorem C16_field_name_tags_witness :
    ∃ invoiceJSON, sampleInvoice.Marshal = .ok invoiceJSON ∧
      objectMembers invoiceJSON = some
        [(ascii "invoiceId", ascii "inv1"), (ascii "quoteId", ascii "q1"),
          (ascii "vendorId", ascii "V1"), (ascii "buyerId", ascii "B1"),
          (ascii "poId", ascii "po1"), (ascii "invoiceStatus", ascii "RAISED"),
          (ascii "requestForFinance", ascii "yes"),
          (ascii "invoiceRaisedDate", ascii "2021-01-03"), (ascii "invoiceAcceptedDate", [])] :=
  (C16_field_name_tags.2.2 sampleInvoice).imp
    (fun _ h => ⟨h.1, h.2.2 sampleInvoice_valid⟩)

/-- C16 fails as stated: the eighth key of an encoded quote is `extimatedDeliveryDate` and the
fourth key of an encoded purchase order is `VendorLimitUsed`; and a description 0xFF (not valid
UTF-8) is written as the value U+FFFD. -/
theorem C16_counterexample :
    (objectMembers (encodeStruct (Quote.tags.zip sampleQuote.values))).map (List.map Prod.fst)
      = some [ascii "quoteId", ascii "vendorId", ascii "desc", ascii "itemsList",
          ascii "buyerId", ascii "quoteDate", ascii "totalAmount",
          ascii "extimatedDeliveryDate", ascii "status"] ∧
    (objectMembers (encodeStruct (Quote.tags.zip sampleQuote.values))).map (List.map Prod.fst)
      ≠ some [ascii "quoteId", ascii "vendorId", ascii "desc", ascii "itemsList",
          ascii "buyerId", ascii "quoteDate", ascii "totalAmount",
          ascii "estimatedDeliveryDate", ascii "status"] ∧
    (objectMembers (encodeStruct (PurchaseOrder.tags.zip samplePo.values))).map
      (List.map Prod.fst)
      = some [ascii "poId", ascii "quoteId", ascii "vendorLimitLeft", ascii "VendorLimitUsed",
          ascii "bankerId", ascii "poDate", ascii "currency", ascii "poStatus"] ∧
    (objectMembers (encodeStruct (PurchaseOrder.tags.zip samplePo.values))).map
      (List.map Prod.fst)
      ≠ some [ascii "poId", ascii "quoteId", ascii "vendorLimitLeft", ascii "vendorLimitUsed",
          ascii "bankerId", ascii "poDate", ascii "currency", ascii "poStatus"] ∧
    objectMembers (encodeStruct (Quote.tags.zip
      (Quote.values ⟨ascii "q1", [], [0xFF], [], [], [], [], [], []⟩)))
      = some [(ascii "quoteId", ascii "q1"), (ascii "vendorId", []),
          (ascii "desc", [0xEF, 0xBF, 0xBD]), (ascii "itemsList", []), (ascii "buyerId", []),
          (ascii "quoteDate", []), (ascii "totalAmount", []),
          (ascii "extimatedDeliveryDate", []), (ascii "status", [])] := by
  decide

theorem updateInvoice_then_get (ctx : Stub) (v : Invoice)
    (hpre : (ctx.state v.InvoiceId).isSome = true) (hget : ctx.getErr v.InvoiceId = none)
    (hput : ∀ value, ctx.putErr v.InvoiceId value = none) :
    (v.update ctx).1 = none ∧ GetInvoiceById (v.update ctx).2 v.InvoiceId = .ok v.coerce ∧
    (v.Valid → GetInvoiceById (v.update ctx).2 v.InvoiceId = .ok v) ∧
    (v.update ctx).2.state v.InvoiceId = some (encodeStruct (Invoice.tags.zip v.values)) := by
  rw [updateInvoice_replaced ctx v hpre hget hput]
  dsimp only
  rw [GetInvoiceById_put ctx v _ hget]
  exact ⟨rfl, rfl, fun hv => by rw [Invoice_coerce_valid v hv], put_state_same ctx _ _⟩

theorem raiseInvoice_then_get (ctx : Stub) (v : Invoice)
    (habs : ctx.state v.InvoiceId = none) (hget : ctx.getErr v.InvoiceId = none)
    (hput : ∀ value, ctx.putErr v.InvoiceId value = none) :
    (v.raise ctx).1 = none ∧ GetInvoiceById (v.raise ctx).2 v.InvoiceId = .ok v.coerce ∧
    (v.raise ctx).2.state v.InvoiceId = some (encodeStruct (Invoice.tags.zip v.values)) := by
  rw [raiseInvoice_created ctx v habs hget hput]
  dsimp only
  rw [GetInvoiceById_put ctx v _ hget]
  exact ⟨rfl, rfl, put_state_same ctx _ _⟩

/-- C13 (amended): `UpdateInvoice` takes its string arguments in the order of the fields of
`Invoice` (invoiceId, quoteId, vendorId, buyerId, poId, invoiceStatus, requestForFinance,
invoiceRaisedDate, invoiceAcceptedDate): where id holds a value and reads and writes of it do
not fail, it succeeds and stores under id what `json.Marshal` writes for the invoice with these
fields, and `GetInvoiceById` of id then returns these fields coerced to valid UTF-8, hence
themselves when they are valid UTF-8. `RaiseInvoice` and `UpdateInvoice`, each called with every
field of one invoice as the argument of the same name, the first where the id is absent and the
second where it holds a value, both succeed, store the same bytes and are read back as the same
record. By position, `RaiseInvoice` takes the id, the quote id and the last four strings where
`UpdateInvoice` does, and the three strings in between in one fixed order of its own. -/
theorem C13_invoice_argument_order :
    (∀ (ctx : Stub) (id a1 a2 a3 a4 a5 a6 a7 a8 : Bytes), (ctx.state id).isSome = true →
      ctx.getErr id = none → (∀ value, ctx.putErr id value = none) →
      (UpdateInvoice ctx id a1 a2 a3 a4 a5 a6 a7 a8).1 = none ∧
      (∃ invoiceJSON,
        Invoice.Marshal
          { InvoiceId := id, QuoteId := a1, VendorId := a2, BuyerId := a3, PoId := a4,
            InvoiceStatus := a5, RequestForFinance := a6, InvoiceRaisedDate := a7,
            InvoiceAcceptedDate := a8 } = .ok invoiceJSON ∧
        (UpdateInvoice ctx id a1 a2 a3 a4 a5 a6 a7 a8).2.state id = some invoiceJSON) ∧
      GetInvoiceById (UpdateInvoice ctx id a1 a2 a3 a4 a5 a6 a7 a8).2 id
        = .ok
          { InvoiceId := toValidUTF8 id, QuoteId := toValidUTF8 a1,
            VendorId := toValidUTF8 a2, BuyerId := toValidUTF8 a3, PoId := toValidUTF8 a4,
            InvoiceStatus := toValidUTF8 a5, RequestForFinance := toValidUTF8 a6,
            InvoiceRaisedDate := toValidUTF8 a7, InvoiceAcceptedDate := toValidUTF8 a8 } ∧
      (Invoice.Valid ⟨id, a1, a2, a3, a4, a5, a6, a7, a8⟩ →
        GetInvoiceById (UpdateInvoice ctx id a1 a2 a3 a4 a5 a6 a7 a8).2 id
          = .ok
            { InvoiceId := id, QuoteId := a1, VendorId := a2, BuyerId := a3, PoId := a4,
              InvoiceStatus := a5, RequestForFinance := a6, InvoiceRaisedDate := a7,
              InvoiceAcceptedDate := a8 })) ∧
    (∀ (ctx ctx1 : Stub) (v : Invoice), ctx.state v.InvoiceId = none →
      ctx.getErr v.InvoiceId = none → (∀ value, ctx.putErr v.InvoiceId value = none) →
      (ctx1.state v.InvoiceId).isSome = true → ctx1.getErr v.InvoiceId = none →
      (∀ value, ctx1.putErr v.InvoiceId value = none) →
      (v.raise ctx).1 = none ∧ (v.update ctx1).1 = none ∧
      (v.raise ctx).2.state v.InvoiceId = (v.update ctx1).2.state v.InvoiceId ∧
      GetInvoiceById (v.raise ctx).2 v.InvoiceId = .ok v.coerce ∧
      GetInvoiceById (v.update ctx1).2 v.InvoiceId = .ok v.coerce ∧
      (v.Valid → GetInvoiceById (v.raise ctx).2 v.InvoiceId = .ok v ∧
        GetInvoiceById (v.update ctx1).2 v.InvoiceId = .ok v)) ∧
    (∃ σ : Equiv.Perm (Fin 3), ∀ (ctx ctx1 : Stub) (id a1 : Bytes) (b : Fin 3 → Bytes)
      (a5 a6 a7 a8 : Bytes), ctx.state id = none → ctx.getErr id = none →
      (∀ value, ctx.putErr id value = none) → (ctx1.state id).isSome = true →
      ctx1.getErr id = none → (∀ value, ctx1.putErr id value = none) →
      (RaiseInvoice ctx id a1 (b (σ 0)) (b (σ 1)) (b (σ 2)) a5 a6 a7 a8).1 = none ∧
      (UpdateInvoice ctx1 id a1 (b 0) (b 1) (b 2) a5 a6 a7 a8).1 = none ∧
      (RaiseInvoice ctx id a1 (b (σ 0)) (b (σ 1)) (b (σ 2)) a5 a6 a7 a8).2.state id
        = (UpdateInvoice ctx1 id a1 (b 0) (b 1) (b 2) a5 a6 a7 a8).2.state id) := by
  have hname : ∀ (ctx ctx1 : Stub) (v : Invoice), ctx.state v.InvoiceId = none →
      ctx.getErr v.InvoiceId = none → (∀ value, ctx.putErr v.InvoiceId value = none) →
      (ctx1.state v.InvoiceId).isSome = true → ctx1.getErr v.InvoiceId = none →
      (∀ value, ctx1.putErr v.InvoiceId value = none) →
      (v.raise ctx).1 = none ∧ (v.update ctx1).1 = none ∧
      (v.raise ctx).2.state v.InvoiceId = (v.update ctx1).2.state v.InvoiceId ∧
      GetInvoiceById (v.raise ctx).2 v.InvoiceId = .ok v.coerce ∧
      GetInvoiceById (v.update ctx1).2 v.InvoiceId = .ok v.coerce ∧
      (v.Valid → GetInvoiceById (v.raise ctx).2 v.InvoiceId = .ok v ∧
        GetInvoiceById (v.update ctx1).2 v.InvoiceId = .ok v) := by
    intro ctx ctx1 v habs hget hput hpre hget1 hput1
    have hr := raiseInvoice_then_get ctx v habs hget hput
    have hu := updateInvoice_then_get ctx1 v hpre hget1 hput1
    refine ⟨hr.1, hu.1, by rw [hr.2.2, hu.2.2.2], hr.2.1, hu.2.1, fun hv => ?_⟩
    rw [hr.2.1, hu.2.1, Invoice_coerce_valid v hv]
    exact ⟨rfl, rfl⟩
  refine ⟨?_, hname, ?_⟩
  · intro ctx id a1 a2 a3 a4 a5 a6 a7 a8 hpre hget hput
    have h := updateInvoice_then_get ctx ⟨id, a1, a2, a3, a4, a5, a6, a7, a8⟩ hpre hget hput
    exact ⟨h.1, ⟨_, rfl, h.2.2.2⟩, h.2.1, h.2.2.1⟩
  · refine ⟨(⟨fun i => i + 2, fun i => i + 1, by decide, by decide⟩ : Equiv.Perm (Fin 3)), ?_⟩
    intro ctx ctx1 id a1 b a5 a6 a7 a8 habs hget hput hpre hget1 hput1
    have h := hname ctx ctx1 ⟨id, a1, b 0, b 1, b 2, a5, a6, a7, a8⟩ habs hget hput hpre hget1
      hput1
    exact ⟨h.1, h.2.1, h.2.2.1⟩

/-- Witness of C13: `UpdateInvoice` of inv1 on the world state that holds the sample invoice,
and the sample invoice raised on the empty world state. -/
theorem C13_invoice_argument_order_witness :
    ((UpdateInvoice (sampleInvoice.raise emptyStub).2 (ascii "inv1") (ascii "q2") (ascii "V2")
      (ascii "B2") (ascii "po2") (ascii "PAID") (ascii "no") (ascii "d1") (ascii "d2")).1
      = none ∧
    GetInvoiceById (UpdateInvoice (sampleInvoice.raise emptyStub).2 (ascii "inv1") (ascii "q2")
      (ascii "V2") (ascii "B2") (ascii "po2") (ascii "PAID") (ascii "no") (ascii "d1")
      (ascii "d2")).2 (ascii "inv1")
      = .ok
        { InvoiceId := ascii "inv1", QuoteId := ascii "q2", VendorId := ascii "V2",
          BuyerId := ascii "B2", PoId := ascii "po2", InvoiceStatus := ascii "PAID",
          RequestForFinance := ascii "no", InvoiceRaisedDate := ascii "d1",
          InvoiceAcceptedDate := ascii "d2" }) ∧
    ((sampleInvoice.raise emptyStub).2.state (ascii "inv1")
      = (sampleInvoice.update (sampleInvoice.raise emptyStub).2).2.state (ascii "inv1") ∧
    GetInvoiceById (sampleInvoice.raise emptyStub).2 (ascii "inv1") = .ok sampleInvoice) ∧
    (∃ σ : Equiv.Perm (Fin 3),
      (RaiseInvoice emptyStub (ascii "inv1") (ascii "q1")
        (![ascii "V1", ascii "B1", ascii "po1"] (σ 0))
        (![ascii "V1", ascii "B1", ascii "po1"] (σ 1))
        (![ascii "V1", ascii "B1", ascii "po1"] (σ 2)) [] [] [] []).2.state (ascii "inv1")
      = (UpdateInvoice (sampleInvoice.raise emptyStub).2 (ascii "inv1") (ascii "q1")
        (ascii "V1") (ascii "B1") (ascii "po1") [] [] [] []).2.state (ascii "inv1")) :=
  have h := C13_invoice_argument_order.1 (sampleInvoice.raise emptyStub).2 (ascii "inv1")
    (ascii "q2") (ascii "V2") (ascii "B2") (ascii "po2") (ascii "PAID") (ascii "no")
    (ascii "d1") (ascii "d2") (by decide) rfl (fun _ => rfl)
  have hn := C13_invoice_argument_order.2.1 emptyStub (sampleInvoice.raise emptyStub).2
    sampleInvoice rfl rfl (fun _ => rfl) (by decide) rfl (fun _ => rfl)
  ⟨⟨h.1, h.2.2.2 (by decide)⟩, ⟨hn.2.2.1, (hn.2.2.2.2.2 sampleInvoice_valid).1⟩,
    C13_invoice_argument_order.2.2.imp (fun σ hσ =>
      (hσ emptyStub (sampleInvoice.raise emptyStub).2 (ascii "inv1") (ascii "q1")
        ![ascii "V1", ascii "B1", ascii "po1"] [] [] [] [] rfl rfl (fun _ => rfl) (by decide)
        rfl (fun _ => rfl)).2.2)⟩

/-- C13 fails as stated: with the same eight strings after the id, `RaiseInvoice` on the empty
world state and `UpdateInvoice` on a world state that holds inv1 store different bytes under
inv1, and after `RaiseInvoice` the read returns vendorId a3, buyerId a4 and poId a2; and
`UpdateInvoice` with the quote id 0xFF (not valid UTF-8) is read back with the quote id
U+FFFD. -/
theorem C13_counterexample :
    (RaiseInvoice emptyStub (ascii "inv1") (ascii "a1") (ascii "a2") (ascii "a3") (ascii "a4")
      (ascii "a5") (ascii "a6") (ascii "a7") (ascii "a8")).2.state (ascii "inv1")
      ≠ (UpdateInvoice (sampleInvoice.raise emptyStub).2 (ascii "inv1") (ascii "a1")
        (ascii "a2") (ascii "a3") (ascii "a4") (ascii "a5") (ascii "a6") (ascii "a7")
        (ascii "a8")).2.state (ascii "inv1") ∧
    GetInvoiceById (RaiseInvoice emptyStub (ascii "inv1") (ascii "a1") (ascii "a2") (ascii "a3")
      (ascii "a4") (ascii "a5") (ascii "a6") (ascii "a7") (ascii "a8")).2 (ascii "inv1")
      = .ok
        { InvoiceId := ascii "inv1", QuoteId := ascii "a1", VendorId := ascii "a3",
          BuyerId := ascii "a4", PoId := ascii "a2", InvoiceStatus := ascii "a5",
          RequestForFinance := ascii "a6", InvoiceRaisedDate := ascii "a7",
          InvoiceAcceptedDate := ascii "a8" } ∧
    GetInvoiceById (UpdateInvoice (sampleInvoice.raise emptyStub).2 (ascii "inv1") [0xFF] [] []
      [] [] [] [] []).2 (ascii "inv1")
      = .ok
        { InvoiceId := ascii "inv1", QuoteId := [0xEF, 0xBF, 0xBD], VendorId := [],
          BuyerId := [], PoId := [], InvoiceStatus := [], RequestForFinance := [],
          InvoiceRaisedDate := [], InvoiceAcceptedDate := [] } := by
  decide

/-- C17 (amended): the existence gates do not look at the record type. After a successful
`PlaceQuote` of id, in every later transaction whose read of the world state does not fail,
`RaisePo` and `RaiseInvoice` of id fail with the already-exists error and change nothing, while
`UpdatePo` of id, when its write does not fail either, succeeds and replaces the stored quote by
the encoding of the purchase order, so that `GetPoById` of id, when its read does not fail,
returns the arguments of the update coerced to valid UTF-8: exactly those arguments when they
are valid UTF-8. -/
theorem C17_shared_namespace (ctx : Stub) (q : Quote) (p : PurchaseOrder)
    (a b c d e f g h : Bytes) (hok : (q.place ctx).1 = none) (hid : p.PoId = q.QuoteId) :
    (∀ t : Faults, t.getErr q.QuoteId = none →
      RaisePo ((q.place ctx).2.next t) q.QuoteId a b c d e f g
        = (some (alreadyExists q.QuoteId), (q.place ctx).2.next t)) ∧
    (∀ t : Faults, t.getErr q.QuoteId = none →
      RaiseInvoice ((q.place ctx).2.next t) q.QuoteId a b c d e f g h
        = (some (alreadyExists q.QuoteId), (q.place ctx).2.next t)) ∧
    (∀ t : Faults, t.getErr q.QuoteId = none →
      (∀ poJSON, p.Marshal = .ok poJSON → t.putErr p.PoId poJSON = none) →
      (p.update ((q.place ctx).2.next t)).1 = none ∧
      (∃ poJSON, p.Marshal = .ok poJSON ∧
        (p.update ((q.place ctx).2.next t)).2.state q.QuoteId = some poJSON) ∧
      ∀ u : Faults, u.getErr q.QuoteId = none →
        GetPoById ((p.update ((q.place ctx).2.next t)).2.next u) q.QuoteId = .ok p.coerce ∧
        (p.Valid →
          GetPoById ((p.update ((q.place ctx).2.next t)).2.next u) q.QuoteId = .ok p)) := by
  obtain ⟨value, hv⟩ := PlaceQuote_success ctx _ _ _ _ _ _ _ _ _ hok
  have hv1 : (q.place ctx).2 = ctx.put q.QuoteId value := hv
  have hpre : ∀ t : Faults, (((q.place ctx).2.next t).state q.QuoteId).isSome = true := by
    intro t
    rw [next_state, hv1, put_state_same]
    rfl
  refine ⟨fun t hget => RaisePo_present _ _ a b c d e f g hget (hpre t),
    fun t hget => RaiseInvoice_present _ _ a b c d e f g h hget (hpre t), ?_⟩
  intro t hget hput
  have hupd : p.update ((q.place ctx).2.next t)
      = (none, ((q.place ctx).2.next t).put p.PoId
          (encodeStruct (PurchaseOrder.tags.zip p.values))) := by
    rw [UpdatePo_present _ p (by rw [hid]; exact hget) (by rw [hid]; exact hpre t),
      PutState_ok _ _ _ (hput _ rfl)]
    rfl
  rw [hupd]
  dsimp only
  refine ⟨rfl, ⟨_, rfl, by rw [← hid]; exact put_state_same _ _ _⟩, fun u hu => ?_⟩
  have hread : GetPoById ((((q.place ctx).2.next t).put p.PoId
      (encodeStruct (PurchaseOrder.tags.zip p.values))).next u) q.QuoteId = .ok p.coerce :=
    GetPoById_stored _ p q.QuoteId hu (by rw [next_state, ← hid]; exact put_state_same _ _ _)
  exact ⟨hread, fun hvalid => by rw [hread, PurchaseOrder_coerce_valid p hvalid]⟩

/-- Witness of C17: the sample quote placed on the empty world state, then the purchase order
calls made on its key q1. -/
theorem C17_shared_namespace_witness :
    RaisePo ((sampleQuote.place emptyStub).2.next noFaults) (ascii "q1") [] [] [] [] [] [] []
      = (some (alreadyExists (ascii "q1")), (sampleQuote.place emptyStub).2.next noFaults) ∧
    RaiseInvoice ((sampleQuote.place emptyStub).2.next noFaults) (ascii "q1") [] [] [] [] [] []
      [] [] = (some (alreadyExists (ascii "q1")), (sampleQuote.place emptyStub).2.next noFaults) ∧
    (({ samplePo with PoId := ascii "q1" } : PurchaseOrder).update
      ((sampleQuote.place emptyStub).2.next noFaults)).1 = none ∧
    GetPoById ((({ samplePo with PoId := ascii "q1" } : PurchaseOrder).update
      ((sampleQuote.place emptyStub).2.next noFaults)).2.next noFaults) (ascii "q1")
      = .ok { samplePo with PoId := ascii "q1" } :=
  have h := C17_shared_namespace emptyStub sampleQuote { samplePo with PoId := ascii "q1" }
    [] [] [] [] [] [] [] [] (by decide) rfl
  have h2 := h.2.2 noFaults rfl (fun _ _ => rfl)
  ⟨h.1 noFaults rfl, h.2.1 noFaults rfl, h2.1, (h2.2.2 noFaults rfl).2 (by decide)⟩

/-- C17 fails as stated: after the sample quote was placed, `UpdatePo` of its key with the quote
id 0xFF (not valid UTF-8) is read back by `GetPoById` with the quote id U+FFFD; on a world
state that accepts the write of the sample quote and no other, `PlaceQuote` succeeds and
`UpdatePo` of the same key returns the error of the write; and after the sample quote was
placed, in a transaction whose read of the world state fails, `RaisePo` of its key returns the
read error, which is not the already-exists error. -/
theorem C17_counterexample :
    (sampleQuote.place emptyStub).1 = none ∧
    (UpdatePo (sampleQuote.place emptyStub).2 (ascii "q1") [0xFF] [] [] [] [] [] []).1 = none ∧
    GetPoById (UpdatePo (sampleQuote.place emptyStub).2 (ascii "q1") [0xFF] [] [] [] [] []
      []).2 (ascii "q1") = .ok ⟨ascii "q1", [0xEF, 0xBF, 0xBD], [], [], [], [], [], []⟩ ∧
    pickyStub.state (ascii "q1") = none ∧
    (sampleQuote.place pickyStub).1 = none ∧
    (UpdatePo (sampleQuote.place pickyStub).2 (ascii "q1") [] [] [] [] [] [] []).1
      = some (.stub (ascii "ledger closed")) ∧
    (RaisePo ((sampleQuote.place emptyStub).2.next readFaults) (ascii "q1") [] [] [] [] [] []
      []).1 = some (readError (ascii "peer down")) ∧
    readError (ascii "peer down") ≠ alreadyExists (ascii "q1") := by
  decide

end VendorFinance
